import Mathlib

/-!
Sen2Agri orchestrator: the task-graph builder and the step binder of the L3B LAI handler.

A shallow embedding of `LaiRetrievalHandlerL3BNew`
(`sen2agri-orchestrator/processor/lairetrievalhandler_l3b_new.cpp`).

* The job-wide task list `QList<TaskToSubmit>` is a `List TaskToSubmit`.
* A parent reference `std::reference_wrapper<const TaskToSubmit>` to
  `outAllTasksList[j]` is the index `j` of the referenced task in that list.
* Every subscript `list[i]` of the source is checked: a function returns
  `none` as soon as a subscript is outside the list.
* The `int` indices are natural numbers; the source subtracts one only from
  indices that are at least one (see the remarks at each subtraction).
* The produce flags, which builder and binder resolve from the job parameters and the
  site configuration in their first lines, are arguments of the embedded functions.
-/

namespace Sen2Agri

/-! ## Data model -/

/-- Task of the job-wide list: the module name and the references to the parent tasks. -/
structure TaskToSubmit where
  moduleName : String
  parentTasks : List Nat
deriving DecidableEq, Repr

/-- The four produce flags `bGenNdvi`, `bGenLai`, `bGenFapar`, `bGenFCover`, which both builder
and binder resolve from the job parameters and the site configuration before doing anything
else (lines 18-21 and 167-170 of the source). -/
structure ProduceFlags where
  bGenNdvi : Bool
  bGenLai : Bool
  bGenFapar : Bool
  bGenFCover : Bool
deriving DecidableEq, Repr

/-- Tile of a product: `TileInfos::tileFile`, the path of the tile metadata file. -/
structure TileInfos where
  tileFile : String
deriving DecidableEq, Repr

/-! ## Task-graph builder -/

/-- The statement `outAllTasksList[child].parentTasks.append(outAllTasksList[parent])`. -/
def appendParent (l : List TaskToSubmit) (child parent : Nat) : Option (List TaskToSubmit) :=
  if parent < l.length then
    match l[child]? with
    | some t => some (l.set child { t with parentTasks := t.parentTasks ++ [parent] })
    | none => none
  else none

/-- The statement `outAllTasksList[child].parentTasks.append(refs)` for a list of references. -/
def appendParents (l : List TaskToSubmit) (child : Nat) (refs : List Nat) :
    Option (List TaskToSubmit) :=
  match l[child]? with
  | some t => some (l.set child { t with parentTasks := t.parentTasks ++ refs })
  | none => none

/-- The reference `outAllTasksList[idx]` that is appended to `productFormatterParentsRefs`. -/
def taskRef (l : List TaskToSubmit) (idx : Nat) : Option Nat :=
  if idx < l.length then some idx else none

/-- Body of the first loop of `CreateTasksForNewProduct` (lines 27-53): the tasks of one tile. -/
def appendTileTasks (g : ProduceFlags) (l : List TaskToSubmit) : List TaskToSubmit :=
  let l := l ++ [⟨"lai-processor-mask-flags", []⟩]
  let l := if g.bGenNdvi then l ++ [⟨"lai-processor-ndvi-extractor", []⟩] else l
  let l :=
    if g.bGenLai || g.bGenFapar || g.bGenFCover then
      let l := l ++ [⟨"lai-create-angles", []⟩]
      let l := l ++ [⟨"gdal_translate", []⟩]
      let l := l ++ [⟨"gdalbuildvrt", []⟩]
      let l := l ++ [⟨"gdal_translate", []⟩]
      let l :=
        if g.bGenLai then
          l ++ [⟨"lai-processor", []⟩] ++ [⟨"lai-quantify-image", []⟩] ++ [⟨"gen-domain-flags", []⟩]
        else l
      let l :=
        if g.bGenFapar then
          l ++ [⟨"fapar-processor", []⟩] ++ [⟨"fapar-quantify-image", []⟩]
            ++ [⟨"gen-domain-flags", []⟩]
        else l
      let l :=
        if g.bGenFCover then
          l ++ [⟨"fcover-processor", []⟩] ++ [⟨"fcover-quantify-image", []⟩]
            ++ [⟨"gen-domain-flags", []⟩]
        else l
      l
    else l
  l ++ [⟨"gen-domain-flags", []⟩]

/-- The first loop of `CreateTasksForNewProduct` (line 26), run for `n` tiles. -/
def appendAllTiles (g : ProduceFlags) : Nat → List TaskToSubmit → List TaskToSubmit
  | 0, l => l
  | n + 1, l => appendAllTiles g n (appendTileTasks g l)

/-- Source function `CreateAnglesTasks`: returns the list, the returned `nCurTaskIdx` and `nAnglesTaskId`. -/
def CreateAnglesTasks (parentTaskId : Nat) (outAllTasksList : List TaskToSubmit)
    (nCurTaskIdx : Nat) : Option (List TaskToSubmit × Nat × Nat) := do
  let createAnglesIdx := nCurTaskIdx
  let l ← appendParent outAllTasksList createAnglesIdx parentTaskId
  let anglesGdalTranslateNoDataIdx := nCurTaskIdx + 1
  let l ← appendParent l anglesGdalTranslateNoDataIdx createAnglesIdx
  let gdalBuildVrtIdx := nCurTaskIdx + 2
  let l ← appendParent l gdalBuildVrtIdx anglesGdalTranslateNoDataIdx
  let anglesResamleIdx := nCurTaskIdx + 3
  let l ← appendParent l anglesResamleIdx gdalBuildVrtIdx
  some (l, nCurTaskIdx + 4, anglesResamleIdx)

/-- Source function `CreateBiophysicalIndicatorTasks`: returns the list, `productFormatterParentsRefs` and the
returned `nCurTaskIdx`. -/
def CreateBiophysicalIndicatorTasks (parentTaskId : Nat) (outAllTasksList : List TaskToSubmit)
    (productFormatterParentsRefs : List Nat) (nCurTaskIdx : Nat) :
    Option (List TaskToSubmit × List Nat × Nat) := do
  let nBIProcessorIdx := nCurTaskIdx
  let l ← appendParent outAllTasksList nBIProcessorIdx parentTaskId
  -- domain-flags-image -> BI-processor
  let nBIDomainFlagsImageIdx := nCurTaskIdx + 1
  let l ← appendParent l nBIDomainFlagsImageIdx nBIProcessorIdx
  -- BI-quantify-image -> domain-flags-image
  let nBIQuantifyImageIdx := nCurTaskIdx + 2
  let l ← appendParent l nBIQuantifyImageIdx nBIDomainFlagsImageIdx
  let r ← taskRef l nBIQuantifyImageIdx
  some (l, productFormatterParentsRefs ++ [r], nCurTaskIdx + 3)

/-- The local `bChainProducts` of `CreateTasksForNewProduct`, which the source sets to `true`. -/
def bChainProducts : Bool := true

/-- The indicator part of the second loop (lines 94-109): returns the list, the references
collected for the product formatter and `nCurTaskIdx`. -/
def wireIndicators (g : ProduceFlags) (flagsTaskIdx : Nat) (l : List TaskToSubmit)
    (refs : List Nat) (nCurTaskIdx : Nat) : Option (List TaskToSubmit × List Nat × Nat) :=
  if g.bGenLai || g.bGenFapar || g.bGenFCover then do
    let (l, nCurTaskIdx, nAnglesTaskId) ← CreateAnglesTasks flagsTaskIdx l nCurTaskIdx
    let (l, refs, nCurTaskIdx) ←
      (if g.bGenLai then CreateBiophysicalIndicatorTasks nAnglesTaskId l refs nCurTaskIdx
        else some (l, refs, nCurTaskIdx))
    let (l, refs, nCurTaskIdx) ←
      (if g.bGenFapar then CreateBiophysicalIndicatorTasks nAnglesTaskId l refs nCurTaskIdx
        else some (l, refs, nCurTaskIdx))
    let (l, refs, nCurTaskIdx) ←
      (if g.bGenFCover then CreateBiophysicalIndicatorTasks nAnglesTaskId l refs nCurTaskIdx
        else some (l, refs, nCurTaskIdx))
    some (l, refs, nCurTaskIdx)
  else some (l, refs, nCurTaskIdx)

/-- Body of the second loop of `CreateTasksForNewProduct` (lines 76-113) on the state
`(outAllTasksList, productFormatterParentsRefs, nCurTaskIdx)`. The subtraction at line 79 is
only evaluated when `initialTasksNo > 0`, when `nCurTaskIdx ≥ initialTasksNo ≥ 1`; the one at
line 87 follows the increment of line 83. -/
def wireTile (g : ProduceFlags) (initialTasksNo : Nat)
    (st : List TaskToSubmit × List Nat × Nat) : Option (List TaskToSubmit × List Nat × Nat) := do
  let (l, refs, nCurTaskIdx) := st
  let l ←
    (if bChainProducts && decide (initialTasksNo > 0) then
      appendParent l nCurTaskIdx (nCurTaskIdx - 1)
    else some l)
  let nCurTaskIdx := nCurTaskIdx + 1
  let flagsTaskIdx := nCurTaskIdx - 1
  let (l, refs, nCurTaskIdx) ←
    (if g.bGenNdvi then do
      let ndviRviExtrIdx := nCurTaskIdx
      let l ← appendParent l ndviRviExtrIdx flagsTaskIdx
      let r ← taskRef l ndviRviExtrIdx
      some (l, refs ++ [r], nCurTaskIdx + 1)
    else some (l, refs, nCurTaskIdx))
  let (l, refs, nCurTaskIdx) ← wireIndicators g flagsTaskIdx l refs nCurTaskIdx
  let nInputDomainIdx := nCurTaskIdx
  let l ← appendParent l nInputDomainIdx flagsTaskIdx
  let r ← taskRef l nInputDomainIdx
  some (l, refs ++ [r], nCurTaskIdx + 1)

/-- The second loop of `CreateTasksForNewProduct` (line 75), run for `n` tiles. -/
def wireAllTiles (g : ProduceFlags) (initialTasksNo : Nat) :
    Nat → List TaskToSubmit × List Nat × Nat → Option (List TaskToSubmit × List Nat × Nat)
  | 0, st => some st
  | n + 1, st => (wireTile g initialTasksNo st).bind (wireAllTiles g initialTasksNo n)

/-- Source function `CreateTasksForNewProduct` with the produce flags already resolved: appends the tasks of
the product to `outAllTasksList` and wires their parents. -/
def CreateTasksForNewProduct (g : ProduceFlags) (outAllTasksList : List TaskToSubmit)
    (tileInfosList : List TileInfos) (bRemoveTempFiles : Bool) : Option (List TaskToSubmit) := do
  let initialTasksNo := outAllTasksList.length
  let nbLaiMonoProducts := tileInfosList.length
  let l := appendAllTiles g nbLaiMonoProducts outAllTasksList
  let l := l ++ [⟨"lai-processor-product-formatter", []⟩]
  let l := if bRemoveTempFiles then l ++ [⟨"files-remover", []⟩] else l
  let nCurTaskIdx := initialTasksNo
  let (l, productFormatterParentsRefs, nCurTaskIdx) ←
    wireAllTiles g initialTasksNo nbLaiMonoProducts (l, [], nCurTaskIdx)
  let productFormatterIdx := nCurTaskIdx
  let nCurTaskIdx := nCurTaskIdx + 1
  let l ← appendParents l productFormatterIdx productFormatterParentsRefs
  (if bRemoveTempFiles then
    -- cleanup-intermediate-files -> product formatter
    appendParent l nCurTaskIdx (nCurTaskIdx - 1)
  else some l)



/-! ## Step binder -/

/-- Step handed to the executor: the task it was created from (by index in the job-wide
list), the step name and the argument vector. -/
structure NewStep where
  task : Nat
  stepName : String
  arguments : List String
deriving DecidableEq, Repr

/-- Modelled from the spec: `TaskToSubmit::CreateStep` is declared outside the sources at hand;
by the data model a step is bound to exactly one task and carries a step name and the final
argument vector. -/
def CreateStep (task : Nat) (stepName : String) (arguments : List String) : NewStep :=
  ⟨task, stepName, arguments⟩

/-- The per-tile accumulator `TileResultFiles`; a default-constructed `QString` is empty. -/
structure TileResultFiles where
  tileFile : String := ""
  tileId : String := ""
  resolutionStr : String := ""
  bHasNdvi : Bool := false
  bHasLai : Bool := false
  bHasFapar : Bool := false
  bHasFCover : Bool := false
  statusFlagsFile : String := ""
  statusFlagsFileResampled : String := ""
  ndviFile : String := ""
  anglesFile : String := ""
  laiFile : String := ""
  laiDomainFlagsFile : String := ""
  faparFile : String := ""
  faparDomainFlagsFile : String := ""
  fcoverFile : String := ""
  fcoverDomainFlagsFile : String := ""
  inDomainFlagsFile : String := ""
deriving DecidableEq, Repr

/-- What the binder obtains from code outside the sources at hand: the file path that
`TaskToSubmit::GetFilePath` gives for the task at an index and a file name, the helpers
`ProcessorHandlerHelper::GetTileId` and `GetProductFormatterTile`, and the values read from
the event, the job parameters and the site configuration. -/
structure BinderContext where
  GetFilePath : Nat → String → String
  GetTileId : String → String
  GetProductFormatterTile : String → String
  /-- Result of `GetFinalProductFolder(ctx, event.jobId, event.siteId)`. -/
  targetFolder : String
  /-- The constant `PRODUCT_FORMATTER_OUT_PROPS_FILE`. -/
  outPropsFileName : String
  /-- The configuration value `processor.l3b.lai.lut_path`. -/
  lutFile : String
  /-- The site id `event.siteId`. -/
  siteId : Int
  /-- Result of `IsCloudOptimizedGeotiff(configParameters)`. -/
  cloudOptimizedGeotiff : Bool
  /-- The configuration value `processor.l3b.lai.laibandscfgfile`. -/
  laiCfgFile : String
  /-- The value that `GetParameterValueAsInt(parameters, "resolution", resolution)` stores when
  it returns true, `none` when it returns false. -/
  resolutionParam : Option Int

/-- Library function `QString::toUpper` on the index names, which are lower-case ASCII
words. -/
def toUpper (s : String) : String := String.mk (s.data.map Char.toUpper)

/-- Source function `GetCreateAnglesArgs`. -/
def GetCreateAnglesArgs (inputProduct anglesFile : String) : List String :=
  ["CreateAnglesRaster", "-xml", inputProduct, "-out", anglesFile]

/-- Source function `GetGdalTranslateAnglesNoDataArgs`. -/
def GetGdalTranslateAnglesNoDataArgs (anglesFile resultAnglesFile : String) : List String :=
  ["-of", "GTiff", "-a_nodata", "-10000", anglesFile, resultAnglesFile]

/-- Source function `GetGdalBuildAnglesVrtArgs`. -/
def GetGdalBuildAnglesVrtArgs (anglesFile resultVrtFile : String) : List String :=
  ["-tr", "10", "10", "-r", "bilinear", "-srcnodata", "-10000", "-vrtnodata", "-10000",
    resultVrtFile, anglesFile]

/-- Source function `GetGdalTranslateResampleAnglesArgs`. -/
def GetGdalTranslateResampleAnglesArgs (vrtFile resultResampledAnglesFile : String) :
    List String :=
  [vrtFile, resultResampledAnglesFile]

/-- Source function `GetNdviRviExtractionNewArgs`. -/
def GetNdviRviExtractionNewArgs (inputProduct msksFlagsFile ndviFile resolution
    laiBandsCfg : String) : List String :=
  ["NdviRviExtractionNew", "-xml", inputProduct, "-msks", msksFlagsFile, "-ndvi", ndviFile,
    "-outres", resolution, "-laicfgs", laiBandsCfg]

/-- Source function `GetLaiProcessorArgs`. -/
def GetLaiProcessorArgs (xmlFile anglesFileName resolution laiBandsCfg monoDateLaiFileName
    indexName : String) : List String :=
  let outParamName := "-out" ++ indexName
  ["BVLaiNewProcessor", "-xml", xmlFile, "-angles", anglesFileName, outParamName,
    monoDateLaiFileName, "-outres", resolution, "-laicfgs", laiBandsCfg]

/-- Source function `GetGenerateInputDomainFlagsArgs`. -/
def GetGenerateInputDomainFlagsArgs (xmlFile laiBandsCfg outFlagsFileName outRes : String) :
    List String :=
  ["GenerateDomainQualityFlags", "-xml", xmlFile, "-laicfgs", laiBandsCfg,
    "-outf", outFlagsFileName, "-outres", outRes]

/-- Source function `GetGenerateOutputDomainFlagsArgs`. -/
def GetGenerateOutputDomainFlagsArgs (xmlFile laiRasterFile laiBandsCfg indexName
    outFlagsFileName outCorrectedLaiFile outRes : String) : List String :=
  ["GenerateDomainQualityFlags", "-xml", xmlFile, "-in", laiRasterFile, "-laicfgs", laiBandsCfg,
    "-indextype", indexName, "-outf", outFlagsFileName, "-out", outCorrectedLaiFile,
    "-outres", outRes]

/-- Source function `GetQuantifyImageArgs`. -/
def GetQuantifyImageArgs (inFileName outFileName : String) : List String :=
  ["QuantifyImage", "-in", inFileName, "-out", outFileName]

/-- Source function `GetMonoDateMskFlagsArgs`. -/
def GetMonoDateMskFlagsArgs (inputProduct monoDateMskFlgsFileName monoDateMskFlgsResFileName
    resStr : String) : List String :=
  ["GenerateLaiMonoDateMaskFlags", "-inxml", inputProduct, "-out", monoDateMskFlgsFileName,
    "-outres", resStr, "-outresampled", monoDateMskFlgsResFileName]

/-- Source function `InitTileResultFiles` on a default-constructed `TileResultFiles`. -/
def InitTileResultFiles (ctx : BinderContext) (g : ProduceFlags) (resolutionStr : String)
    (tileFileName : String) (tileResultFileInfo : TileResultFiles) : TileResultFiles :=
  { tileResultFileInfo with
    bHasNdvi := g.bGenNdvi
    bHasLai := g.bGenLai
    bHasFapar := g.bGenFapar
    bHasFCover := g.bGenFCover
    resolutionStr := resolutionStr
    tileFile := tileFileName
    tileId := ctx.GetTileId tileFileName }

/-- State that the per-task binders thread: `curTaskIdx`, `tileResultFileInfo`, `steps` and
`cleanupTemporaryFilesList`. -/
abbrev BindState := Nat × TileResultFiles × List NewStep × List String

/-- Source function `GetStepsForStatusFlags`. -/
def GetStepsForStatusFlags (ctx : BinderContext) (allTasksList : List TaskToSubmit)
    (curTaskIdx : Nat) (tileResultFileInfo : TileResultFiles) (steps : List NewStep)
    (cleanupTemporaryFilesList : List String) : Option BindState := do
  let genMonoDateMskFagsTask ← taskRef allTasksList curTaskIdx
  let curTaskIdx := curTaskIdx + 1
  let info := { tileResultFileInfo with
    statusFlagsFile := ctx.GetFilePath genMonoDateMskFagsTask "LAI_mono_date_msk_flgs_img.tif" }
  let info := { info with
    statusFlagsFileResampled :=
      ctx.GetFilePath genMonoDateMskFagsTask "LAI_mono_date_msk_flgs_img_resampled.tif" }
  let genMonoDateMskFagsArgs := GetMonoDateMskFlagsArgs info.tileFile info.statusFlagsFile
    info.statusFlagsFileResampled info.resolutionStr
  let steps := steps ++
    [CreateStep genMonoDateMskFagsTask "GenerateLaiMonoDateMaskFlags" genMonoDateMskFagsArgs]
  let cleanup := cleanupTemporaryFilesList ++ [info.statusFlagsFile]
  let cleanup := cleanup ++ [info.statusFlagsFileResampled]
  some (curTaskIdx, info, steps, cleanup)

/-- Source function `GetStepsForNdvi`. -/
def GetStepsForNdvi (ctx : BinderContext) (allTasksList : List TaskToSubmit)
    (curTaskIdx : Nat) (tileResultFileInfo : TileResultFiles) (laiCfgFile : String)
    (steps : List NewStep) (cleanupTemporaryFilesList : List String) : Option BindState := do
  let ndviRviExtractorTask ← taskRef allTasksList curTaskIdx
  let curTaskIdx := curTaskIdx + 1
  let info := { tileResultFileInfo with
    ndviFile := ctx.GetFilePath ndviRviExtractorTask "single_ndvi.tif" }
  let ndviRviExtractionArgs := GetNdviRviExtractionNewArgs info.tileFile info.statusFlagsFile
    info.ndviFile info.resolutionStr laiCfgFile
  let steps := steps ++
    [CreateStep ndviRviExtractorTask "NdviRviExtractionNew" ndviRviExtractionArgs]
  let cleanup := cleanupTemporaryFilesList ++ [info.ndviFile]
  some (curTaskIdx, info, steps, cleanup)

/-- Source function `GetStepsForAnglesCreation`. -/
def GetStepsForAnglesCreation (ctx : BinderContext) (allTasksList : List TaskToSubmit)
    (curTaskIdx : Nat) (tileResultFileInfo : TileResultFiles) (steps : List NewStep)
    (cleanupTemporaryFilesList : List String) : Option BindState := do
  let createAnglesTask ← taskRef allTasksList curTaskIdx
  let gdalTranslateNoDataTask ← taskRef allTasksList (curTaskIdx + 1)
  let anglesCreateVrtTask ← taskRef allTasksList (curTaskIdx + 2)
  let anglesResampleTask ← taskRef allTasksList (curTaskIdx + 3)
  let curTaskIdx := curTaskIdx + 4
  let anglesSmallResFileName := ctx.GetFilePath createAnglesTask "angles_small_res.tif"
  let anglesSmallResNoDataFileName :=
    ctx.GetFilePath gdalTranslateNoDataTask "angles_small_res_no_data.tif"
  let anglesVrtFileName := ctx.GetFilePath anglesCreateVrtTask "angles.vrt"
  let info := { tileResultFileInfo with
    anglesFile := ctx.GetFilePath anglesResampleTask "angles_resampled.tif" }
  let createAnglesArgs := GetCreateAnglesArgs info.tileFile anglesSmallResFileName
  let gdalSetAnglesNoDataArgs :=
    GetGdalTranslateAnglesNoDataArgs anglesSmallResFileName anglesSmallResNoDataFileName
  let gdalBuildAnglesVrtArgs :=
    GetGdalBuildAnglesVrtArgs anglesSmallResNoDataFileName anglesVrtFileName
  let gdalResampleAnglesArgs :=
    GetGdalTranslateResampleAnglesArgs anglesVrtFileName info.anglesFile
  let steps := steps ++ [CreateStep createAnglesTask "CreateAnglesRaster" createAnglesArgs]
  let steps := steps ++ [CreateStep gdalTranslateNoDataTask "gdal_translate" gdalSetAnglesNoDataArgs]
  let steps := steps ++ [CreateStep anglesCreateVrtTask "gdalbuildvrt" gdalBuildAnglesVrtArgs]
  let steps := steps ++ [CreateStep anglesResampleTask "gdal_translate" gdalResampleAnglesArgs]
  let cleanup := cleanupTemporaryFilesList ++ [anglesSmallResFileName]
  let cleanup := cleanup ++ [anglesSmallResNoDataFileName]
  let cleanup := cleanup ++ [anglesVrtFileName]
  let cleanup := cleanup ++ [info.anglesFile]
  some (curTaskIdx, info, steps, cleanup)

/-- Source function `GetStepsForMonoDateBI`. -/
def GetStepsForMonoDateBI (ctx : BinderContext) (allTasksList : List TaskToSubmit)
    (indexName : String) (curTaskIdx : Nat) (laiCfgFile : String)
    (tileResultFileInfo : TileResultFiles) (steps : List NewStep)
    (cleanupTemporaryFilesList : List String) : Option BindState := do
  let indexNameCaps := toUpper indexName
  let biProcessorTask ← taskRef allTasksList curTaskIdx
  let biDomainFlagsTask ← taskRef allTasksList (curTaskIdx + 1)
  let quantifyBIImageTask ← taskRef allTasksList (curTaskIdx + 2)
  let curTaskIdx := curTaskIdx + 3
  let BIFileName := ctx.GetFilePath biProcessorTask (indexNameCaps ++ "_mono_date_img.tif")
  let quantifiedBIFileName :=
    ctx.GetFilePath quantifyBIImageTask (indexNameCaps ++ "_mono_date_img_16.tif")
  let BIProcessorArgs := GetLaiProcessorArgs tileResultFileInfo.tileFile
    tileResultFileInfo.anglesFile tileResultFileInfo.resolutionStr laiCfgFile BIFileName indexName
  let steps := steps ++
    [CreateStep biProcessorTask ("BVLaiNewProcessor" ++ indexNameCaps) BIProcessorArgs]
  let domainFlagsFileName :=
    ctx.GetFilePath biDomainFlagsTask (indexNameCaps ++ "_out_domain_flags.tif")
  let correctedBIFileName :=
    ctx.GetFilePath biDomainFlagsTask (indexNameCaps ++ "_corrected_mono_date.tif")
  let outDomainFlagsArgs := GetGenerateOutputDomainFlagsArgs tileResultFileInfo.tileFile
    BIFileName laiCfgFile indexName domainFlagsFileName correctedBIFileName
    tileResultFileInfo.resolutionStr
  let steps := steps ++
    [CreateStep biDomainFlagsTask ("Generate" ++ indexNameCaps ++ "InDomainQualityFlags")
      outDomainFlagsArgs]
  let quantifyFcoverImageArgs := GetQuantifyImageArgs correctedBIFileName quantifiedBIFileName
  let steps := steps ++
    [CreateStep quantifyBIImageTask ("Quantify" ++ indexNameCaps ++ "Image")
      quantifyFcoverImageArgs]
  let info :=
    if indexName = "fapar" then
      { tileResultFileInfo with
        faparDomainFlagsFile := domainFlagsFileName, faparFile := quantifiedBIFileName }
    else if indexName = "fcover" then
      { tileResultFileInfo with
        fcoverDomainFlagsFile := domainFlagsFileName, fcoverFile := quantifiedBIFileName }
    else
      { tileResultFileInfo with
        laiDomainFlagsFile := domainFlagsFileName, laiFile := quantifiedBIFileName }
  let cleanup := cleanupTemporaryFilesList ++ [BIFileName]
  let cleanup := cleanup ++ [correctedBIFileName]
  let cleanup := cleanup ++ [quantifiedBIFileName]
  some (curTaskIdx, info, steps, cleanup)

/-- Source function `GetStepsForInDomainFlags`; the source leaves its last parameter, the list of the files to
clean up, unnamed and unused. -/
def GetStepsForInDomainFlags (ctx : BinderContext) (allTasksList : List TaskToSubmit)
    (curTaskIdx : Nat) (laiCfgFile : String) (tileResultFileInfo : TileResultFiles)
    (steps : List NewStep) (cleanupTemporaryFilesList : List String) : Option BindState := do
  let inputDomainTask ← taskRef allTasksList curTaskIdx
  let curTaskIdx := curTaskIdx + 1
  let info := { tileResultFileInfo with
    inDomainFlagsFile := ctx.GetFilePath inputDomainTask "Input_domain_flags.tif" }
  let inDomainFlagsArgs := GetGenerateInputDomainFlagsArgs info.tileFile laiCfgFile
    info.inDomainFlagsFile info.resolutionStr
  let steps := steps ++
    [CreateStep inputDomainTask "GenerateInDomainQualityFlags" inDomainFlagsArgs]
  some (curTaskIdx, info, steps, cleanupTemporaryFilesList)

/-- One section of the product formatter arguments: the key, then for every tile its tile-id
token and one of its files. -/
def formatterSection (ctx : BinderContext) (key : String) (file : TileResultFiles → String)
    (tileResultFilesList : List TileResultFiles) : List String :=
  [key] ++ tileResultFilesList.flatMap fun t => [ctx.GetProductFormatterTile t.tileId, file t]

/-- Source function `GetLaiMonoProductFormatterArgs`; the side effect `WriteExecutionInfosFile`, which writes
the sidecar file and has no part in the arguments, is left out. The subscripts
`tileResultFilesList[0]` are checked. -/
def GetLaiMonoProductFormatterArgs (ctx : BinderContext) (productFormatterTask : Nat)
    (tileResultFilesList : List TileResultFiles) : Option (List String) := do
  let targetFolder := ctx.targetFolder
  let outPropsPath := ctx.GetFilePath productFormatterTask ctx.outPropsFileName
  let executionInfosPath := ctx.GetFilePath productFormatterTask "executionInfos.xml"
  let lutFile := ctx.lutFile
  let args := ["ProductFormatter", "-destroot", targetFolder, "-fileclass", "OPER",
    "-level", "L3B", "-baseline", "01.00", "-siteid", toString ctx.siteId,
    "-processor", "vegetation", "-compress", "1", "-gipp", executionInfosPath,
    "-outprops", outPropsPath]
  let args := args ++ ["-il"]
  let args := args ++ tileResultFilesList.map (fun t => t.tileFile)
  let args := if lutFile.length > 0 then args ++ ["-lut"] ++ [lutFile] else args
  let args := args ++ formatterSection ctx "-processor.vegetation.laistatusflgs"
    (fun t => t.statusFlagsFileResampled) tileResultFilesList
  let args := args ++ formatterSection ctx "-processor.vegetation.indomainflgs"
    (fun t => t.inDomainFlagsFile) tileResultFilesList
  let first ← tileResultFilesList[0]?
  let args :=
    if first.bHasNdvi then
      args ++ formatterSection ctx "-processor.vegetation.laindvi" (fun t => t.ndviFile)
        tileResultFilesList
    else args
  let first ← tileResultFilesList[0]?
  let args :=
    if first.bHasLai then
      args ++ formatterSection ctx "-processor.vegetation.laimonodate" (fun t => t.laiFile)
          tileResultFilesList
        ++ formatterSection ctx "-processor.vegetation.laidomainflgs"
          (fun t => t.laiDomainFlagsFile) tileResultFilesList
    else args
  let first ← tileResultFilesList[0]?
  let args :=
    if first.bHasFapar then
      args ++ formatterSection ctx "-processor.vegetation.faparmonodate" (fun t => t.faparFile)
          tileResultFilesList
        ++ formatterSection ctx "-processor.vegetation.fapardomainflgs"
          (fun t => t.faparDomainFlagsFile) tileResultFilesList
    else args
  let first ← tileResultFilesList[0]?
  let args :=
    if first.bHasFCover then
      args ++ formatterSection ctx "-processor.vegetation.fcovermonodate"
          (fun t => t.fcoverFile) tileResultFilesList
        ++ formatterSection ctx "-processor.vegetation.fcoverdomaniflgs"
          (fun t => t.fcoverDomainFlagsFile) tileResultFilesList
    else args
  let args := if ctx.cloudOptimizedGeotiff then args ++ ["-cog"] ++ ["1"] else args
  some args

/-- The indicator part of the loop body of `GetStepsForMonodateLai` (lines 197-211). -/
def bindIndicators (ctx : BinderContext) (g : ProduceFlags) (allTasksList : List TaskToSubmit)
    (laiCfgFile : String) (st : BindState) : Option BindState :=
  if g.bGenLai || g.bGenFapar || g.bGenFCover then do
    let (curTaskIdx, info, steps, cleanup) := st
    let (curTaskIdx, info, steps, cleanup) ←
      GetStepsForAnglesCreation ctx allTasksList curTaskIdx info steps cleanup
    let (curTaskIdx, info, steps, cleanup) ←
      (if g.bGenLai then
        GetStepsForMonoDateBI ctx allTasksList "lai" curTaskIdx laiCfgFile info steps cleanup
      else some (curTaskIdx, info, steps, cleanup))
    let (curTaskIdx, info, steps, cleanup) ←
      (if g.bGenFapar then
        GetStepsForMonoDateBI ctx allTasksList "fapar" curTaskIdx laiCfgFile info steps cleanup
      else some (curTaskIdx, info, steps, cleanup))
    let (curTaskIdx, info, steps, cleanup) ←
      (if g.bGenFCover then
        GetStepsForMonoDateBI ctx allTasksList "fcover" curTaskIdx laiCfgFile info steps cleanup
      else some (curTaskIdx, info, steps, cleanup))
    some (curTaskIdx, info, steps, cleanup)
  else some st

/-- Body of the loop of `GetStepsForMonodateLai` (lines 187-214) for one tile, on the state
`(curTaskIdx, tileResultFileInfos, steps, cleanupTemporaryFilesList)`. -/
def bindTile (ctx : BinderContext) (g : ProduceFlags) (allTasksList : List TaskToSubmit)
    (laiCfgFile resolutionStr : String) (prdTileInfo : TileInfos)
    (st : Nat × List TileResultFiles × List NewStep × List String) :
    Option (Nat × List TileResultFiles × List NewStep × List String) := do
  let (curTaskIdx, tileResultFileInfos, steps, cleanup) := st
  let info := InitTileResultFiles ctx g resolutionStr prdTileInfo.tileFile {}
  let (curTaskIdx, info, steps, cleanup) ←
    GetStepsForStatusFlags ctx allTasksList curTaskIdx info steps cleanup
  let (curTaskIdx, info, steps, cleanup) ←
    (if g.bGenNdvi then
      GetStepsForNdvi ctx allTasksList curTaskIdx info laiCfgFile steps cleanup
    else some (curTaskIdx, info, steps, cleanup))
  let (curTaskIdx, info, steps, cleanup) ←
    bindIndicators ctx g allTasksList laiCfgFile (curTaskIdx, info, steps, cleanup)
  let (curTaskIdx, info, steps, cleanup) ←
    GetStepsForInDomainFlags ctx allTasksList curTaskIdx laiCfgFile info steps cleanup
  some (curTaskIdx, tileResultFileInfos ++ [info], steps, cleanup)

/-- The loop of `GetStepsForMonodateLai` (line 186) over the tiles of the product. -/
def bindAllTiles (ctx : BinderContext) (g : ProduceFlags) (allTasksList : List TaskToSubmit)
    (laiCfgFile resolutionStr : String) :
    List TileInfos → Nat × List TileResultFiles × List NewStep × List String →
      Option (Nat × List TileResultFiles × List NewStep × List String)
  | [], st => some st
  | tile :: tiles, st =>
    (bindTile ctx g allTasksList laiCfgFile resolutionStr tile st).bind
      (bindAllTiles ctx g allTasksList laiCfgFile resolutionStr tiles)

/-- The resolution string of `GetStepsForMonodateLai` (lines 173-178): 10 when the parameter
is absent or zero. -/
def resolutionString (ctx : BinderContext) : String :=
  let resolution : Int :=
    match ctx.resolutionParam with
    | none => 10
    | some r => if r = 0 then 10 else r
  toString resolution

/-- Source function `GetStepsForMonodateLai` with the produce flags already resolved: returns the steps and the
final `curTaskIdx`. -/
def GetStepsForMonodateLaiIdx (ctx : BinderContext) (g : ProduceFlags)
    (prdTilesInfosList : List TileInfos) (allTasksList : List TaskToSubmit)
    (bRemoveTempFiles : Bool) (tasksStartIdx : Nat) : Option (List NewStep × Nat) := do
  let laiCfgFile := ctx.laiCfgFile
  let resolutionStr := resolutionString ctx
  let curTaskIdx := tasksStartIdx
  let (curTaskIdx, tileResultFileInfos, steps, cleanupTemporaryFilesList) ←
    bindAllTiles ctx g allTasksList laiCfgFile resolutionStr prdTilesInfosList
      (curTaskIdx, [], [], [])
  let laiMonoProductFormatterTask ← taskRef allTasksList curTaskIdx
  let curTaskIdx := curTaskIdx + 1
  let productFormatterArgs ←
    GetLaiMonoProductFormatterArgs ctx laiMonoProductFormatterTask tileResultFileInfos
  let steps := steps ++ [CreateStep laiMonoProductFormatterTask "ProductFormatter" productFormatterArgs]
  (if bRemoveTempFiles then do
    let cleanupTemporaryFilesTask ← taskRef allTasksList curTaskIdx
    let curTaskIdx := curTaskIdx + 1
    -- add also the cleanup step
    some (steps ++ [CreateStep cleanupTemporaryFilesTask "CleanupTemporaryFiles"
      cleanupTemporaryFilesList], curTaskIdx)
  else some (steps, curTaskIdx))

/-- Source function `GetStepsForMonodateLai`: the steps of the product whose tasks start at `tasksStartIdx`. -/
def GetStepsForMonodateLai (ctx : BinderContext) (g : ProduceFlags)
    (prdTilesInfosList : List TileInfos) (allTasksList : List TaskToSubmit)
    (bRemoveTempFiles : Bool) (tasksStartIdx : Nat) : Option (List NewStep) :=
  (GetStepsForMonodateLaiIdx ctx g prdTilesInfosList allTasksList bRemoveTempFiles
    tasksStartIdx).map Prod.fst

/-! ## Closed forms -/

/-- Number of enabled indicators among LAI, FAPAR and FCOVER. -/
def indicatorCount (g : ProduceFlags) : Nat :=
  g.bGenLai.toNat + g.bGenFapar.toNat + g.bGenFCover.toNat

/-- Number of tasks of one tile: `2 + [ndvi] + [any indicator] * (4 + 3 * indicators)`. -/
def tasksPerTile (g : ProduceFlags) : Nat :=
  2 + g.bGenNdvi.toNat +
    (if g.bGenLai || g.bGenFapar || g.bGenFCover then 4 + 3 * indicatorCount g else 0)

/-- The three tasks of one indicator as appended by the first loop. -/
def freshIndicator (en : Bool) (processorName quantifyName : String) : List TaskToSubmit :=
  if en then [⟨processorName, []⟩, ⟨quantifyName, []⟩, ⟨"gen-domain-flags", []⟩] else []

/-- The angles and indicator tasks of one tile as appended by the first loop. -/
def freshIndicators (g : ProduceFlags) : List TaskToSubmit :=
  if g.bGenLai || g.bGenFapar || g.bGenFCover then
    [⟨"lai-create-angles", []⟩, ⟨"gdal_translate", []⟩, ⟨"gdalbuildvrt", []⟩,
      ⟨"gdal_translate", []⟩] ++
    (freshIndicator g.bGenLai "lai-processor" "lai-quantify-image" ++
    (freshIndicator g.bGenFapar "fapar-processor" "fapar-quantify-image" ++
    freshIndicator g.bGenFCover "fcover-processor" "fcover-quantify-image"))
  else []

/-- The tasks of one tile as appended by the first loop. -/
def freshTile (g : ProduceFlags) : List TaskToSubmit :=
  [⟨"lai-processor-mask-flags", []⟩] ++
  ((if g.bGenNdvi then [⟨"lai-processor-ndvi-extractor", []⟩] else []) ++
  (freshIndicators g ++ [⟨"gen-domain-flags", []⟩]))

/-- The three wired tasks of one indicator, the first of which is at index `c`. -/
def wiredIndicator (en : Bool) (processorName quantifyName : String) (anglesIdx c : Nat) :
    List TaskToSubmit :=
  if en then
    [⟨processorName, [anglesIdx]⟩, ⟨quantifyName, [c]⟩, ⟨"gen-domain-flags", [c + 1]⟩]
  else []

/-- The wired angles and indicator tasks of a tile; `f` is the index of the mask-flags task
and `c` the index of the first angles task. -/
def wiredIndicators (g : ProduceFlags) (f c : Nat) : List TaskToSubmit :=
  if g.bGenLai || g.bGenFapar || g.bGenFCover then
    [⟨"lai-create-angles", [f]⟩, ⟨"gdal_translate", [c]⟩, ⟨"gdalbuildvrt", [c + 1]⟩,
      ⟨"gdal_translate", [c + 2]⟩] ++
    (wiredIndicator g.bGenLai "lai-processor" "lai-quantify-image" (c + 3) (c + 4) ++
    (wiredIndicator g.bGenFapar "fapar-processor" "fapar-quantify-image" (c + 3)
      (c + 4 + 3 * g.bGenLai.toNat) ++
    wiredIndicator g.bGenFCover "fcover-processor" "fcover-quantify-image" (c + 3)
      (c + 4 + 3 * g.bGenLai.toNat + 3 * g.bGenFapar.toNat)))
  else []

/-- The references that the indicators of a tile contribute to the product formatter; `c` is
the index of the first angles task. -/
def indicatorRefs (g : ProduceFlags) (c : Nat) : List Nat :=
  if g.bGenLai || g.bGenFapar || g.bGenFCover then
    (if g.bGenLai then [c + 6] else []) ++
    ((if g.bGenFapar then [c + 6 + 3 * g.bGenLai.toNat] else []) ++
    (if g.bGenFCover then [c + 6 + 3 * g.bGenLai.toNat + 3 * g.bGenFapar.toNat] else []))
  else []

/-- The wired tasks of the tile whose mask-flags task is at index `b`; `chained` tells whether
the mask-flags task received a parent. -/
def wiredTile (g : ProduceFlags) (chained : Bool) (b : Nat) : List TaskToSubmit :=
  [⟨"lai-processor-mask-flags", if chained then [b - 1] else []⟩] ++
  ((if g.bGenNdvi then [⟨"lai-processor-ndvi-extractor", [b]⟩] else []) ++
  (wiredIndicators g b (b + 1 + g.bGenNdvi.toNat) ++ [⟨"gen-domain-flags", [b]⟩]))

/-- The references that the tile whose mask-flags task is at index `b` contributes to the
product formatter. -/
def tileFormatterRefs (g : ProduceFlags) (b : Nat) : List Nat :=
  (if g.bGenNdvi then [b + 1] else []) ++
  (indicatorRefs g (b + 1 + g.bGenNdvi.toNat) ++ [b + tasksPerTile g - 1])

/-- The tasks of `n` tiles as appended by the first loop. -/
def freshTiles (g : ProduceFlags) : Nat → List TaskToSubmit
  | 0 => []
  | n + 1 => freshTile g ++ freshTiles g n

/-- The wired tasks of `n` consecutive tiles, the first of which starts at index `b`. -/
def wiredTiles (g : ProduceFlags) (chained : Bool) (b : Nat) : Nat → List TaskToSubmit
  | 0 => []
  | n + 1 => wiredTile g chained b ++ wiredTiles g chained (b + tasksPerTile g) n

/-- The references that `n` consecutive tiles, the first of which starts at index `b`,
contribute to the product formatter. -/
def formatterRefs (g : ProduceFlags) (b : Nat) : Nat → List Nat
  | 0 => []
  | n + 1 => tileFormatterRefs g b ++ formatterRefs g (b + tasksPerTile g) n

/-- The list that `CreateTasksForNewProduct` builds from `init` for `n` tiles. -/
def builtList (g : ProduceFlags) (init : List TaskToSubmit) (n : Nat) (bRemoveTempFiles : Bool) :
    List TaskToSubmit :=
  init ++ (wiredTiles g (decide (0 < init.length)) init.length n ++
    (⟨"lai-processor-product-formatter", formatterRefs g init.length n⟩ ::
      (if bRemoveTempFiles then [⟨"files-remover", [init.length + n * tasksPerTile g]⟩]
        else [])))

/-- The step bound to the mask-flags task at index `b`. -/
def statusFlagsStep (ctx : BinderContext) (res tileFile : String) (b : Nat) : NewStep :=
  CreateStep b "GenerateLaiMonoDateMaskFlags"
    (GetMonoDateMskFlagsArgs tileFile (ctx.GetFilePath b "LAI_mono_date_msk_flgs_img.tif")
      (ctx.GetFilePath b "LAI_mono_date_msk_flgs_img_resampled.tif") res)

/-- The step bound to the NDVI task at index `b + 1` of the tile starting at `b`. -/
def ndviStep (ctx : BinderContext) (res tileFile : String) (b : Nat) : NewStep :=
  CreateStep (b + 1) "NdviRviExtractionNew"
    (GetNdviRviExtractionNewArgs tileFile (ctx.GetFilePath b "LAI_mono_date_msk_flgs_img.tif")
      (ctx.GetFilePath (b + 1) "single_ndvi.tif") res ctx.laiCfgFile)

/-- The steps bound to the four angles tasks, the first of which is at index `a`. -/
def anglesSteps (ctx : BinderContext) (tileFile : String) (a : Nat) : List NewStep :=
  [CreateStep a "CreateAnglesRaster"
      (GetCreateAnglesArgs tileFile (ctx.GetFilePath a "angles_small_res.tif")),
    CreateStep (a + 1) "gdal_translate"
      (GetGdalTranslateAnglesNoDataArgs (ctx.GetFilePath a "angles_small_res.tif")
        (ctx.GetFilePath (a + 1) "angles_small_res_no_data.tif")),
    CreateStep (a + 2) "gdalbuildvrt"
      (GetGdalBuildAnglesVrtArgs (ctx.GetFilePath (a + 1) "angles_small_res_no_data.tif")
        (ctx.GetFilePath (a + 2) "angles.vrt")),
    CreateStep (a + 3) "gdal_translate"
      (GetGdalTranslateResampleAnglesArgs (ctx.GetFilePath (a + 2) "angles.vrt")
        (ctx.GetFilePath (a + 3) "angles_resampled.tif"))]

/-- The steps bound to the three tasks of an indicator, the first of which is at index `c`;
`a` is the index of the first angles task of the tile. -/
def indicatorSteps (ctx : BinderContext) (en : Bool) (res tileFile indexName caps : String)
    (a c : Nat) : List NewStep :=
  if en then
    [CreateStep c ("BVLaiNewProcessor" ++ caps)
        (GetLaiProcessorArgs tileFile (ctx.GetFilePath (a + 3) "angles_resampled.tif") res
          ctx.laiCfgFile (ctx.GetFilePath c (caps ++ "_mono_date_img.tif")) indexName),
      CreateStep (c + 1) ("Generate" ++ caps ++ "InDomainQualityFlags")
        (GetGenerateOutputDomainFlagsArgs tileFile
          (ctx.GetFilePath c (caps ++ "_mono_date_img.tif")) ctx.laiCfgFile indexName
          (ctx.GetFilePath (c + 1) (caps ++ "_out_domain_flags.tif"))
          (ctx.GetFilePath (c + 1) (caps ++ "_corrected_mono_date.tif")) res),
      CreateStep (c + 2) ("Quantify" ++ caps ++ "Image")
        (GetQuantifyImageArgs (ctx.GetFilePath (c + 1) (caps ++ "_corrected_mono_date.tif"))
          (ctx.GetFilePath (c + 2) (caps ++ "_mono_date_img_16.tif")))]
  else []

/-- The step bound to the input-domain task at index `c`. -/
def inDomainStep (ctx : BinderContext) (res tileFile : String) (c : Nat) : NewStep :=
  CreateStep c "GenerateInDomainQualityFlags"
    (GetGenerateInputDomainFlagsArgs tileFile ctx.laiCfgFile
      (ctx.GetFilePath c "Input_domain_flags.tif") res)

/-- The steps bound to the tasks of the tile starting at index `b`. -/
def tileSteps (ctx : BinderContext) (g : ProduceFlags) (res tileFile : String) (b : Nat) :
    List NewStep :=
  let a := b + 1 + g.bGenNdvi.toNat
  [statusFlagsStep ctx res tileFile b] ++
  ((if g.bGenNdvi then [ndviStep ctx res tileFile b] else []) ++
  ((if g.bGenLai || g.bGenFapar || g.bGenFCover then
    anglesSteps ctx tileFile a ++
    (indicatorSteps ctx g.bGenLai res tileFile "lai" "LAI" a (a + 4) ++
    (indicatorSteps ctx g.bGenFapar res tileFile "fapar" "FAPAR" a
      (a + 4 + 3 * g.bGenLai.toNat) ++
    indicatorSteps ctx g.bGenFCover res tileFile "fcover" "FCOVER" a
      (a + 4 + 3 * g.bGenLai.toNat + 3 * g.bGenFapar.toNat)))
  else []) ++ [inDomainStep ctx res tileFile (b + tasksPerTile g - 1)]))

/-- The files of an indicator that are put on the list of the files to clean up. -/
def indicatorCleanup (ctx : BinderContext) (en : Bool) (caps : String) (c : Nat) : List String :=
  if en then
    [ctx.GetFilePath c (caps ++ "_mono_date_img.tif"),
      ctx.GetFilePath (c + 1) (caps ++ "_corrected_mono_date.tif"),
      ctx.GetFilePath (c + 2) (caps ++ "_mono_date_img_16.tif")]
  else []

/-- The files of the tile starting at index `b` that are put on the list of the files to
clean up. -/
def tileCleanup (ctx : BinderContext) (g : ProduceFlags) (b : Nat) : List String :=
  let a := b + 1 + g.bGenNdvi.toNat
  [ctx.GetFilePath b "LAI_mono_date_msk_flgs_img.tif",
    ctx.GetFilePath b "LAI_mono_date_msk_flgs_img_resampled.tif"] ++
  ((if g.bGenNdvi then [ctx.GetFilePath (b + 1) "single_ndvi.tif"] else []) ++
  (if g.bGenLai || g.bGenFapar || g.bGenFCover then
    [ctx.GetFilePath a "angles_small_res.tif",
      ctx.GetFilePath (a + 1) "angles_small_res_no_data.tif",
      ctx.GetFilePath (a + 2) "angles.vrt", ctx.GetFilePath (a + 3) "angles_resampled.tif"] ++
    (indicatorCleanup ctx g.bGenLai "LAI" (a + 4) ++
    (indicatorCleanup ctx g.bGenFapar "FAPAR" (a + 4 + 3 * g.bGenLai.toNat) ++
    indicatorCleanup ctx g.bGenFCover "FCOVER"
      (a + 4 + 3 * g.bGenLai.toNat + 3 * g.bGenFapar.toNat)))
  else []))

/-- The accumulator of the tile starting at index `b` after its tasks are bound. -/
def tileResult (ctx : BinderContext) (g : ProduceFlags) (res tileFile : String) (b : Nat) :
    TileResultFiles :=
  let a := b + 1 + g.bGenNdvi.toNat
  let any := g.bGenLai || g.bGenFapar || g.bGenFCover
  let cF := a + 4 + 3 * g.bGenLai.toNat
  let cC := a + 4 + 3 * g.bGenLai.toNat + 3 * g.bGenFapar.toNat
  { tileFile := tileFile
    tileId := ctx.GetTileId tileFile
    resolutionStr := res
    bHasNdvi := g.bGenNdvi
    bHasLai := g.bGenLai
    bHasFapar := g.bGenFapar
    bHasFCover := g.bGenFCover
    statusFlagsFile := ctx.GetFilePath b "LAI_mono_date_msk_flgs_img.tif"
    statusFlagsFileResampled := ctx.GetFilePath b "LAI_mono_date_msk_flgs_img_resampled.tif"
    ndviFile := if g.bGenNdvi then ctx.GetFilePath (b + 1) "single_ndvi.tif" else ""
    anglesFile := if any then ctx.GetFilePath (a + 3) "angles_resampled.tif" else ""
    laiFile := if any && g.bGenLai then ctx.GetFilePath (a + 6) "LAI_mono_date_img_16.tif" else ""
    laiDomainFlagsFile :=
      if any && g.bGenLai then ctx.GetFilePath (a + 5) "LAI_out_domain_flags.tif" else ""
    faparFile :=
      if any && g.bGenFapar then ctx.GetFilePath (cF + 2) "FAPAR_mono_date_img_16.tif" else ""
    faparDomainFlagsFile :=
      if any && g.bGenFapar then ctx.GetFilePath (cF + 1) "FAPAR_out_domain_flags.tif" else ""
    fcoverFile :=
      if any && g.bGenFCover then ctx.GetFilePath (cC + 2) "FCOVER_mono_date_img_16.tif" else ""
    fcoverDomainFlagsFile :=
      if any && g.bGenFCover then ctx.GetFilePath (cC + 1) "FCOVER_out_domain_flags.tif" else ""
    inDomainFlagsFile := ctx.GetFilePath (b + tasksPerTile g - 1) "Input_domain_flags.tif" }

/-- The accumulators of consecutive tiles, the first of which starts at index `b`. -/
def tileResults (ctx : BinderContext) (g : ProduceFlags) (res : String) :
    List TileInfos → Nat → List TileResultFiles
  | [], _ => []
  | tile :: tiles, b =>
    tileResult ctx g res tile.tileFile b :: tileResults ctx g res tiles (b + tasksPerTile g)

/-- The steps bound to the tasks of consecutive tiles, the first of which starts at `b`. -/
def productTileSteps (ctx : BinderContext) (g : ProduceFlags) (res : String) :
    List TileInfos → Nat → List NewStep
  | [], _ => []
  | tile :: tiles, b =>
    tileSteps ctx g res tile.tileFile b ++ productTileSteps ctx g res tiles (b + tasksPerTile g)

/-- The files of `n` consecutive tiles, the first of which starts at `b`, that are put on the
list of the files to clean up. -/
def productCleanup (ctx : BinderContext) (g : ProduceFlags) (b : Nat) : Nat → List String
  | 0 => []
  | n + 1 => tileCleanup ctx g b ++ productCleanup ctx g (b + tasksPerTile g) n

/-- The argument vector of the product formatter task at index `f` for the tiles `infos`. -/
def formatterArgs (ctx : BinderContext) (g : ProduceFlags) (f : Nat)
    (infos : List TileResultFiles) : List String :=
  ["ProductFormatter", "-destroot", ctx.targetFolder, "-fileclass", "OPER",
    "-level", "L3B", "-baseline", "01.00", "-siteid", toString ctx.siteId,
    "-processor", "vegetation", "-compress", "1", "-gipp", ctx.GetFilePath f "executionInfos.xml",
    "-outprops", ctx.GetFilePath f ctx.outPropsFileName] ++
  (["-il"] ++ (infos.map (fun t => t.tileFile) ++
  ((if ctx.lutFile.length > 0 then ["-lut", ctx.lutFile] else []) ++
  (formatterSection ctx "-processor.vegetation.laistatusflgs"
    (fun t => t.statusFlagsFileResampled) infos ++
  (formatterSection ctx "-processor.vegetation.indomainflgs"
    (fun t => t.inDomainFlagsFile) infos ++
  ((if g.bGenNdvi then
    formatterSection ctx "-processor.vegetation.laindvi" (fun t => t.ndviFile) infos
    else []) ++
  ((if g.bGenLai then
    formatterSection ctx "-processor.vegetation.laimonodate" (fun t => t.laiFile) infos ++
    formatterSection ctx "-processor.vegetation.laidomainflgs"
      (fun t => t.laiDomainFlagsFile) infos
    else []) ++
  ((if g.bGenFapar then
    formatterSection ctx "-processor.vegetation.faparmonodate" (fun t => t.faparFile) infos ++
    formatterSection ctx "-processor.vegetation.fapardomainflgs"
      (fun t => t.faparDomainFlagsFile) infos
    else []) ++
  ((if g.bGenFCover then
    formatterSection ctx "-processor.vegetation.fcovermonodate" (fun t => t.fcoverFile) infos ++
    formatterSection ctx "-processor.vegetation.fcoverdomaniflgs"
      (fun t => t.fcoverDomainFlagsFile) infos
    else []) ++
  (if ctx.cloudOptimizedGeotiff then ["-cog", "1"] else []))))))))))

/-- The steps that `GetStepsForMonodateLai` returns for a product whose tasks start at index
`s`. -/
def productSteps (ctx : BinderContext) (g : ProduceFlags) (tiles : List TileInfos)
    (rm : Bool) (s : Nat) : List NewStep :=
  productTileSteps ctx g (resolutionString ctx) tiles s ++
  (CreateStep (s + tiles.length * tasksPerTile g) "ProductFormatter"
      (formatterArgs ctx g (s + tiles.length * tasksPerTile g)
        (tileResults ctx g (resolutionString ctx) tiles s)) ::
    (if rm then
      [CreateStep (s + tiles.length * tasksPerTile g + 1) "CleanupTemporaryFiles"
        (productCleanup ctx g s tiles.length)]
    else []))

/-! ## Predicates and tables used in the statements -/

/-- Every task of `l`, taken with its index counted from `b`, satisfies `P`. -/
def AllFrom (P : Nat → TaskToSubmit → Prop) (b : Nat) (l : List TaskToSubmit) : Prop :=
  ∀ k t, l[k]? = some t → P (b + k) t

/-- The child link of the task graph: the task at index `a` is a parent of the task at index
`c` of the list `l`. -/
def ChildLink (l : List TaskToSubmit) (a c : Nat) : Prop :=
  ∃ t, l[c]? = some t ∧ a ∈ t.parentTasks

/-- Modelled from the spec: the output files of one indicator per the output-path table of the
step binder, as pairs of the task index and the file name; `c` is the index of the
processor task and `caps` the indicator name in upper case. -/
def indicatorOutputFiles (en : Bool) (caps : String) (c : Nat) : List (Nat × String) :=
  if en then
    [(c, caps ++ "_mono_date_img.tif"), (c + 1, caps ++ "_out_domain_flags.tif"),
      (c + 1, caps ++ "_corrected_mono_date.tif"), (c + 2, caps ++ "_mono_date_img_16.tif")]
  else []

/-- Modelled from the spec: the output-path table of the step binder for the tasks of the tile
that starts at index `b`: every intermediate output file as the pair of the index of the task
it is assigned to and its file name, in the order of the table. -/
def tileOutputFiles (g : ProduceFlags) (b : Nat) : List (Nat × String) :=
  let a := b + 1 + g.bGenNdvi.toNat
  [(b, "LAI_mono_date_msk_flgs_img.tif"), (b, "LAI_mono_date_msk_flgs_img_resampled.tif")] ++
  ((if g.bGenNdvi then [(b + 1, "single_ndvi.tif")] else []) ++
  ((if g.bGenLai || g.bGenFapar || g.bGenFCover then
    [(a, "angles_small_res.tif"), (a + 1, "angles_small_res_no_data.tif"),
      (a + 2, "angles.vrt"), (a + 3, "angles_resampled.tif")] ++
    (indicatorOutputFiles g.bGenLai "LAI" (a + 4) ++
    (indicatorOutputFiles g.bGenFapar "FAPAR" (a + 4 + 3 * g.bGenLai.toNat) ++
    indicatorOutputFiles g.bGenFCover "FCOVER"
      (a + 4 + 3 * g.bGenLai.toNat + 3 * g.bGenFapar.toNat)))
  else []) ++ [(b + tasksPerTile g - 1, "Input_domain_flags.tif")]))

/-- The file names of the domain-flags rasters: `<IND>_out_domain_flags.tif` and
`Input_domain_flags.tif`. -/
def isDomainFlagsFile (name : String) : Bool :=
  name = "LAI_out_domain_flags.tif" || name = "FAPAR_out_domain_flags.tif" ||
    name = "FCOVER_out_domain_flags.tif" || name = "Input_domain_flags.tif"

/-- A binder context for concrete runs: the path of a file is the index of its task, a slash
and the file name. -/
def sampleContext : BinderContext :=
  { GetFilePath := fun i f => toString i ++ "/" ++ f
    GetTileId := id
    GetProductFormatterTile := id
    targetFolder := "/out"
    outPropsFileName := "product_properties.txt"
    lutFile := ""
    siteId := 1
    cloudOptimizedGeotiff := false
    laiCfgFile := "lai.cfg"
    resolutionParam := none }


/-! ## Flag and tile-filter resolution -/

/-- Library type `QJsonValue`. A JSON number is a finite double and is kept as the rational
number it denotes. -/
inductive QJsonValue where
  | null
  | bool (b : Bool)
  | double (d : ℚ)
  | string (s : String)
  | array (items : List QJsonValue)
  | object (members : List (String × QJsonValue))
  | undefined

/-- Library function `QJsonValue::isDouble`. -/
def QJsonValue.isDouble : QJsonValue → Bool
  | .double _ => true
  | _ => false

/-- Library function `QJsonValue::isString`. -/
def QJsonValue.isString : QJsonValue → Bool
  | .string _ => true
  | _ => false

/-- Library function `QJsonValue::toInt()`: the number when the value is a number that is whole
and fits an `int`, otherwise the default value `0`. -/
def QJsonValue.toInt : QJsonValue → Int
  | .double d => if d.den = 1 ∧ -2147483648 ≤ d.num ∧ d.num ≤ 2147483647 then d.num else 0
  | _ => 0

/-- Library function `QJsonValue::toString()`: the string of a string value, otherwise the
empty string. -/
def QJsonValue.toQString : QJsonValue → String
  | .string s => s
  | _ => ""

/-- Library type `QJsonObject`: the members of a JSON object. -/
structure QJsonObject where
  members : List (String × QJsonValue)

/-- Library function `QJsonObject::contains`. -/
def QJsonObject.contains (o : QJsonObject) (key : String) : Bool :=
  (o.members.lookup key).isSome

/-- Library function `QJsonObject::operator[]`: the value of the key, `undefined` when the key
is absent. -/
def QJsonObject.value (o : QJsonObject) (key : String) : QJsonValue :=
  (o.members.lookup key).getD QJsonValue.undefined

/-- The configuration `std::map<QString, QString>` as the list of its entries. -/
abbrev ConfigMap := List (String × String)

/-- The subscript `configParameters[key]` of `std::map`, which gives the empty string for a
key that is absent. -/
def configValue (configParameters : ConfigMap) (key : String) : String :=
  (configParameters.lookup key).getD ""

/-- Library function `QChar::isSpace`: the ASCII characters tab, line feed, vertical tab, form
feed, carriage return and space, the next-line and no-break space characters, and the
characters of the Unicode separator categories. -/
def QChar_isSpace (c : Char) : Bool :=
  let n := c.toNat
  n = 0x20 || (0x09 ≤ n && n ≤ 0x0D) || n = 0x85 || n = 0xA0 || n = 0x1680 ||
    (0x2000 ≤ n && n ≤ 0x200A) || n = 0x2028 || n = 0x2029 || n = 0x202F || n = 0x205F ||
    n = 0x3000

/-- The characters of a string without the white space at its start and at its end. -/
def trimmedChars (cs : List Char) : List Char :=
  ((cs.dropWhile QChar_isSpace).reverse.dropWhile QChar_isSpace).reverse

/-- Library function `QString::trimmed`. -/
def QString_trimmed (s : String) : String := String.mk (trimmedChars s.data)

/-- The pieces of a list of characters between the occurrences of the separator; empty pieces
are kept. -/
def splitChars (sep : Char) : List Char → List (List Char)
  | [] => [[]]
  | c :: cs =>
    if c = sep then [] :: splitChars sep cs
    else
      match splitChars sep cs with
      | [] => [[c]]
      | p :: ps => (c :: p) :: ps

/-- Library function `QString::split` for a separator character, with the empty parts kept. -/
def QString_split (sep : Char) (s : String) : List String :=
  (splitChars sep s.data).map String.mk

/-- The value of a non-empty list of decimal digits. -/
def digitsValue (ds : List Char) : Option Nat :=
  if ds ≠ [] ∧ ds.all Char.isDigit then
    some (ds.foldl (fun n c => 10 * n + (c.toNat - '0'.toNat)) 0)
  else none

/-- Library function `QString::toInt()`: the decimal number that the string denotes, white
space at both ends and a sign being allowed, and `0` when the string is no such number or the
number does not fit an `int`. -/
def QString_toInt (s : String) : Int :=
  let cs := trimmedChars s.data
  let signed : Bool × List Char :=
    match cs with
    | '-' :: r => (true, r)
    | '+' :: r => (false, r)
    | r => (false, r)
  match digitsValue signed.2 with
  | some n =>
    let v : Int := if signed.1 then -(n : Int) else (n : Int)
    if -2147483648 ≤ v ∧ v ≤ 2147483647 then v else 0
  | none => 0

/-- Source function `IsParamOrConfigKeySet`. -/
def IsParamOrConfigKeySet (parameters : QJsonObject) (configParameters : ConfigMap)
    (cmdLineParamName cfgParamKey : String) (defVal : Bool) : Bool :=
  let bIsConfigKeySet := defVal
  if parameters.contains cmdLineParamName then
    let value := parameters.value cmdLineParamName
    if value.isDouble then decide (value.toInt ≠ 0)
    else if value.isString then decide (value.toQString = "1")
    else bIsConfigKeySet
  else
    if cfgParamKey ≠ "" then
      decide (QString_toInt (configValue configParameters cfgParamKey) ≠ 0)
    else bIsConfigKeySet

/-- The filter string of `GetTilesFilter` (lines 767-776): the string parameter `tiles_filter`
when it is present and not empty, otherwise the configuration value
`processor.l3b.lai.tiles_filter`. -/
def tilesFilterString (parameters : QJsonObject) (configParameters : ConfigMap) : String :=
  let strTilesFilter :=
    if parameters.contains "tiles_filter" then
      let value := parameters.value "tiles_filter"
      if value.isString then value.toQString else ""
    else ""
  if strTilesFilter = "" then configValue configParameters "processor.l3b.lai.tiles_filter"
  else strTilesFilter

/-- Source function `GetTilesFilter`; the `QSet<QString>` it returns is a finite set of
strings. -/
def GetTilesFilter (parameters : QJsonObject) (configParameters : ConfigMap) : Finset String :=
  let strTilesFilter := tilesFilterString parameters configParameters
  let tilesList := QString_split ',' strTilesFilter
  tilesList.foldl
    (fun retSet strTile =>
      let strTrimmedTile := QString_trimmed strTile
      if strTrimmedTile ≠ "" then insert strTrimmedTile retSet else retSet)
    ∅

/-- One section of the product formatter arguments in terms of the tiles of the product: the
key, then for the tile at every position its tile-id token and the path given for that
position. -/
def tileSection (ctx : BinderContext) (key : String) (tiles : List TileInfos)
    (path : Nat → String) : List String :=
  key :: tiles.enum.flatMap fun it =>
    [ctx.GetProductFormatterTile (ctx.GetTileId it.2.tileFile), path it.1]


/-- The files that `GetStepsForMonoDateBI` asks the three tasks of one indicator for with
`GetFilePath`, as pairs of the index of the task and the file name, in the order of the calls
(lines 300, 301, 307 and 308); `c` is the index of the processor task and `indexNameCaps` the
indicator name in upper case. -/
def monoDateBIFilePaths (en : Bool) (indexNameCaps : String) (c : Nat) : List (Nat × String) :=
  if en then
    [(c, indexNameCaps ++ "_mono_date_img.tif"), (c + 2, indexNameCaps ++ "_mono_date_img_16.tif"),
      (c + 1, indexNameCaps ++ "_out_domain_flags.tif"),
      (c + 1, indexNameCaps ++ "_corrected_mono_date.tif")]
  else []

/-- The files that the step binder asks the tasks of the tile starting at index `b` for with
`GetFilePath`, as pairs of the index of the task and the file name, in the order of the calls
of `GetStepsForStatusFlags` (lines 233 and 234), `GetStepsForNdvi` (line 252),
`GetStepsForAnglesCreation` (lines 271 to 274), `GetStepsForMonoDateBI` and
`GetStepsForInDomainFlags` (line 340). -/
def tileFilePaths (g : ProduceFlags) (b : Nat) : List (Nat × String) :=
  let a := b + 1 + g.bGenNdvi.toNat
  [(b, "LAI_mono_date_msk_flgs_img.tif"), (b, "LAI_mono_date_msk_flgs_img_resampled.tif")] ++
  ((if g.bGenNdvi then [(b + 1, "single_ndvi.tif")] else []) ++
  ((if g.bGenLai || g.bGenFapar || g.bGenFCover then
    [(a, "angles_small_res.tif"), (a + 1, "angles_small_res_no_data.tif"),
      (a + 2, "angles.vrt"), (a + 3, "angles_resampled.tif")] ++
    (monoDateBIFilePaths g.bGenLai "LAI" (a + 4) ++
    (monoDateBIFilePaths g.bGenFapar "FAPAR" (a + 4 + 3 * g.bGenLai.toNat) ++
    monoDateBIFilePaths g.bGenFCover "FCOVER"
      (a + 4 + 3 * g.bGenLai.toNat + 3 * g.bGenFapar.toNat)))
  else []) ++ [(b + tasksPerTile g - 1, "Input_domain_flags.tif")]))

/-! ## Processing context, job submission and completion -/

/-- Enumeration `ProcessorHandlerHelper::SatelliteIdType`; the source names the unknown
satellite and Sentinel-2, every other satellite is `other`. -/
inductive SatelliteIdType where
  | SATELLITE_ID_TYPE_UNKNOWN
  | SATELLITE_ID_TYPE_S2
  | other
deriving DecidableEq, Repr

/-- Enumeration `ProductType`; the source names the L2A and the L3B product type. -/
inductive ProductType where
  | L2AProductTypeId
  | L3BProductTypeId
  | other
deriving DecidableEq, Repr

/-- Enumeration `JobStartType`. -/
inductive JobStartType where
  | Triggered
  | Requested
  | Scheduled
deriving DecidableEq, Repr

/-- Library type `QDateTime`: whether the value is valid and its instant in milliseconds
since the epoch, by which the library compares two values. -/
structure QDateTime where
  isValid : Bool
  msecs : Int
deriving DecidableEq, Repr

/-- Record `NewProduct` in the order of the initialiser of line 524; the location is always
`nullopt` and is left out. -/
structure NewProduct where
  productType : ProductType
  processorId : Int
  satelliteId : SatelliteIdType
  siteId : Int
  jobId : Int
  fullPath : String
  createdTimestamp : QDateTime
  name : String
  quicklookImage : String
  footprint : String
  tiles : List String
deriving DecidableEq, Repr

/-- Record `NewJob`. -/
structure NewJob where
  processorId : Int
  siteId : Int
  startType : JobStartType
  parametersJson : String
deriving DecidableEq, Repr

/-- Call that a handler makes on the processing context or on the executor, in the order in
which the calls are made. `SubmitTasks` holds the submitted tasks, whose parent references are
indices of the job-wide list. -/
inductive ContextCall where
  | MarkJobFailed (jobId : Int)
  | SubmitTasks (jobId : Int) (tasks : List TaskToSubmit)
  | SubmitSteps (steps : List NewStep)
  | MarkJobFinished (jobId : Int)
  | RemoveJobFolder (jobId : Int) (procName : String)
  | InsertProduct (product : NewProduct)
  | SubmitJob (job : NewJob)
deriving DecidableEq, Repr

/-- Outcome of a handler: the calls it made and, when it ended by throwing
`std::runtime_error`, the message of the error. -/
structure Run where
  calls : List ContextCall
  raised : Option String
deriving DecidableEq, Repr

/-- Event `JobSubmittedEvent`; `parameters` is the object that
`QJsonDocument::fromJson(event.parametersJson.toUtf8()).object()` gives. -/
structure JobSubmittedEvent where
  jobId : Int
  processorId : Int
  siteId : Int
  parameters : QJsonObject

/-- What `HandleJobSubmittedImpl` and `HandleProduct` obtain from code outside the sources at
hand. -/
structure SubmissionContext where
  /-- Result of `ctx.GetJobConfigurationParameters(event.jobId, "processor.l3b.")`. -/
  configParameters : ConfigMap
  /-- The default of the last parameter of `IsParamOrConfigKeySet`, which the header
  declares. -/
  defVal : Bool
  /-- Result of `QDir::root().mkpath`. -/
  mkpath : String → Bool
  /-- Result of `GetL2AInputProductsTiles(ctx, event, inputProductToTilesMap)`. -/
  listTilesMetaFiles : List String
  /-- Result of `ProcessorHandlerHelper::GroupL2AProductTilesByDate`: the entries of the
  `QMap<QDate, QStringList>`, which holds them in ascending order of the date. -/
  dateGroupedInputProductToTilesMap : List (Int × List String)
  /-- Result of `NeedRemoveJobFolder(ctx, event.jobId, "l3b")`. -/
  bRemoveTempFiles : Bool
  /-- What the step binder obtains from outside. -/
  binder : BinderContext

/-- The produce flags as `CreateTasksForNewProduct` (lines 18-21) and `GetStepsForMonodateLai`
(lines 167-170) resolve them: each from the parameter `genlai` and its own configuration
key. -/
def productFlags (parameters : QJsonObject) (configParameters : ConfigMap) (defVal : Bool) :
    ProduceFlags :=
  { bGenNdvi := IsParamOrConfigKeySet parameters configParameters "genlai"
      "processor.l3b.lai.produce_ndvi" defVal
    bGenLai := IsParamOrConfigKeySet parameters configParameters "genlai"
      "processor.l3b.lai.produce_lai" defVal
    bGenFapar := IsParamOrConfigKeySet parameters configParameters "genlai"
      "processor.l3b.lai.produce_fapar" defVal
    bGenFCover := IsParamOrConfigKeySet parameters configParameters "genlai"
      "processor.l3b.lai.produce_fcover" defVal }

/-- Source function `FilterTile`. -/
def FilterTile (ctx : SubmissionContext) (tilesSet : Finset String) (prdTileFile : String) :
    Bool :=
  let tileId := ctx.binder.GetTileId prdTileFile
  decide (tilesSet = ∅) || decide (tileId ∈ tilesSet)

/-- Source function `HandleProduct`: the job-wide list after the call and the calls made. The
references `allTasksListRef` are the tasks from `tasksStartIdx` on. -/
def HandleProduct (ctx : SubmissionContext) (event : JobSubmittedEvent)
    (prdTilesInfosList : List TileInfos) (allTasksList : List TaskToSubmit) :
    Option (List TaskToSubmit × List ContextCall) := do
  let bRemoveTempFiles := ctx.bRemoveTempFiles
  let g := productFlags event.parameters ctx.configParameters ctx.defVal
  let tasksStartIdx := allTasksList.length
  -- create the tasks
  let allTasksList ← CreateTasksForNewProduct g allTasksList prdTilesInfosList bRemoveTempFiles
  let allTasksListRef := allTasksList.drop tasksStartIdx
  -- submit all tasks
  let steps ← GetStepsForMonodateLai ctx.binder g prdTilesInfosList allTasksList
    bRemoveTempFiles tasksStartIdx
  some (allTasksList,
    [ContextCall.SubmitTasks event.jobId allTasksListRef, ContextCall.SubmitSteps steps])

/-- Source function `SubmitEndOfLaiTask`. The end-of-job task is not a member of the job-wide
list; its step names it by the index that follows the list, which is its position among the
submitted tasks. -/
def SubmitEndOfLaiTask (event : JobSubmittedEvent) (allTasksList : List TaskToSubmit) :
    List ContextCall :=
  let prdFormatterTasksListRef :=
    (allTasksList.enum.filter
      (fun it => it.2.moduleName = "lai-processor-product-formatter")).map Prod.fst
  let endOfJobDummyTask : TaskToSubmit := ⟨"lai-processor-end-of-job", []⟩
  let endOfJobDummyTask : TaskToSubmit :=
    { endOfJobDummyTask with
      parentTasks := endOfJobDummyTask.parentTasks ++ prdFormatterTasksListRef }
  [ContextCall.SubmitTasks event.jobId [endOfJobDummyTask],
    ContextCall.SubmitSteps [CreateStep allTasksList.length "EndOfLAIDummy" []]]

/-- The tiles of one date group that pass the filter, as the inner loop of
`HandleJobSubmittedImpl` (lines 468-474) collects them. -/
def filteredTiles (ctx : SubmissionContext) (tilesFilter : Finset String)
    (prdTilesList : List String) : List TileInfos :=
  (prdTilesList.filter (FilterTile ctx tilesFilter)).map (fun prdTile => ⟨prdTile⟩)

/-- The loop of `HandleJobSubmittedImpl` over the keys of the date groups (lines 464-480), on
the job-wide list and the calls made so far. -/
def handleDateGroups (ctx : SubmissionContext) (event : JobSubmittedEvent)
    (tilesFilter : Finset String) :
    List Int → List TaskToSubmit × List ContextCall →
      Option (List TaskToSubmit × List ContextCall)
  | [], st => some st
  | key :: keys, (allTasksList, calls) =>
    let prdTilesList := (ctx.dateGroupedInputProductToTilesMap.lookup key).getD []
    let tilesInfosList := filteredTiles ctx tilesFilter prdTilesList
    -- Handle product only if we have at least one tile
    if tilesInfosList.length > 0 then
      (HandleProduct ctx event tilesInfosList allTasksList).bind fun r =>
        handleDateGroups ctx event tilesFilter keys (r.1, calls ++ r.2)
    else handleDateGroups ctx event tilesFilter keys (allTasksList, calls)

/-- Source function `HandleJobSubmittedImpl`. -/
def HandleJobSubmittedImpl (ctx : SubmissionContext) (event : JobSubmittedEvent) :
    Option Run :=
  let parameters := event.parameters
  let configParameters := ctx.configParameters
  let modelsFolder := configValue configParameters "processor.l3b.lai.modelsfolder"
  let bMonoDateLai := IsParamOrConfigKeySet parameters configParameters "monolai"
    "processor.l3b.mono_date_lai" ctx.defVal
  if !bMonoDateLai then
    some ⟨[ContextCall.MarkJobFailed event.jobId],
      some "LAI mono-date processing needs to be defined"⟩
  else
    let bGenNdvi := IsParamOrConfigKeySet parameters configParameters "genndvi"
      "processor.l3b.lai.produce_ndvi" ctx.defVal
    let bGenLai := IsParamOrConfigKeySet parameters configParameters "genlai"
      "processor.l3b.lai.produce_lai" ctx.defVal
    let bGenFapar := IsParamOrConfigKeySet parameters configParameters "genfapar"
      "processor.l3b.lai.produce_fapar" ctx.defVal
    let bGenFCover := IsParamOrConfigKeySet parameters configParameters "genfcover"
      "processor.l3b.lai.produce_fcover" ctx.defVal
    if !bGenNdvi && !bGenLai && !bGenFapar && !bGenFCover then
      some ⟨[ContextCall.MarkJobFailed event.jobId],
        some "No index was configured to be generated"⟩
    else if !ctx.mkpath modelsFolder then
      some ⟨[ContextCall.MarkJobFailed event.jobId],
        some ("Unable to create path " ++ modelsFolder ++ " for creating models!")⟩
    else if ctx.listTilesMetaFiles.length = 0 then
      some ⟨[ContextCall.MarkJobFailed event.jobId],
        some ("No products provided at input or no products available in the specified " ++
          "interval")⟩
    else
      let tilesFilter := GetTilesFilter parameters configParameters
      (handleDateGroups ctx event tilesFilter
        (ctx.dateGroupedInputProductToTilesMap.map Prod.fst) ([], [])).map fun r =>
        ⟨r.2 ++ SubmitEndOfLaiTask event r.1, none⟩

/-- Event `TaskFinishedEvent`. -/
structure TaskFinishedEvent where
  module : String
  jobId : Int
  processorId : Int
  siteId : Int
deriving DecidableEq, Repr

/-- What `HandleTaskFinishedImpl` and `SubmitL3CJobForL3BProduct` obtain from code outside the
sources at hand, for the event at hand. -/
structure CompletionContext where
  GetProductFormatterProductName : String
  GetProductFormatterOutputProductPath : String
  IsValidHighLevelProduct : String → Bool
  GetProductFormatterQuicklook : String
  GetProductFormatterFootprint : String
  GetTileIdsFromHighLevelProduct : String → List String
  /-- Result of `GetSatIdForTile(siteTiles, tileId)` for the tiles of the site. -/
  GetSatIdForTile : String → SatelliteIdType
  /-- The later date that `GetHigLevelProductAcqDatesFromName` extracts from the name. -/
  maxDate : String → QDateTime
  /-- The value that `ctx.InsertProduct` returns. -/
  InsertProduct : NewProduct → Int
  /-- Result of `ctx.GetJobConfigurationParameters(event.jobId,
  "processor.l3b.lai.link_l3c_to_l3b")`. -/
  configParameters : ConfigMap
  jsonToString : QJsonObject → String

/-- The assignment `obj[key] = value` of `QJsonObject`: the value under the key is replaced,
a new key is added. -/
def QJsonObject.set (o : QJsonObject) (key : String) (value : QJsonValue) : QJsonObject :=
  if o.contains key then
    ⟨o.members.map fun m => if m.1 = key then (key, value) else m⟩
  else ⟨o.members ++ [(key, value)]⟩

/-- Source function `SubmitL3CJobForL3BProduct`. -/
def SubmitL3CJobForL3BProduct (ctx : CompletionContext) (event : TaskFinishedEvent)
    (satId : SatelliteIdType) (l3bProdName : String) : List ContextCall :=
  let configParameters := ctx.configParameters
  let bLinkL3CToL3B :=
    decide (QString_toInt (configValue configParameters "processor.l3b.lai.link_l3c_to_l3b") = 1)
  -- generate automatically only for Sentinel2
  if bLinkL3CToL3B then
    if satId = SatelliteIdType.SATELLITE_ID_TYPE_S2 then
      let processorParamsObj : QJsonObject := ⟨[]⟩
      let prodsJsonArray := QJsonValue.array ([] ++ [QJsonValue.string l3bProdName])
      let processorParamsObj := processorParamsObj.set "input_products" prodsJsonArray
      let processorParamsObj := processorParamsObj.set "resolution" (.string "10")
      let processorParamsObj := processorParamsObj.set "reproc" (.string "1")
      let processorParamsObj := processorParamsObj.set "inputs_are_l3b" (.string "1")
      let processorParamsObj := processorParamsObj.set "max_l3b_per_tile" (.string "3")
      let newJob : NewJob :=
        { processorId := event.processorId
          siteId := event.siteId
          startType := JobStartType.Triggered
          parametersJson := ctx.jsonToString processorParamsObj }
      [ContextCall.SubmitJob newJob]
    else []
  else []

/-- The loop of `HandleTaskFinishedImpl` that determines the satellite of the product (lines
508-518): the satellite of the first tile for which it is known. -/
def findSatId (ctx : CompletionContext) : List String → SatelliteIdType → SatelliteIdType
  | [], satId => satId
  | tileId :: rest, satId =>
    if satId = SatelliteIdType.SATELLITE_ID_TYPE_UNKNOWN then
      let satId := ctx.GetSatIdForTile tileId
      -- ignore tiles for which the satellite id cannot be determined
      if satId ≠ SatelliteIdType.SATELLITE_ID_TYPE_UNKNOWN then satId
      else findSatId ctx rest satId
    else findSatId ctx rest satId

/-- Source function `HandleTaskFinishedImpl`; the calls of the logger are left out. -/
def HandleTaskFinishedImpl (ctx : CompletionContext) (event : TaskFinishedEvent) :
    List ContextCall :=
  let calls :=
    if event.module = "lai-processor-end-of-job" then
      [ContextCall.MarkJobFinished event.jobId, ContextCall.RemoveJobFolder event.jobId "l3b"]
    else []
  if event.module = "lai-processor-product-formatter" then
    let prodName := ctx.GetProductFormatterProductName
    let productFolder := ctx.GetProductFormatterOutputProductPath
    if prodName ≠ "" && ctx.IsValidHighLevelProduct productFolder then
      let quicklook := ctx.GetProductFormatterQuicklook
      let footPrint := ctx.GetProductFormatterFootprint
      let prodType := ProductType.L3BProductTypeId
      let prodTiles := ctx.GetTileIdsFromHighLevelProduct productFolder
      -- get the satellite id for the product
      let listL3BProdTiles := ctx.GetTileIdsFromHighLevelProduct productFolder
      let satId := findSatId ctx listL3BProdTiles SatelliteIdType.SATELLITE_ID_TYPE_UNKNOWN
      -- Insert the product into the database
      let maxDate := ctx.maxDate prodName
      let calls := calls ++
        [ContextCall.InsertProduct
          { productType := prodType
            processorId := event.processorId
            satelliteId := satId
            siteId := event.siteId
            jobId := event.jobId
            fullPath := productFolder
            createdTimestamp := maxDate
            name := prodName
            quicklookImage := quicklook
            footprint := footPrint
            tiles := prodTiles }]
      -- submit a new job for the L3C product corresponding to this one
      calls ++ SubmitL3CJobForL3BProduct ctx event satId prodName
    else calls
  else calls

/-! ## Scheduler hook -/

/-- Record `Product` of the catalogue, as far as the scheduler reads it: the identifier and the
creation time. -/
structure Product where
  productId : Int
  created : QDateTime
deriving DecidableEq, Repr

/-- Record `ProcessorJobDefinitionParams`; a default-constructed record has an empty product
list and empty parameters. -/
structure ProcessorJobDefinitionParams where
  isValid : Bool := false
  productList : List Product := []
  jsonParameters : String := ""
deriving DecidableEq, Repr

/-- Query that the scheduler hook makes on the catalogue through the scheduling context. -/
inductive CatalogueQuery where
  | GetProducts (siteId : Int) (productType : ProductType) (startDate endDate : QDateTime)
  | GetProductsByInsertedTime (siteId : Int) (productType : ProductType)
      (startDate endDate : QDateTime)
deriving DecidableEq, Repr

/-- What `GetProcessingDefinitionImpl` obtains from code outside the sources at hand. -/
structure SchedulingContext where
  /-- Result of `GetSeasonStartEndDates`: whether it succeeded, the start and the end of the
  season. -/
  GetSeasonStartEndDates : Int → QDateTime → ConfigMap → Bool × QDateTime × QDateTime
  /-- Result of `ctx.GetConfigurationParameters(prefix, siteId, overrides)`: the value of every
  key. -/
  GetConfigurationParameters : String → Int → ConfigMap → ConfigMap
  GetProducts : Int → ProductType → QDateTime → QDateTime → List Product
  GetProductsByInsertedTime : Int → ProductType → QDateTime → QDateTime → List Product
  /-- Result of `QDateTime::currentDateTime()`. -/
  currentDateTime : QDateTime
  /-- Library function `QDateTime::addDays`, whose result depends on the calendar and on the
  time zone of the value. -/
  addDays : QDateTime → Int → QDateTime
  /-- Library function `QDateTime::addMonths`. -/
  addMonths : QDateTime → Int → QDateTime

/-- Library function `QDateTime::fromTime_t(uint)`: the `int` argument is converted to
`unsigned int`. -/
def fromTime_t (seconds : Int) : QDateTime :=
  ⟨true, (seconds % 4294967296) * 1000⟩

/-- The unary minus of `int`: the negation of the least value does not fit, and two's
complement arithmetic gives the least value back. -/
def negInt (x : Int) : Int :=
  if x = -2147483648 then -2147483648 else -x

/-- Source function `GetProcessingDefinitionImpl`: the job description and the queries made on
the catalogue; the calls of the logger are left out. -/
def GetProcessingDefinitionImpl (ctx : SchedulingContext) (siteId scheduledDate : Int)
    (requestOverrideCfgValues : ConfigMap) :
    ProcessorJobDefinitionParams × List CatalogueQuery :=
  let params : ProcessorJobDefinitionParams := {}
  let params := { params with isValid := false }
  -- extract the scheduled date
  let qScheduledDate := fromTime_t scheduledDate
  let (success, seasonStartDate, seasonEndDate) :=
    ctx.GetSeasonStartEndDates siteId qScheduledDate requestOverrideCfgValues
  -- if cannot get the season dates
  if !success then (params, [])
  else
    let limitDate := ctx.addMonths seasonEndDate 2
    if qScheduledDate.msecs > limitDate.msecs then (params, [])
    else if !seasonStartDate.isValid then (params, [])
    else
      let mapCfg := ctx.GetConfigurationParameters "processor.l3b." siteId requestOverrideCfgValues
      -- we might have an offset in days from starting the downloading products to start the
      -- L3B production
      let startSeasonOffset := QString_toInt (configValue mapCfg "processor.l3b.start_season_offset")
      let seasonStartDate := ctx.addDays seasonStartDate startSeasonOffset
      let generateLai := false
      let (generateLai, params) :=
        if (requestOverrideCfgValues.lookup "product_type").isSome then
          let productType := configValue requestOverrideCfgValues "product_type"
          if productType = "L3B" then
            (true, { params with jsonParameters := "\x7b \"monolai\": \"1\"\x7d" })
          else (generateLai, params)
        else (generateLai, params)
      -- we need to have at least one flag set
      if !generateLai then (params, [])
      else
        let endDate := qScheduledDate
        let productionInterval :=
          QString_toInt (configValue mapCfg "processor.l3b.production_interval")
        let startDate := ctx.addDays endDate (negInt productionInterval)
        -- Use only the products after the configured start season date
        let startDate := if startDate.msecs < seasonStartDate.msecs then seasonStartDate else startDate
        let bOnceExecution :=
          if (requestOverrideCfgValues.lookup "task_repeat_type").isSome then
            let repeatType := configValue requestOverrideCfgValues "task_repeat_type"
            if repeatType = "0" then true else false
          else false
        let curDateTime := ctx.currentDateTime
        let (params, queries) :=
          if decide (curDateTime.msecs > seasonEndDate.msecs) || bOnceExecution then
            -- processing of a past season, that was already finished
            ({ params with productList :=
                ctx.GetProducts siteId ProductType.L2AProductTypeId startDate endDate },
              [CatalogueQuery.GetProducts siteId ProductType.L2AProductTypeId startDate endDate])
          else
            -- processing of a season in progress
            let list := ctx.GetProductsByInsertedTime siteId ProductType.L2AProductTypeId
              startDate endDate
            let kept := list.filter (fun prd =>
              decide (prd.created.msecs ≥ seasonStartDate.msecs) &&
                decide (prd.created.msecs < (ctx.addDays seasonEndDate 1).msecs))
            ({ params with productList := params.productList ++ kept },
              [CatalogueQuery.GetProductsByInsertedTime siteId ProductType.L2AProductTypeId
                startDate endDate])
        let waitForAvailProcInputs :=
          decide (QString_toInt (configValue mapCfg "processor.l3b.sched_wait_proc_inputs") ≠ 0)
        if waitForAvailProcInputs = false || decide (params.productList.length > 0) then
          ({ params with isValid := true }, queries)
        else (params, queries)

/-! ## Tables, predicates and sample contexts for the handlers -/

/-- The date groups that keep at least one tile after filtering, in the order of the map of
the date groups: the date and the surviving tiles in their original order. -/
def survivingGroups (ctx : SubmissionContext) (event : JobSubmittedEvent) :
    List (Int × List TileInfos) :=
  (ctx.dateGroupedInputProductToTilesMap.map fun e =>
    (e.1, filteredTiles ctx (GetTilesFilter event.parameters ctx.configParameters) e.2)).filter
      fun e => decide (e.2 ≠ [])

/-- One call of `HandleProduct` for every tile list, in the order of the lists, on the job-wide
list and the calls made so far. -/
def handleProducts (ctx : SubmissionContext) (event : JobSubmittedEvent) :
    List (List TileInfos) → List TaskToSubmit × List ContextCall →
      Option (List TaskToSubmit × List ContextCall)
  | [], st => some st
  | tiles :: rest, (allTasksList, calls) =>
    (HandleProduct ctx event tiles allTasksList).bind fun r =>
      handleProducts ctx event rest (r.1, calls ++ r.2)

/-- Whether a call is `SubmitTasks` or `SubmitSteps`. -/
def ContextCall.isSubmission : ContextCall → Bool
  | .SubmitTasks _ _ => true
  | .SubmitSteps _ => true
  | _ => false

/-- Whether a call is `SubmitTasks`. -/
def ContextCall.isSubmitTasks : ContextCall → Bool
  | .SubmitTasks _ _ => true
  | _ => false

/-- Whether a call is `InsertProduct`. -/
def ContextCall.isInsertProduct : ContextCall → Bool
  | .InsertProduct _ => true
  | _ => false

/-- Whether a call is `SubmitJob`. -/
def ContextCall.isSubmitJob : ContextCall → Bool
  | .SubmitJob _ => true
  | _ => false

/-- Whether a call is `MarkJobFailed`. -/
def ContextCall.isMarkJobFailed : ContextCall → Bool
  | .MarkJobFailed _ => true
  | _ => false

/-- A submission context for concrete runs: mono-date mode and LAI are configured, the input
holds the tile `T30TYT` of day 1 and the tile `T31UDP` of day 2, no cleanup. -/
def sampleSubmission : SubmissionContext :=
  { configParameters :=
      [("processor.l3b.mono_date_lai", "1"), ("processor.l3b.lai.produce_lai", "1")]
    defVal := true
    mkpath := fun _ => true
    listTilesMetaFiles := ["T30TYT", "T31UDP"]
    dateGroupedInputProductToTilesMap := [(1, ["T30TYT"]), (2, ["T31UDP"])]
    bRemoveTempFiles := false
    binder := sampleContext }

/-- A job of site 1 for concrete runs whose parameters hold the given tile filter. -/
def sampleJob (tilesFilter : String) : JobSubmittedEvent :=
  { jobId := 7, processorId := 3, siteId := 1,
    parameters := ⟨[("tiles_filter", .string tilesFilter)]⟩ }

/-- A completion context for concrete runs: the product `S2AGRI_L3B_PRD` in a valid folder
with one Sentinel-2 tile, and the link to L3C switched on. -/
def sampleCompletion : CompletionContext :=
  { GetProductFormatterProductName := "S2AGRI_L3B_PRD"
    GetProductFormatterOutputProductPath := "/out/S2AGRI_L3B_PRD"
    IsValidHighLevelProduct := fun _ => true
    GetProductFormatterQuicklook := "quicklook.jpg"
    GetProductFormatterFootprint := "POLYGON"
    GetTileIdsFromHighLevelProduct := fun _ => ["31UDP"]
    GetSatIdForTile := fun _ => SatelliteIdType.SATELLITE_ID_TYPE_S2
    maxDate := fun _ => ⟨true, 0⟩
    InsertProduct := fun _ => 1
    configParameters := [("processor.l3b.lai.link_l3c_to_l3b", "1")]
    jsonToString := fun o => String.intercalate "," (o.members.map Prod.fst) }

/-- A scheduling context for concrete runs with day arithmetic in UTC and months of 30 days:
the season lasts from the epoch to 5000 seconds after it, the current time is the epoch. -/
def sampleScheduling (configuration : ConfigMap) : SchedulingContext :=
  { GetSeasonStartEndDates := fun _ _ _ => (true, ⟨true, 0⟩, ⟨true, 5000000⟩)
    GetConfigurationParameters := fun _ _ _ => configuration
    GetProducts := fun _ _ _ _ => [⟨1, ⟨true, 0⟩⟩, ⟨2, ⟨true, 100000000⟩⟩]
    GetProductsByInsertedTime := fun _ _ _ _ => [⟨3, ⟨true, 0⟩⟩, ⟨4, ⟨true, 100000000⟩⟩]
    currentDateTime := ⟨true, 0⟩
    addDays := fun d n => ⟨d.isValid, d.msecs + n * 86400000⟩
    addMonths := fun d n => ⟨d.isValid, d.msecs + n * 30 * 86400000⟩ }

/-- The start of the interval of a catalogue query. -/
def CatalogueQuery.startDate : CatalogueQuery → QDateTime
  | .GetProducts _ _ s _ => s
  | .GetProductsByInsertedTime _ _ s _ => s

/-- The end of the interval of a catalogue query. -/
def CatalogueQuery.endDate : CatalogueQuery → QDateTime
  | .GetProducts _ _ _ e => e
  | .GetProductsByInsertedTime _ _ _ e => e

/-- The start of the season moved by the configured offset, as `GetProcessingDefinitionImpl`
computes it (lines 845-846). -/
def offsetSeasonStart (ctx : SchedulingContext) (siteId : Int)
    (requestOverrideCfgValues : ConfigMap) (seasonStartDate : QDateTime) : QDateTime :=
  ctx.addDays seasonStartDate (QString_toInt (configValue
    (ctx.GetConfigurationParameters "processor.l3b." siteId requestOverrideCfgValues)
    "processor.l3b.start_season_offset"))

/-- The start of the query interval of `GetProcessingDefinitionImpl` (lines 864-869): the
scheduled date less the production interval, or the moved season start when that is later. -/
def queryStartDate (ctx : SchedulingContext) (siteId scheduledDate : Int)
    (requestOverrideCfgValues : ConfigMap) (seasonStartDate : QDateTime) : QDateTime :=
  if (ctx.addDays (fromTime_t scheduledDate) (negInt (QString_toInt (configValue
        (ctx.GetConfigurationParameters "processor.l3b." siteId requestOverrideCfgValues)
        "processor.l3b.production_interval")))).msecs <
      (offsetSeasonStart ctx siteId requestOverrideCfgValues seasonStartDate).msecs then
    offsetSeasonStart ctx siteId requestOverrideCfgValues seasonStartDate
  else
    ctx.addDays (fromTime_t scheduledDate) (negInt (QString_toInt (configValue
      (ctx.GetConfigurationParameters "processor.l3b." siteId requestOverrideCfgValues)
      "processor.l3b.production_interval")))

/-! ## Theorems -/

theorem getElem?_append_add {α : Type} (pre m : List α) (k : Nat) :
    (pre ++ m)[pre.length + k]? = m[k]? := by
  rw [List.getElem?_append_right (Nat.le_add_right _ _), Nat.add_sub_cancel_left]

theorem set_append_add {α : Type} (pre m : List α) (k : Nat) (x : α) :
    (pre ++ m).set (pre.length + k) x = pre ++ m.set k x := by
  rw [List.set_append_right _ _ (Nat.le_add_right _ _), Nat.add_sub_cancel_left]

theorem getElem?_append_len {α : Type} (pre m : List α) :
    (pre ++ m)[pre.length]? = m[0]? := by
  have := getElem?_append_add pre m 0
  rwa [Nat.add_zero] at this

theorem set_append_len {α : Type} (pre m : List α) (x : α) :
    (pre ++ m).set pre.length x = pre ++ m.set 0 x := by
  have := set_append_add pre m 0 x
  rwa [Nat.add_zero] at this



theorem appendParent_mid (a b : List TaskToSubmit) (t : TaskToSubmit) (c p : Nat)
    (hc : c = a.length) (hp : p ≤ c) :
    appendParent (a ++ t :: b) c p =
      some (a ++ ⟨t.moduleName, t.parentTasks ++ [p]⟩ :: b) := by
  subst hc
  have h : p < (a ++ t :: b).length := by
    rw [List.length_append, List.length_cons]; omega
  have e : (a ++ t :: b)[a.length]? = some t := by
    rw [getElem?_append_len]; simp
  unfold appendParent
  rw [if_pos h, e]
  simp only [set_append_len, List.set_cons_zero]

theorem appendParent_mid1 (a b : List TaskToSubmit) (x t : TaskToSubmit) (c p : Nat)
    (hc : c = a.length + 1) (hp : p ≤ c) :
    appendParent (a ++ x :: t :: b) c p =
      some (a ++ x :: ⟨t.moduleName, t.parentTasks ++ [p]⟩ :: b) := by
  have := appendParent_mid (a ++ [x]) b t c p (by simp [hc]) hp
  simpa using this

theorem appendParent_mid2 (a b : List TaskToSubmit) (x y t : TaskToSubmit) (c p : Nat)
    (hc : c = a.length + 2) (hp : p ≤ c) :
    appendParent (a ++ x :: y :: t :: b) c p =
      some (a ++ x :: y :: ⟨t.moduleName, t.parentTasks ++ [p]⟩ :: b) := by
  have := appendParent_mid (a ++ [x, y]) b t c p (by simp [hc]) hp
  simpa using this

theorem appendParent_mid3 (a b : List TaskToSubmit) (x y z t : TaskToSubmit) (c p : Nat)
    (hc : c = a.length + 3) (hp : p ≤ c) :
    appendParent (a ++ x :: y :: z :: t :: b) c p =
      some (a ++ x :: y :: z :: ⟨t.moduleName, t.parentTasks ++ [p]⟩ :: b) := by
  have := appendParent_mid (a ++ [x, y, z]) b t c p (by simp [hc]) hp
  simpa using this

theorem taskRef_lt (l : List TaskToSubmit) (i : Nat) (h : i < l.length) :
    taskRef l i = some i := by
  unfold taskRef; rw [if_pos h]

theorem CreateBiophysicalIndicatorTasks_frame (pre rest : List TaskToSubmit)
    (t1 t2 t3 : TaskToSubmit) (refs : List Nat) (a c : Nat) (hc : c = pre.length) (ha : a ≤ c) :
    CreateBiophysicalIndicatorTasks a (pre ++ [t1, t2, t3] ++ rest) refs c =
      some (pre ++ [⟨t1.moduleName, t1.parentTasks ++ [a]⟩,
          ⟨t2.moduleName, t2.parentTasks ++ [c]⟩, ⟨t3.moduleName, t3.parentTasks ++ [c + 1]⟩]
          ++ rest, refs ++ [c + 2], c + 3) := by
  unfold CreateBiophysicalIndicatorTasks
  simp only [List.append_assoc, List.cons_append, List.nil_append]
  rw [appendParent_mid pre _ t1 c a hc ha]
  simp only [bind, Option.bind]
  rw [appendParent_mid1 pre _ _ t2 (c + 1) c (by omega) (by omega)]
  simp only
  rw [appendParent_mid2 pre _ _ _ t3 (c + 2) (c + 1) (by omega) (by omega)]
  simp only
  rw [taskRef_lt _ _ (by simp; omega)]

theorem CreateAnglesTasks_frame (pre rest : List TaskToSubmit)
    (t1 t2 t3 t4 : TaskToSubmit) (f c : Nat) (hc : c = pre.length) (hf : f ≤ c) :
    CreateAnglesTasks f (pre ++ [t1, t2, t3, t4] ++ rest) c =
      some (pre ++ [⟨t1.moduleName, t1.parentTasks ++ [f]⟩,
          ⟨t2.moduleName, t2.parentTasks ++ [c]⟩, ⟨t3.moduleName, t3.parentTasks ++ [c + 1]⟩,
          ⟨t4.moduleName, t4.parentTasks ++ [c + 2]⟩] ++ rest, c + 4, c + 3) := by
  unfold CreateAnglesTasks
  simp only [List.append_assoc, List.cons_append, List.nil_append]
  rw [appendParent_mid pre _ t1 c f hc hf]
  simp only [bind, Option.bind]
  rw [appendParent_mid1 pre _ _ t2 (c + 1) c (by omega) (by omega)]
  simp only
  rw [appendParent_mid2 pre _ _ _ t3 (c + 2) (c + 1) (by omega) (by omega)]
  simp only
  rw [appendParent_mid3 pre _ _ _ _ t4 (c + 3) (c + 2) (by omega) (by omega)]

theorem appendTileTasks_eq (g : ProduceFlags) (l : List TaskToSubmit) :
    appendTileTasks g l = l ++ freshTile g := by
  rcases g with ⟨_ | _, _ | _, _ | _, _ | _⟩ <;>
    simp [appendTileTasks, freshTile, freshIndicators, freshIndicator]

theorem optIndicator_frame (en : Bool) (p q : String) (pre rest : List TaskToSubmit)
    (refs : List Nat) (a c : Nat) (hc : c = pre.length) (ha : a ≤ c) :
    (if en then CreateBiophysicalIndicatorTasks a (pre ++ (freshIndicator en p q ++ rest)) refs c
      else some (pre ++ (freshIndicator en p q ++ rest), refs, c)) =
      some (pre ++ (wiredIndicator en p q a c ++ rest),
        refs ++ (if en then [c + 2] else []), c + 3 * en.toNat) := by
  cases en
  · simp [freshIndicator, wiredIndicator]
  · have := CreateBiophysicalIndicatorTasks_frame pre rest ⟨p, []⟩ ⟨q, []⟩
      ⟨"gen-domain-flags", []⟩ refs a c hc ha
    simpa [freshIndicator, wiredIndicator] using this

theorem length_wiredIndicator (en : Bool) (p q : String) (a c : Nat) :
    (wiredIndicator en p q a c).length = 3 * en.toNat := by
  cases en <;> rfl

theorem wireIndicators_frame (g : ProduceFlags) (pre rest : List TaskToSubmit)
    (refs : List Nat) (f c : Nat) (hc : c = pre.length) (hf : f ≤ c) :
    wireIndicators g f (pre ++ (freshIndicators g ++ rest)) refs c =
      some (pre ++ (wiredIndicators g f c ++ rest), refs ++ indicatorRefs g c,
        c + (tasksPerTile g - 2 - g.bGenNdvi.toNat)) := by
  by_cases h : (g.bGenLai || g.bGenFapar || g.bGenFCover) = true
  · have hA := CreateAnglesTasks_frame pre
      (freshIndicator g.bGenLai "lai-processor" "lai-quantify-image" ++
        (freshIndicator g.bGenFapar "fapar-processor" "fapar-quantify-image" ++
          (freshIndicator g.bGenFCover "fcover-processor" "fcover-quantify-image" ++ rest)))
      ⟨"lai-create-angles", []⟩ ⟨"gdal_translate", []⟩ ⟨"gdalbuildvrt", []⟩
      ⟨"gdal_translate", []⟩ f c hc hf
    have hL := optIndicator_frame g.bGenLai "lai-processor" "lai-quantify-image"
      (pre ++ [⟨"lai-create-angles", [f]⟩, ⟨"gdal_translate", [c]⟩, ⟨"gdalbuildvrt", [c + 1]⟩,
        ⟨"gdal_translate", [c + 2]⟩])
      (freshIndicator g.bGenFapar "fapar-processor" "fapar-quantify-image" ++
        (freshIndicator g.bGenFCover "fcover-processor" "fcover-quantify-image" ++ rest))
      refs (c + 3) (c + 4) (by simp [hc]) (by omega)
    have hF := optIndicator_frame g.bGenFapar "fapar-processor" "fapar-quantify-image"
      (pre ++ [⟨"lai-create-angles", [f]⟩, ⟨"gdal_translate", [c]⟩, ⟨"gdalbuildvrt", [c + 1]⟩,
        ⟨"gdal_translate", [c + 2]⟩] ++
        wiredIndicator g.bGenLai "lai-processor" "lai-quantify-image" (c + 3) (c + 4))
      (freshIndicator g.bGenFCover "fcover-processor" "fcover-quantify-image" ++ rest)
      (refs ++ (if g.bGenLai then [c + 4 + 2] else [])) (c + 3) (c + 4 + 3 * g.bGenLai.toNat)
      (by simp [hc, length_wiredIndicator]; omega) (by omega)
    have hC := optIndicator_frame g.bGenFCover "fcover-processor" "fcover-quantify-image"
      (pre ++ [⟨"lai-create-angles", [f]⟩, ⟨"gdal_translate", [c]⟩, ⟨"gdalbuildvrt", [c + 1]⟩,
        ⟨"gdal_translate", [c + 2]⟩] ++
        wiredIndicator g.bGenLai "lai-processor" "lai-quantify-image" (c + 3) (c + 4) ++
        wiredIndicator g.bGenFapar "fapar-processor" "fapar-quantify-image" (c + 3)
          (c + 4 + 3 * g.bGenLai.toNat))
      rest
      (refs ++ (if g.bGenLai then [c + 4 + 2] else []) ++
        (if g.bGenFapar then [c + 4 + 3 * g.bGenLai.toNat + 2] else []))
      (c + 3) (c + 4 + 3 * g.bGenLai.toNat + 3 * g.bGenFapar.toNat)
      (by simp [hc, length_wiredIndicator]; omega) (by omega)
    simp only [List.append_assoc, List.nil_append] at hA hL hF hC
    simp only [wireIndicators, freshIndicators, wiredIndicators, indicatorRefs, h, if_true,
      List.append_assoc, List.nil_append]
    rw [hA]
    simp only [Option.bind_eq_bind, Option.some_bind]
    rw [hL]
    simp only [Option.some_bind]
    rw [hF]
    simp only [Option.some_bind]
    rw [hC]
    simp only [Option.some_bind, tasksPerTile, indicatorCount, h, if_true, Option.some.injEq,
      Prod.mk.injEq, true_and]
    constructor
    · rcases g with ⟨_ | _, _ | _, _ | _, _ | _⟩ <;> simp
    · omega
  · simp [wireIndicators, freshIndicators, wiredIndicators, indicatorRefs, tasksPerTile, h]

theorem length_wiredIndicators (g : ProduceFlags) (f c : Nat) :
    (wiredIndicators g f c).length = tasksPerTile g - 2 - g.bGenNdvi.toNat := by
  rcases g with ⟨_ | _, _ | _, _ | _, _ | _⟩ <;> rfl

theorem wireTile_frame (g : ProduceFlags) (initialTasksNo : Nat)
    (pre rest : List TaskToSubmit) (refs : List Nat) (c : Nat) (hc : c = pre.length) :
    wireTile g initialTasksNo (pre ++ (freshTile g ++ rest), refs, c) =
      some (pre ++ (wiredTile g (decide (0 < initialTasksNo)) c ++ rest),
        refs ++ tileFormatterRefs g c, c + tasksPerTile g) := by
  set m : TaskToSubmit :=
    ⟨"lai-processor-mask-flags", if decide (0 < initialTasksNo) then [c - 1] else []⟩ with hm
  have h1 : (if (bChainProducts && decide (initialTasksNo > 0)) = true then
        appendParent (pre ++ (freshTile g ++ rest)) c (c - 1)
      else some (pre ++ (freshTile g ++ rest))) =
      some (pre ++ m :: ((if g.bGenNdvi then [⟨"lai-processor-ndvi-extractor", []⟩] else []) ++
        (freshIndicators g ++ (⟨"gen-domain-flags", []⟩ :: rest)))) := by
    by_cases h : 0 < initialTasksNo
    · simp only [bChainProducts, Bool.true_and, gt_iff_lt, h, decide_True, if_true, freshTile,
        List.append_assoc, List.singleton_append, List.cons_append, List.nil_append, hm]
      rw [appendParent_mid pre _ _ c (c - 1) hc (by omega)]
      simp
    · simp [bChainProducts, h, freshTile, hm]
  set nd : List TaskToSubmit :=
    if g.bGenNdvi then [⟨"lai-processor-ndvi-extractor", [c]⟩] else [] with hnd
  have h2 : (if g.bGenNdvi = true then
        (appendParent (pre ++ m :: ((if g.bGenNdvi then
            [⟨"lai-processor-ndvi-extractor", []⟩] else []) ++
          (freshIndicators g ++ (⟨"gen-domain-flags", []⟩ :: rest)))) (c + 1) c).bind fun l =>
          (taskRef l (c + 1)).bind fun r => some (l, refs ++ [r], c + 1 + 1)
      else some (pre ++ m :: ((if g.bGenNdvi then
            [⟨"lai-processor-ndvi-extractor", []⟩] else []) ++
          (freshIndicators g ++ (⟨"gen-domain-flags", []⟩ :: rest))), refs, c + 1)) =
      some ((pre ++ [m] ++ nd) ++ (freshIndicators g ++ (⟨"gen-domain-flags", []⟩ :: rest)),
        refs ++ (if g.bGenNdvi then [c + 1] else []), c + 1 + g.bGenNdvi.toNat) := by
    by_cases h : g.bGenNdvi = true
    · simp only [h, if_true, List.cons_append, List.nil_append, hnd]
      rw [appendParent_mid1 pre _ _ _ (c + 1) c (by omega) (by omega)]
      simp only [Option.some_bind]
      rw [taskRef_lt _ _ (by simp; omega)]
      simp
    · simp [h, hnd]
  have hndl : nd.length = g.bGenNdvi.toNat := by
    rw [hnd]; cases g.bGenNdvi <;> rfl
  have h3 := wireIndicators_frame g (pre ++ [m] ++ nd) (⟨"gen-domain-flags", []⟩ :: rest)
    (refs ++ (if g.bGenNdvi then [c + 1] else [])) c (c + 1 + g.bGenNdvi.toNat)
    (by simp only [List.length_append, List.length_singleton, hndl, hc]) (by omega)
  unfold wireTile
  simp only [Option.bind_eq_bind, Option.pure_def, Nat.add_sub_cancel]
  rw [h1]
  simp only [Option.some_bind]
  rw [h2]
  simp only [Option.some_bind]
  rw [h3]
  simp only [Option.some_bind]
  have hlen : c + 1 + g.bGenNdvi.toNat + (tasksPerTile g - 2 - g.bGenNdvi.toNat) =
      (pre ++ [m] ++ nd ++ wiredIndicators g c (c + 1 + g.bGenNdvi.toNat)).length := by
    simp only [List.length_append, List.length_singleton, hndl, hc, length_wiredIndicators]
  rw [← List.append_assoc, appendParent_mid _ _ _ _ c hlen (by omega)]
  simp only [Option.some_bind]
  rw [taskRef_lt _ _ (by rw [hlen]; simp)]
  have hpt : 2 + g.bGenNdvi.toNat ≤ tasksPerTile g := by unfold tasksPerTile; omega
  simp only [Option.some_bind, Option.some.injEq, Prod.mk.injEq, wiredTile, tileFormatterRefs,
    List.append_assoc, List.nil_append, List.cons_append, List.singleton_append, hnd, hm]
  refine ⟨by simp, ?_, by omega⟩
  have e : c + 1 + g.bGenNdvi.toNat + (tasksPerTile g - 2 - g.bGenNdvi.toNat) =
      c + tasksPerTile g - 1 := by omega
  rw [e]

theorem appendAllTiles_eq (g : ProduceFlags) (n : Nat) (l : List TaskToSubmit) :
    appendAllTiles g n l = l ++ freshTiles g n := by
  induction n generalizing l with
  | zero => simp [appendAllTiles, freshTiles]
  | succ n ih => simp [appendAllTiles, freshTiles, ih, appendTileTasks_eq]

theorem length_wiredTile (g : ProduceFlags) (ch : Bool) (b : Nat) :
    (wiredTile g ch b).length = tasksPerTile g := by
  rcases g with ⟨_ | _, _ | _, _ | _, _ | _⟩ <;> rfl

theorem length_wiredTiles (g : ProduceFlags) (ch : Bool) (b n : Nat) :
    (wiredTiles g ch b n).length = n * tasksPerTile g := by
  induction n generalizing b with
  | zero => simp [wiredTiles]
  | succ n ih => simp [wiredTiles, ih, length_wiredTile]; ring

theorem wireAllTiles_frame (g : ProduceFlags) (initialTasksNo n : Nat)
    (pre rest : List TaskToSubmit) (refs : List Nat) (c : Nat) (hc : c = pre.length) :
    wireAllTiles g initialTasksNo n (pre ++ (freshTiles g n ++ rest), refs, c) =
      some (pre ++ (wiredTiles g (decide (0 < initialTasksNo)) c n ++ rest),
        refs ++ formatterRefs g c n, c + n * tasksPerTile g) := by
  induction n generalizing pre refs c with
  | zero => simp [wireAllTiles, freshTiles, wiredTiles, formatterRefs]
  | succ n ih =>
    have h := wireTile_frame g initialTasksNo pre (freshTiles g n ++ rest) refs c hc
    simp only [wireAllTiles, freshTiles, List.append_assoc]
    rw [h, Option.some_bind, ← List.append_assoc,
      ih (pre ++ wiredTile g (decide (0 < initialTasksNo)) c) _ _
        (by simp [hc, length_wiredTile])]
    simp only [wiredTiles, formatterRefs, List.append_assoc, Option.some.injEq, Prod.mk.injEq,
      true_and]
    ring

theorem appendParents_mid (a b : List TaskToSubmit) (t : TaskToSubmit) (c : Nat)
    (refs : List Nat) (hc : c = a.length) :
    appendParents (a ++ t :: b) c refs =
      some (a ++ ⟨t.moduleName, t.parentTasks ++ refs⟩ :: b) := by
  subst hc
  have e : (a ++ t :: b)[a.length]? = some t := by
    rw [getElem?_append_len]; simp
  unfold appendParents
  rw [e]
  simp only [set_append_len, List.set_cons_zero]

theorem CreateTasksForNewProduct_eq (g : ProduceFlags) (init : List TaskToSubmit)
    (tiles : List TileInfos) (rm : Bool) :
    CreateTasksForNewProduct g init tiles rm = some (builtList g init tiles.length rm) := by
  unfold CreateTasksForNewProduct builtList
  simp only [appendAllTiles_eq, Option.bind_eq_bind]
  cases rm
  · simp only [Bool.false_eq_true, if_false, List.append_assoc]
    rw [wireAllTiles_frame g init.length tiles.length init _ [] init.length rfl]
    simp only [Option.some_bind, List.nil_append]
    rw [← List.append_assoc, appendParents_mid _ _ _ _ _ (by simp [length_wiredTiles])]
    simp
  · simp only [if_true, List.append_assoc]
    rw [wireAllTiles_frame g init.length tiles.length init _ [] init.length rfl]
    simp only [Option.some_bind, List.nil_append, List.singleton_append]
    rw [← List.append_assoc, appendParents_mid _ _ _ _ _ (by simp [length_wiredTiles])]
    simp only [Option.some_bind, List.singleton_append, List.nil_append]
    rw [appendParent_mid1 _ _ _ _ _ _ (by simp [length_wiredTiles]) (by omega)]
    simp

theorem toUpper_lai : toUpper "lai" = "LAI" := by decide

theorem toUpper_fapar : toUpper "fapar" = "FAPAR" := by decide

theorem toUpper_fcover : toUpper "fcover" = "FCOVER" := by decide

theorem GetStepsForStatusFlags_eq (ctx : BinderContext) (l : List TaskToSubmit) (c : Nat)
    (info : TileResultFiles) (steps : List NewStep) (cl : List String) (h : c + 1 ≤ l.length) :
    GetStepsForStatusFlags ctx l c info steps cl =
      some (c + 1,
        { info with
          statusFlagsFile := ctx.GetFilePath c "LAI_mono_date_msk_flgs_img.tif"
          statusFlagsFileResampled :=
            ctx.GetFilePath c "LAI_mono_date_msk_flgs_img_resampled.tif" },
        steps ++ [statusFlagsStep ctx info.resolutionStr info.tileFile c],
        cl ++ [ctx.GetFilePath c "LAI_mono_date_msk_flgs_img.tif",
          ctx.GetFilePath c "LAI_mono_date_msk_flgs_img_resampled.tif"]) := by
  unfold GetStepsForStatusFlags
  rw [taskRef_lt _ _ (by omega)]
  simp [statusFlagsStep]

theorem GetStepsForNdvi_eq (ctx : BinderContext) (l : List TaskToSubmit) (c : Nat)
    (info : TileResultFiles) (steps : List NewStep) (cl : List String) (h : c + 1 ≤ l.length) :
    GetStepsForNdvi ctx l c info ctx.laiCfgFile steps cl =
      some (c + 1, { info with ndviFile := ctx.GetFilePath c "single_ndvi.tif" },
        steps ++ [CreateStep c "NdviRviExtractionNew"
          (GetNdviRviExtractionNewArgs info.tileFile info.statusFlagsFile
            (ctx.GetFilePath c "single_ndvi.tif") info.resolutionStr ctx.laiCfgFile)],
        cl ++ [ctx.GetFilePath c "single_ndvi.tif"]) := by
  unfold GetStepsForNdvi
  rw [taskRef_lt _ _ (by omega)]
  simp

theorem GetStepsForAnglesCreation_eq (ctx : BinderContext) (l : List TaskToSubmit) (c : Nat)
    (info : TileResultFiles) (steps : List NewStep) (cl : List String) (h : c + 4 ≤ l.length) :
    GetStepsForAnglesCreation ctx l c info steps cl =
      some (c + 4, { info with anglesFile := ctx.GetFilePath (c + 3) "angles_resampled.tif" },
        steps ++ anglesSteps ctx info.tileFile c,
        cl ++ [ctx.GetFilePath c "angles_small_res.tif",
          ctx.GetFilePath (c + 1) "angles_small_res_no_data.tif",
          ctx.GetFilePath (c + 2) "angles.vrt",
          ctx.GetFilePath (c + 3) "angles_resampled.tif"]) := by
  unfold GetStepsForAnglesCreation
  rw [taskRef_lt _ _ (by omega), taskRef_lt _ _ (by omega), taskRef_lt _ _ (by omega),
    taskRef_lt _ _ (by omega)]
  simp [anglesSteps]

theorem GetStepsForMonoDateBI_eq (ctx : BinderContext) (l : List TaskToSubmit)
    (indexName : String) (c : Nat) (info : TileResultFiles) (steps : List NewStep)
    (cl : List String) (h : c + 3 ≤ l.length) :
    GetStepsForMonoDateBI ctx l indexName c ctx.laiCfgFile info steps cl =
      some (c + 3,
        (if indexName = "fapar" then
          { info with
            faparDomainFlagsFile :=
              ctx.GetFilePath (c + 1) (toUpper indexName ++ "_out_domain_flags.tif")
            faparFile := ctx.GetFilePath (c + 2) (toUpper indexName ++ "_mono_date_img_16.tif") }
        else if indexName = "fcover" then
          { info with
            fcoverDomainFlagsFile :=
              ctx.GetFilePath (c + 1) (toUpper indexName ++ "_out_domain_flags.tif")
            fcoverFile := ctx.GetFilePath (c + 2) (toUpper indexName ++ "_mono_date_img_16.tif") }
        else
          { info with
            laiDomainFlagsFile :=
              ctx.GetFilePath (c + 1) (toUpper indexName ++ "_out_domain_flags.tif")
            laiFile := ctx.GetFilePath (c + 2) (toUpper indexName ++ "_mono_date_img_16.tif") }),
        steps ++
          [CreateStep c ("BVLaiNewProcessor" ++ toUpper indexName)
              (GetLaiProcessorArgs info.tileFile info.anglesFile info.resolutionStr
                ctx.laiCfgFile (ctx.GetFilePath c (toUpper indexName ++ "_mono_date_img.tif"))
                indexName),
            CreateStep (c + 1) ("Generate" ++ toUpper indexName ++ "InDomainQualityFlags")
              (GetGenerateOutputDomainFlagsArgs info.tileFile
                (ctx.GetFilePath c (toUpper indexName ++ "_mono_date_img.tif")) ctx.laiCfgFile
                indexName
                (ctx.GetFilePath (c + 1) (toUpper indexName ++ "_out_domain_flags.tif"))
                (ctx.GetFilePath (c + 1) (toUpper indexName ++ "_corrected_mono_date.tif"))
                info.resolutionStr),
            CreateStep (c + 2) ("Quantify" ++ toUpper indexName ++ "Image")
              (GetQuantifyImageArgs
                (ctx.GetFilePath (c + 1) (toUpper indexName ++ "_corrected_mono_date.tif"))
                (ctx.GetFilePath (c + 2) (toUpper indexName ++ "_mono_date_img_16.tif")))],
        cl ++ [ctx.GetFilePath c (toUpper indexName ++ "_mono_date_img.tif"),
          ctx.GetFilePath (c + 1) (toUpper indexName ++ "_corrected_mono_date.tif"),
          ctx.GetFilePath (c + 2) (toUpper indexName ++ "_mono_date_img_16.tif")]) := by
  unfold GetStepsForMonoDateBI
  rw [taskRef_lt _ _ (by omega), taskRef_lt _ _ (by omega), taskRef_lt _ _ (by omega)]
  simp

theorem GetStepsForInDomainFlags_eq (ctx : BinderContext) (l : List TaskToSubmit) (c : Nat)
    (info : TileResultFiles) (steps : List NewStep) (cl : List String) (h : c + 1 ≤ l.length) :
    GetStepsForInDomainFlags ctx l c ctx.laiCfgFile info steps cl =
      some (c + 1, { info with inDomainFlagsFile := ctx.GetFilePath c "Input_domain_flags.tif" },
        steps ++ [inDomainStep ctx info.resolutionStr info.tileFile c], cl) := by
  unfold GetStepsForInDomainFlags
  rw [taskRef_lt _ _ (by omega)]
  simp [inDomainStep]

set_option maxHeartbeats 1000000 in
theorem bindTile_eq (ctx : BinderContext) (g : ProduceFlags) (l : List TaskToSubmit)
    (res : String) (tile : TileInfos) (c : Nat) (infos : List TileResultFiles)
    (steps : List NewStep) (cl : List String) (h : c + tasksPerTile g ≤ l.length) :
    bindTile ctx g l ctx.laiCfgFile res tile (c, infos, steps, cl) =
      some (c + tasksPerTile g, infos ++ [tileResult ctx g res tile.tileFile c],
        steps ++ tileSteps ctx g res tile.tileFile c, cl ++ tileCleanup ctx g c) := by
  rcases g with ⟨_ | _, _ | _, _ | _, _ | _⟩ <;>
    simp only [tasksPerTile, indicatorCount, Bool.toNat_true, Bool.toNat_false, Bool.or_self,
      Bool.or_true, Bool.true_or, Bool.or_false, if_true, Bool.false_eq_true, if_false] at h <;>
    simp (disch := omega) only [bindTile, bindIndicators, GetStepsForStatusFlags_eq,
      GetStepsForNdvi_eq, GetStepsForAnglesCreation_eq, GetStepsForMonoDateBI_eq,
      GetStepsForInDomainFlags_eq, Option.bind_eq_bind, Option.some_bind, Bool.or_self,
      Bool.or_true, Bool.true_or, Bool.or_false, if_true, Bool.false_eq_true, if_false] <;>
    simp [InitTileResultFiles, tileResult, tileSteps, tileCleanup, tasksPerTile,
      indicatorCount, statusFlagsStep, ndviStep, anglesSteps, indicatorSteps, inDomainStep,
      indicatorCleanup, toUpper_lai, toUpper_fapar, toUpper_fcover, CreateStep]

theorem bindAllTiles_eq (ctx : BinderContext) (g : ProduceFlags) (l : List TaskToSubmit)
    (res : String) (tiles : List TileInfos) (c : Nat) (infos : List TileResultFiles)
    (steps : List NewStep) (cl : List String)
    (h : c + tiles.length * tasksPerTile g ≤ l.length) :
    bindAllTiles ctx g l ctx.laiCfgFile res tiles (c, infos, steps, cl) =
      some (c + tiles.length * tasksPerTile g, infos ++ tileResults ctx g res tiles c,
        steps ++ productTileSteps ctx g res tiles c,
        cl ++ productCleanup ctx g c tiles.length) := by
  induction tiles generalizing c infos steps cl with
  | nil => simp [bindAllTiles, tileResults, productTileSteps, productCleanup]
  | cons tile tiles ih =>
    have hlen : c + tasksPerTile g + tiles.length * tasksPerTile g ≤ l.length := by
      simp only [List.length_cons, Nat.add_mul, Nat.one_mul] at h
      omega
    simp only [bindAllTiles]
    rw [bindTile_eq ctx g l res tile c infos steps cl (by omega), Option.some_bind, ih _ _ _ _ hlen]
    simp only [tileResults, productTileSteps, productCleanup, List.length_cons, List.append_assoc,
      List.singleton_append, Option.some.injEq, Prod.mk.injEq, and_true, Nat.add_mul,
      Nat.one_mul]
    omega

theorem tileResults_head (ctx : BinderContext) (g : ProduceFlags) (res : String)
    (tiles : List TileInfos) (b : Nat) (h : tiles ≠ []) :
    ∃ first, (tileResults ctx g res tiles b)[0]? = some first ∧ first.bHasNdvi = g.bGenNdvi ∧
      first.bHasLai = g.bGenLai ∧ first.bHasFapar = g.bGenFapar ∧
      first.bHasFCover = g.bGenFCover := by
  cases tiles with
  | nil => exact absurd rfl h
  | cons tile tiles =>
    exact ⟨tileResult ctx g res tile.tileFile b, by simp [tileResults], rfl, rfl, rfl, rfl⟩

theorem GetLaiMonoProductFormatterArgs_eq (ctx : BinderContext) (g : ProduceFlags)
    (res : String) (tiles : List TileInfos) (b f : Nat) (h : tiles ≠ []) :
    GetLaiMonoProductFormatterArgs ctx f (tileResults ctx g res tiles b) =
      some (formatterArgs ctx g f (tileResults ctx g res tiles b)) := by
  obtain ⟨first, h0, h1, h2, h3, h4⟩ := tileResults_head ctx g res tiles b h
  unfold GetLaiMonoProductFormatterArgs formatterArgs
  simp only [h0, Option.bind_eq_bind, Option.some_bind, h1, h2, h3, h4]
  rcases g with ⟨_ | _, _ | _, _ | _, _ | _⟩ <;>
    cases ctx.cloudOptimizedGeotiff <;> by_cases hl : ctx.lutFile.length > 0 <;> simp [hl]

theorem GetStepsForMonodateLaiIdx_eq (ctx : BinderContext) (g : ProduceFlags)
    (tiles : List TileInfos) (l : List TaskToSubmit) (rm : Bool) (s : Nat) (h : tiles ≠ [])
    (hl : s + tiles.length * tasksPerTile g + 1 + rm.toNat ≤ l.length) :
    GetStepsForMonodateLaiIdx ctx g tiles l rm s =
      some (productSteps ctx g tiles rm s,
        s + tiles.length * tasksPerTile g + 1 + rm.toNat) := by
  unfold GetStepsForMonodateLaiIdx productSteps
  simp only [Option.bind_eq_bind]
  rw [bindAllTiles_eq ctx g l _ tiles s [] [] [] (by omega)]
  simp only [Option.some_bind, List.nil_append]
  rw [taskRef_lt _ _ (by omega), Option.some_bind,
    GetLaiMonoProductFormatterArgs_eq ctx g _ tiles s _ h, Option.some_bind]
  cases rm
  · simp
  · simp only [if_true]
    rw [taskRef_lt _ _ (by simp at hl; omega)]
    simp

theorem length_builtList (g : ProduceFlags) (init : List TaskToSubmit) (n : Nat) (rm : Bool) :
    (builtList g init n rm).length = init.length + n * tasksPerTile g + 1 + rm.toNat := by
  cases rm <;> simp [builtList, length_wiredTiles] <;> omega

theorem getElem?_wiredTiles (g : ProduceFlags) (ch : Bool) (b n i k : Nat) (hi : i < n)
    (hk : k < tasksPerTile g) :
    (wiredTiles g ch b n)[i * tasksPerTile g + k]? =
      (wiredTile g ch (b + i * tasksPerTile g))[k]? := by
  induction n generalizing b i with
  | zero => omega
  | succ n ih =>
    cases i with
    | zero =>
      simp only [wiredTiles, Nat.zero_mul, Nat.zero_add, Nat.add_zero]
      rw [List.getElem?_append_left (by rw [length_wiredTile]; exact hk)]
    | succ i =>
      simp only [wiredTiles]
      rw [List.getElem?_append_right (by rw [length_wiredTile, Nat.succ_mul]; omega),
        length_wiredTile]
      have e : (i + 1) * tasksPerTile g + k - tasksPerTile g = i * tasksPerTile g + k := by
        rw [Nat.succ_mul]; omega
      rw [e, ih (b + tasksPerTile g) i (by omega)]
      congr 2
      rw [Nat.succ_mul]; omega

theorem getElem?_builtList_tile (g : ProduceFlags) (init : List TaskToSubmit) (n : Nat)
    (rm : Bool) (i k : Nat) (hi : i < n) (hk : k < tasksPerTile g) :
    (builtList g init n rm)[init.length + i * tasksPerTile g + k]? =
      (wiredTile g (decide (0 < init.length)) (init.length + i * tasksPerTile g))[k]? := by
  have hlt : i * tasksPerTile g + k < n * tasksPerTile g := by
    have : (i + 1) * tasksPerTile g ≤ n * tasksPerTile g := Nat.mul_le_mul_right _ hi
    rw [Nat.succ_mul] at this
    omega
  unfold builtList
  rw [Nat.add_assoc, getElem?_append_add,
    List.getElem?_append_left (by rw [length_wiredTiles]; exact hlt),
    getElem?_wiredTiles g _ _ n i k hi hk]

theorem getElem?_builtList_formatter (g : ProduceFlags) (init : List TaskToSubmit) (n : Nat)
    (rm : Bool) :
    (builtList g init n rm)[init.length + n * tasksPerTile g]? =
      some ⟨"lai-processor-product-formatter", formatterRefs g init.length n⟩ := by
  unfold builtList
  rw [getElem?_append_add, List.getElem?_append_right (by rw [length_wiredTiles]),
    length_wiredTiles, Nat.sub_self]
  simp

theorem getElem?_builtList_remover (g : ProduceFlags) (init : List TaskToSubmit) (n : Nat) :
    (builtList g init n true)[init.length + n * tasksPerTile g + 1]? =
      some ⟨"files-remover", [init.length + n * tasksPerTile g]⟩ := by
  unfold builtList
  rw [Nat.add_assoc, getElem?_append_add,
    List.getElem?_append_right (by rw [length_wiredTiles]; omega), length_wiredTiles,
    Nat.add_sub_cancel_left]
  simp

theorem getElem?_builtList_init (g : ProduceFlags) (init : List TaskToSubmit) (n : Nat)
    (rm : Bool) (j : Nat) (hj : j < init.length) :
    (builtList g init n rm)[j]? = init[j]? := by
  unfold builtList
  rw [List.getElem?_append_left hj]

theorem allFrom_nil (P : Nat → TaskToSubmit → Prop) (b : Nat) : AllFrom P b [] := by
  intro k t h; simp at h

theorem allFrom_cons (P : Nat → TaskToSubmit → Prop) (b : Nat) (x : TaskToSubmit)
    (xs : List TaskToSubmit) : AllFrom P b (x :: xs) ↔ P b x ∧ AllFrom P (b + 1) xs := by
  constructor
  · intro h
    refine ⟨by simpa using h 0 x (by simp), fun k t hk => ?_⟩
    have := h (k + 1) t (by simpa using hk)
    rwa [Nat.add_assoc, Nat.add_comm 1 k]
  · rintro ⟨h0, h1⟩ k t hk
    cases k with
    | zero => simp at hk; subst hk; simpa using h0
    | succ k =>
      have := h1 k t (by simpa using hk)
      rwa [Nat.add_assoc, Nat.add_comm 1 k] at this

theorem allFrom_append (P : Nat → TaskToSubmit → Prop) (b : Nat) (l₁ l₂ : List TaskToSubmit) :
    AllFrom P b (l₁ ++ l₂) ↔ AllFrom P b l₁ ∧ AllFrom P (b + l₁.length) l₂ := by
  induction l₁ generalizing b with
  | nil => simp [allFrom_nil]
  | cons x xs ih =>
    simp only [List.cons_append, allFrom_cons, ih, List.length_cons, and_assoc]
    have e : b + 1 + xs.length = b + (xs.length + 1) := by omega
    rw [e]

theorem allFrom_wiredTile_lt (g : ProduceFlags) (ch : Bool) (b : Nat) (hb : ch = true → 0 < b) :
    AllFrom (fun j t => ∀ p ∈ t.parentTasks, p < j) b (wiredTile g ch b) := by
  rcases g with ⟨_ | _, _ | _, _ | _, _ | _⟩ <;> cases ch <;>
    simp [wiredTile, wiredIndicators, wiredIndicator, allFrom_cons, allFrom_nil] at hb ⊢ <;>
    omega

theorem allFrom_wiredTiles_lt (g : ProduceFlags) (ch : Bool) (b n : Nat)
    (hb : ch = true → 0 < b) :
    AllFrom (fun j t => ∀ p ∈ t.parentTasks, p < j) b (wiredTiles g ch b n) := by
  induction n generalizing b with
  | zero => exact allFrom_nil _ _
  | succ n ih =>
    simp only [wiredTiles, allFrom_append, length_wiredTile]
    exact ⟨allFrom_wiredTile_lt g ch b hb, ih _ (fun h => by have := hb h; omega)⟩

theorem tileFormatterRefs_lt (g : ProduceFlags) (b : Nat) :
    ∀ p ∈ tileFormatterRefs g b, p < b + tasksPerTile g := by
  rcases g with ⟨_ | _, _ | _, _ | _, _ | _⟩ <;>
    simp [tileFormatterRefs, indicatorRefs, tasksPerTile, indicatorCount]

theorem formatterRefs_lt (g : ProduceFlags) (b n : Nat) :
    ∀ p ∈ formatterRefs g b n, p < b + n * tasksPerTile g := by
  induction n generalizing b with
  | zero => simp [formatterRefs]
  | succ n ih =>
    intro p hp
    simp only [formatterRefs, List.mem_append] at hp
    rw [Nat.succ_mul]
    rcases hp with hp | hp
    · have := tileFormatterRefs_lt g b p hp; omega
    · have := ih _ p hp; omega

/-- C1. For every initial task list, flag combination, tile list and cleanup flag,
`CreateTasksForNewProduct` returns a list in which every parent reference of a task appended
by the call (a task at an index not below the initial size) is an index of the same list that
is strictly smaller than the index of the child; the built graph is therefore acyclic. -/
theorem parents_precede_children (g : ProduceFlags) (init : List TaskToSubmit)
    (tiles : List TileInfos) (rm : Bool) :
    ∃ l, CreateTasksForNewProduct g init tiles rm = some l ∧
      ∀ j t, l[j]? = some t → init.length ≤ j →
        ∀ p ∈ t.parentTasks, p < j ∧ p < l.length := by
  refine ⟨_, CreateTasksForNewProduct_eq g init tiles rm, ?_⟩
  have key : AllFrom (fun j t => ∀ p ∈ t.parentTasks, p < j) init.length
      (wiredTiles g (decide (0 < init.length)) init.length tiles.length ++
        (⟨"lai-processor-product-formatter", formatterRefs g init.length tiles.length⟩ ::
          (if rm then
            [⟨"files-remover", [init.length + tiles.length * tasksPerTile g]⟩] else []))) := by
    rw [allFrom_append, allFrom_cons, length_wiredTiles]
    refine ⟨allFrom_wiredTiles_lt g _ _ _ (by simp), formatterRefs_lt g _ _, ?_⟩
    cases rm <;> simp [allFrom_cons, allFrom_nil]
  intro j t hj hinit p hp
  obtain ⟨k, rfl⟩ : ∃ k, j = init.length + k := ⟨j - init.length, by omega⟩
  have hlen : init.length + k < (builtList g init tiles.length rm).length := by
    by_contra hc
    rw [List.getElem?_eq_none (by omega)] at hj
    exact absurd hj (by simp)
  unfold builtList at hj
  rw [getElem?_append_add] at hj
  have := key k t hj p hp
  exact ⟨this, by omega⟩

/-- C2. For every flag set, initial list, tile list and cleanup flag, `CreateTasksForNewProduct`
appends `2 + [ndvi] + [some indicator] * (4 + 3 * indicators)` tasks for each tile, then
the product formatter task, then the files-remover task iff cleanup is enabled. One
tile with LAI only and no cleanup gives 10 tasks, two tiles with NDVI and LAI and cleanup 22. -/
theorem appended_task_count :
    (∀ (g : ProduceFlags) (init : List TaskToSubmit) (tiles : List TileInfos) (rm : Bool),
      ∃ l, CreateTasksForNewProduct g init tiles rm = some l ∧
        l.length = init.length + tiles.length *
          (2 + g.bGenNdvi.toNat +
            (if g.bGenLai || g.bGenFapar || g.bGenFCover then
              4 + 3 * (g.bGenLai.toNat + g.bGenFapar.toNat + g.bGenFCover.toNat) else 0))
          + 1 + rm.toNat ∧
        (l[l.length - 1 - rm.toNat]?).map (fun t => t.moduleName) =
          some "lai-processor-product-formatter" ∧
        (rm = true → (l[l.length - 1]?).map (fun t => t.moduleName) = some "files-remover")) ∧
    (∀ t : TileInfos,
      (CreateTasksForNewProduct ⟨false, true, false, false⟩ [] [t] false).map List.length =
        some 10) ∧
    (∀ t₁ t₂ : TileInfos,
      (CreateTasksForNewProduct ⟨true, true, false, false⟩ [] [t₁, t₂] true).map List.length =
        some 22) := by
  refine ⟨fun g init tiles rm => ⟨_, CreateTasksForNewProduct_eq g init tiles rm, ?_, ?_, ?_⟩,
    fun t => ?_, fun t₁ t₂ => ?_⟩
  · rw [length_builtList]; rfl
  · rw [length_builtList]
    have e : init.length + tiles.length * tasksPerTile g + 1 + rm.toNat - 1 - rm.toNat =
        init.length + tiles.length * tasksPerTile g := by omega
    rw [e, getElem?_builtList_formatter]; rfl
  · rintro rfl
    rw [length_builtList]
    have e : init.length + tiles.length * tasksPerTile g + 1 + true.toNat - 1 =
        init.length + tiles.length * tasksPerTile g + 1 := by simp
    rw [e, getElem?_builtList_remover]; rfl
  · rw [CreateTasksForNewProduct_eq, Option.map_some', length_builtList]; rfl
  · rw [CreateTasksForNewProduct_eq, Option.map_some', length_builtList]; rfl

/-- C3 (what the code does). For one tile with LAI only, the three consecutive tasks of the
LAI sub-chain carry the module names `lai-processor`, `lai-quantify-image`, `gen-domain-flags`
in this order: the task named `lai-quantify-image` has the `lai-processor` task as parent and
the task named `gen-domain-flags` has the `lai-quantify-image` task as parent. -/
theorem indicator_chain_names_swapped :
    CreateTasksForNewProduct ⟨false, true, false, false⟩ [] [⟨"tile.xml"⟩] false =
      some [⟨"lai-processor-mask-flags", []⟩, ⟨"lai-create-angles", [0]⟩,
        ⟨"gdal_translate", [1]⟩, ⟨"gdalbuildvrt", [2]⟩, ⟨"gdal_translate", [3]⟩,
        ⟨"lai-processor", [4]⟩, ⟨"lai-quantify-image", [5]⟩, ⟨"gen-domain-flags", [6]⟩,
        ⟨"gen-domain-flags", [0]⟩, ⟨"lai-processor-product-formatter", [7, 8]⟩] := by
  rfl

/-- C4. In every tile that `CreateTasksForNewProduct` builds (its mask-flags task is at index
`b`, its first angles task at index `a`): the NDVI task, the first angles task
`lai-create-angles` and the input-domain task have the mask-flags task as their only parent;
each of the other three angles tasks has the preceding angles task as its only parent; the
first task of every enabled indicator sub-chain has the last angles task as its only parent,
and the second and third task of a sub-chain have the task before them as their only
parent, so that the sub-chains do not depend on one another. -/
theorem tile_parent_wiring (g : ProduceFlags) (init : List TaskToSubmit)
    (tiles : List TileInfos) (rm : Bool) :
    ∃ l, CreateTasksForNewProduct g init tiles rm = some l ∧
      ∀ i, i < tiles.length →
        ∀ b a cFapar cFCover, b = init.length + i * tasksPerTile g →
          a = b + 1 + g.bGenNdvi.toNat → cFapar = a + 4 + 3 * g.bGenLai.toNat →
          cFCover = cFapar + 3 * g.bGenFapar.toNat →
        (l[b]?).map (fun t => t.moduleName) = some "lai-processor-mask-flags" ∧
        (g.bGenNdvi = true → l[b + 1]? = some ⟨"lai-processor-ndvi-extractor", [b]⟩) ∧
        ((g.bGenLai || g.bGenFapar || g.bGenFCover) = true →
          l[a]? = some ⟨"lai-create-angles", [b]⟩ ∧
          l[a + 1]? = some ⟨"gdal_translate", [a]⟩ ∧
          l[a + 2]? = some ⟨"gdalbuildvrt", [a + 1]⟩ ∧
          l[a + 3]? = some ⟨"gdal_translate", [a + 2]⟩) ∧
        (g.bGenLai = true →
          l[a + 4]? = some ⟨"lai-processor", [a + 3]⟩ ∧
          (l[a + 5]?).map (fun t => t.parentTasks) = some [a + 4] ∧
          (l[a + 6]?).map (fun t => t.parentTasks) = some [a + 5]) ∧
        (g.bGenFapar = true →
          l[cFapar]? = some ⟨"fapar-processor", [a + 3]⟩ ∧
          (l[cFapar + 1]?).map (fun t => t.parentTasks) = some [cFapar] ∧
          (l[cFapar + 2]?).map (fun t => t.parentTasks) = some [cFapar + 1]) ∧
        (g.bGenFCover = true →
          l[cFCover]? = some ⟨"fcover-processor", [a + 3]⟩ ∧
          (l[cFCover + 1]?).map (fun t => t.parentTasks) = some [cFCover] ∧
          (l[cFCover + 2]?).map (fun t => t.parentTasks) = some [cFCover + 1]) ∧
        l[b + tasksPerTile g - 1]? = some ⟨"gen-domain-flags", [b]⟩ := by
  refine ⟨_, CreateTasksForNewProduct_eq g init tiles rm, ?_⟩
  intro i hi b a cFapar cFCover hb ha hF hC
  have T : ∀ k, k < tasksPerTile g →
      (builtList g init tiles.length rm)[b + k]? =
        (wiredTile g (decide (0 < init.length)) b)[k]? := by
    intro k hk
    rw [hb]
    exact getElem?_builtList_tile g init tiles.length rm i k hi hk
  have T0 := T 0 (by unfold tasksPerTile; omega)
  rw [Nat.add_zero] at T0
  generalize builtList g init tiles.length rm = l at T T0 ⊢
  subst ha hF hC
  clear hb hi
  rcases g with ⟨_ | _, _ | _, _ | _, _ | _⟩ <;>
    simp only [tasksPerTile, indicatorCount, Bool.toNat_true, Bool.toNat_false, Bool.or_self,
      Bool.or_true, Bool.true_or, Bool.or_false, if_true, Bool.false_eq_true, if_false,
      false_implies, true_implies, true_and, Nat.add_zero, Nat.mul_zero, Nat.mul_one,
      Nat.add_assoc, Nat.reduceAdd, Nat.add_one_sub_one, Nat.reduceSub, Nat.add_sub_cancel]
      at T ⊢ <;>
    simp (disch := omega) only [T, T0] <;>
    simp [wiredTile, wiredIndicators, wiredIndicator, Nat.add_assoc]

theorem wiredTile_not_remover (g : ProduceFlags) (ch : Bool) (b : Nat) :
    ∀ t ∈ wiredTile g ch b, t.moduleName ≠ "files-remover" := by
  rcases g with ⟨_ | _, _ | _, _ | _, _ | _⟩ <;>
    simp [wiredTile, wiredIndicators, wiredIndicator]

theorem wiredTiles_not_remover (g : ProduceFlags) (ch : Bool) (b n : Nat) :
    ∀ t ∈ wiredTiles g ch b n, t.moduleName ≠ "files-remover" := by
  induction n generalizing b with
  | zero => simp [wiredTiles]
  | succ n ih =>
    intro t ht
    simp only [wiredTiles, List.mem_append] at ht
    rcases ht with ht | ht
    · exact wiredTile_not_remover g ch b t ht
    · exact ih _ t ht

theorem drop_builtList (g : ProduceFlags) (init : List TaskToSubmit) (n : Nat) (rm : Bool) :
    (builtList g init n rm).drop init.length =
      wiredTiles g (decide (0 < init.length)) init.length n ++
        (⟨"lai-processor-product-formatter", formatterRefs g init.length n⟩ ::
          (if rm then [⟨"files-remover", [init.length + n * tasksPerTile g]⟩] else [])) := by
  unfold builtList
  rw [List.drop_left]

/-- C7. For every call of `CreateTasksForNewProduct`: with cleanup enabled, exactly one of the
appended tasks has the module `files-remover`; it is the last task of the list and its only
parent is the task just before it, which was appended by the same call and has the module
`lai-processor-product-formatter`. With cleanup disabled no appended task has the module
`files-remover`. -/
theorem files_remover_wiring (g : ProduceFlags) (init : List TaskToSubmit)
    (tiles : List TileInfos) (rm : Bool) :
    ∃ l, CreateTasksForNewProduct g init tiles rm = some l ∧
      (rm = true →
        ((l.drop init.length).filter (fun t => t.moduleName = "files-remover")).length = 1 ∧
        l.getLast? = some ⟨"files-remover", [l.length - 2]⟩ ∧
        init.length ≤ l.length - 2 ∧
        (l[l.length - 2]?).map (fun t => t.moduleName) =
          some "lai-processor-product-formatter") ∧
      (rm = false → ∀ t ∈ l.drop init.length, t.moduleName ≠ "files-remover") := by
  refine ⟨_, CreateTasksForNewProduct_eq g init tiles rm, ?_, ?_⟩
  · rintro rfl
    have hnone : (wiredTiles g (decide (0 < init.length)) init.length tiles.length).filter
        (fun t => t.moduleName = "files-remover") = [] := by
      rw [List.filter_eq_nil_iff]
      intro t ht
      simpa using wiredTiles_not_remover g _ _ _ t ht
    have hlen := length_builtList g init tiles.length true
    have e2 : (builtList g init tiles.length true).length - 2 =
        init.length + tiles.length * tasksPerTile g := by
      rw [hlen]; simp
    refine ⟨?_, ?_, ?_, ?_⟩
    · rw [drop_builtList, List.filter_append, hnone]
      simp [List.filter]
    · rw [e2]
      simp [builtList, List.getLast?_append]
    · omega
    · rw [e2, getElem?_builtList_formatter]; rfl
  · rintro rfl t ht
    rw [drop_builtList] at ht
    simp only [Bool.false_eq_true, if_false, List.mem_append, List.mem_singleton] at ht
    rcases ht with ht | rfl
    · exact wiredTiles_not_remover g _ _ _ t ht
    · show "lai-processor-product-formatter" ≠ "files-remover"
      decide

theorem allFrom_tail_wiredTile (g : ProduceFlags) (ch : Bool) (b : Nat) :
    AllFrom (fun j t => j - 1 ∈ t.parentTasks ∨ j - 1 ∈ tileFormatterRefs g b) (b + 1)
      (wiredTile g ch b).tail := by
  rcases g with ⟨_ | _, _ | _, _ | _, _ | _⟩ <;>
    simp [wiredTile, wiredIndicators, wiredIndicator, tileFormatterRefs, indicatorRefs,
      tasksPerTile, indicatorCount, allFrom_cons, allFrom_nil]

theorem last_mem_tileFormatterRefs (g : ProduceFlags) (b : Nat) :
    b + tasksPerTile g - 1 ∈ tileFormatterRefs g b := by
  simp [tileFormatterRefs]

theorem tile_successor (g : ProduceFlags) (ch : Bool) (b k : Nat) (hk : k < tasksPerTile g) :
    b + k ∈ tileFormatterRefs g b ∨
      ∃ t, (wiredTile g ch b)[k + 1]? = some t ∧ b + k ∈ t.parentTasks := by
  by_cases hlast : k + 1 < tasksPerTile g
  · have hlt : k + 1 < (wiredTile g ch b).length := by rw [length_wiredTile]; exact hlast
    have hget : (wiredTile g ch b).tail[k]? = some (wiredTile g ch b)[k + 1] := by
      rw [List.getElem?_tail, List.getElem?_eq_getElem hlt]
    have := allFrom_tail_wiredTile g ch b k _ hget
    have e : b + 1 + k - 1 = b + k := by omega
    simp only [e] at this
    rcases this with h | h
    · exact Or.inr ⟨_, List.getElem?_eq_getElem hlt, h⟩
    · exact Or.inl h
  · have e : b + k = b + tasksPerTile g - 1 := by omega
    rw [e]
    exact Or.inl (last_mem_tileFormatterRefs g b)

theorem tileFormatterRefs_subset (g : ProduceFlags) (b n i : Nat) (hi : i < n) :
    ∀ p ∈ tileFormatterRefs g (b + i * tasksPerTile g), p ∈ formatterRefs g b n := by
  induction n generalizing b i with
  | zero => omega
  | succ n ih =>
    intro p hp
    simp only [formatterRefs, List.mem_append]
    cases i with
    | zero => left; simpa using hp
    | succ i =>
      right
      refine ih (b + tasksPerTile g) i (by omega) p ?_
      have e : b + tasksPerTile g + i * tasksPerTile g = b + (i + 1) * tasksPerTile g := by
        rw [Nat.succ_mul]; omega
      rwa [e]

theorem tile_task_reaches_formatter (g : ProduceFlags) (init : List TaskToSubmit) (n : Nat)
    (rm : Bool) (i : Nat) (hi : i < n) (d k : Nat) (hd : k + d = tasksPerTile g) (hk : 0 < d) :
    Relation.TransGen (ChildLink (builtList g init n rm))
      (init.length + i * tasksPerTile g + k) (init.length + n * tasksPerTile g) := by
  induction d generalizing k with
  | zero => omega
  | succ d ih =>
    rcases tile_successor g (decide (0 < init.length)) (init.length + i * tasksPerTile g) k
      (by omega) with h | ⟨t, ht, hp⟩
    · exact Relation.TransGen.single
        ⟨_, getElem?_builtList_formatter g init n rm,
          tileFormatterRefs_subset g init.length n i hi _ h⟩
    · have hk1 : k + 1 < tasksPerTile g := by
        by_contra hc
        rw [List.getElem?_eq_none (by rw [length_wiredTile]; omega)] at ht
        exact absurd ht (by simp)
      refine Relation.TransGen.head ⟨t, ?_, hp⟩ (ih (k + 1) (by omega) (by omega))
      rw [← ht]
      exact getElem?_builtList_tile g init n rm i (k + 1) hi hk1

/-- C6. For every flag combination, initial list, tile list and cleanup flag, every task that
`CreateTasksForNewProduct` appends for the product before the product formatter (every task
of a tile) has a path of child links, from a parent to a task that lists it as a parent, that
ends at the product formatter task of the same call. -/
theorem every_task_reaches_formatter (g : ProduceFlags) (init : List TaskToSubmit)
    (tiles : List TileInfos) (rm : Bool) :
    ∃ l, CreateTasksForNewProduct g init tiles rm = some l ∧
      (l[init.length + tiles.length * tasksPerTile g]?).map (fun t => t.moduleName) =
        some "lai-processor-product-formatter" ∧
      ∀ j, init.length ≤ j → j < init.length + tiles.length * tasksPerTile g →
        Relation.TransGen (ChildLink l) j (init.length + tiles.length * tasksPerTile g) := by
  refine ⟨_, CreateTasksForNewProduct_eq g init tiles rm, ?_, ?_⟩
  · rw [getElem?_builtList_formatter]; rfl
  · intro j h1 h2
    have hpos : 0 < tasksPerTile g := by unfold tasksPerTile; omega
    obtain ⟨m, rfl⟩ : ∃ m, j = init.length + m := ⟨j - init.length, by omega⟩
    have hm : m < tiles.length * tasksPerTile g := by omega
    have hi : m / tasksPerTile g < tiles.length := by
      rw [Nat.div_lt_iff_lt_mul hpos]; exact hm
    have hk : m % tasksPerTile g < tasksPerTile g := Nat.mod_lt _ hpos
    have e : init.length + m =
        init.length + m / tasksPerTile g * tasksPerTile g + m % tasksPerTile g := by
      have := Nat.div_add_mod m (tasksPerTile g)
      rw [Nat.mul_comm] at this
      omega
    rw [e]
    exact tile_task_reaches_formatter g init tiles.length rm _ hi
      (tasksPerTile g - m % tasksPerTile g) _ (by omega) (by omega)

/-- C8 (counterexample). With an empty initial task list, two tiles, NDVI and LAI, and
cleanup on, the mask-flags task of the second tile (index 10) has no parent at all, although
the last task of the first tile (the input-domain task at index 9) precedes it. -/
theorem second_tile_mask_flags_unchained :
    ∃ l, CreateTasksForNewProduct ⟨true, true, false, false⟩ [] [⟨"a.xml"⟩, ⟨"b.xml"⟩] true =
        some l ∧
      l[9]? = some ⟨"gen-domain-flags", [0]⟩ ∧
      l[10]? = some ⟨"lai-processor-mask-flags", []⟩ :=
  ⟨_, rfl, rfl, rfl⟩

theorem head_wiredTile (g : ProduceFlags) (ch : Bool) (b : Nat) :
    (wiredTile g ch b)[0]? =
      some ⟨"lai-processor-mask-flags", if ch then [b - 1] else []⟩ := by
  simp [wiredTile]

theorem last_wiredTile (g : ProduceFlags) (ch : Bool) (b : Nat) :
    (wiredTile g ch b)[tasksPerTile g - 1]? = some ⟨"gen-domain-flags", [b]⟩ := by
  rcases g with ⟨_ | _, _ | _, _ | _, _ | _⟩ <;> cases ch <;> rfl

/-- C8 (amended). With product chaining on (the value the builder uses), for every call of
`CreateTasksForNewProduct` on a non-empty initial task list, the mask-flags task of every
tile `k > 0` has exactly one parent, the task just before it, which is the last task of tile
`k - 1`: its input-domain task `gen-domain-flags`, whose parent is the mask-flags task of tile
`k - 1`. -/
theorem later_tile_mask_flags_chained (g : ProduceFlags) (init : List TaskToSubmit)
    (tiles : List TileInfos) (rm : Bool) (hinit : init ≠ []) :
    bChainProducts = true ∧
    ∃ l, CreateTasksForNewProduct g init tiles rm = some l ∧
      ∀ k, 0 < k → k < tiles.length →
        l[init.length + k * tasksPerTile g]? =
          some ⟨"lai-processor-mask-flags", [init.length + k * tasksPerTile g - 1]⟩ ∧
        l[init.length + k * tasksPerTile g - 1]? =
          some ⟨"gen-domain-flags", [init.length + (k - 1) * tasksPerTile g]⟩ := by
  refine ⟨rfl, _, CreateTasksForNewProduct_eq g init tiles rm, ?_⟩
  intro k hk0 hk
  have hpos : 0 < init.length := List.length_pos.mpr hinit
  have hpt : 0 < tasksPerTile g := by unfold tasksPerTile; omega
  constructor
  · have := getElem?_builtList_tile g init tiles.length rm k 0 hk hpt
    rw [Nat.add_zero] at this
    rw [this, head_wiredTile]
    simp [hpos]
  · obtain ⟨j, rfl⟩ : ∃ j, k = j + 1 := ⟨k - 1, by omega⟩
    have := getElem?_builtList_tile g init tiles.length rm j (tasksPerTile g - 1) (by omega)
      (by omega)
    have e : init.length + (j + 1) * tasksPerTile g - 1 =
        init.length + j * tasksPerTile g + (tasksPerTile g - 1) := by
      rw [Nat.succ_mul]; omega
    rw [e, this, last_wiredTile, Nat.add_sub_cancel]

/-- Witness of C8 (amended): one earlier task in the list, two tiles with NDVI and LAI,
cleanup on; the mask-flags task of the second tile is at index 11. -/
theorem later_tile_mask_flags_chained_witness :
    ([⟨"earlier", []⟩] : List TaskToSubmit) ≠ [] ∧
    bChainProducts = true ∧
    ∃ l, CreateTasksForNewProduct ⟨true, true, false, false⟩ [⟨"earlier", []⟩]
        [⟨"a.xml"⟩, ⟨"b.xml"⟩] true = some l ∧
      ∀ k, 0 < k → k < 2 →
        l[1 + k * tasksPerTile ⟨true, true, false, false⟩]? =
          some ⟨"lai-processor-mask-flags",
            [1 + k * tasksPerTile ⟨true, true, false, false⟩ - 1]⟩ ∧
        l[1 + k * tasksPerTile ⟨true, true, false, false⟩ - 1]? =
          some ⟨"gen-domain-flags", [1 + (k - 1) * tasksPerTile ⟨true, true, false, false⟩]⟩ :=
  ⟨by decide, later_tile_mask_flags_chained ⟨true, true, false, false⟩ [⟨"earlier", []⟩]
    [⟨"a.xml"⟩, ⟨"b.xml"⟩] true (by decide)⟩

theorem map_task_tileSteps (ctx : BinderContext) (g : ProduceFlags) (res tileFile : String)
    (b : Nat) :
    (tileSteps ctx g res tileFile b).map (fun s => s.task) = List.range' b (tasksPerTile g) := by
  rcases g with ⟨_ | _, _ | _, _ | _, _ | _⟩ <;>
    simp [tileSteps, statusFlagsStep, ndviStep, anglesSteps, indicatorSteps, inDomainStep,
      CreateStep, tasksPerTile, indicatorCount, List.range', Nat.add_assoc]

theorem map_task_productTileSteps (ctx : BinderContext) (g : ProduceFlags) (res : String)
    (tiles : List TileInfos) (b : Nat) :
    (productTileSteps ctx g res tiles b).map (fun s => s.task) =
      List.range' b (tiles.length * tasksPerTile g) := by
  induction tiles generalizing b with
  | nil => simp [productTileSteps]
  | cons tile tiles ih =>
    simp only [productTileSteps, List.map_append, map_task_tileSteps, ih, List.length_cons,
      Nat.succ_mul]
    rw [List.range'_append_1]

theorem map_task_productSteps (ctx : BinderContext) (g : ProduceFlags)
    (tiles : List TileInfos) (rm : Bool) (s : Nat) :
    (productSteps ctx g tiles rm s).map (fun x => x.task) =
      List.range' s (tiles.length * tasksPerTile g + 1 + rm.toNat) := by
  unfold productSteps
  rw [List.map_append, map_task_productTileSteps]
  cases rm
  · simp only [Bool.false_eq_true, if_false, List.map_cons, List.map_nil, CreateStep,
      Bool.toNat_false, Nat.add_zero]
    rw [List.range'_1_concat]
  · simp only [if_true, List.map_cons, List.map_nil, CreateStep, Bool.toNat_true]
    rw [List.range'_1_concat, List.range'_1_concat, List.append_assoc]
    rfl

/-- C9. For every flag combination, non-empty tile list and cleanup flag: after
`CreateTasksForNewProduct`, `GetStepsForMonodateLai` started at the size that the list had
before returns as many steps as tasks were appended, and its `i`-th step is created from
the task at index `tasksStartIdx + i`; so every appended task gets exactly one step and no
other task gets one. -/
theorem every_appended_task_gets_one_step (ctx : BinderContext) (g : ProduceFlags)
    (init : List TaskToSubmit) (tiles : List TileInfos) (rm : Bool) (h : tiles ≠ []) :
    ∃ l steps, CreateTasksForNewProduct g init tiles rm = some l ∧
      GetStepsForMonodateLai ctx g tiles l rm init.length = some steps ∧
      steps.length = l.length - init.length ∧
      ∀ i s, steps[i]? = some s → s.task = init.length + i := by
  have hsteps : GetStepsForMonodateLai ctx g tiles (builtList g init tiles.length rm) rm
      init.length = some (productSteps ctx g tiles rm init.length) := by
    unfold GetStepsForMonodateLai
    rw [GetStepsForMonodateLaiIdx_eq ctx g tiles _ rm init.length h
      (by rw [length_builtList])]
    rfl
  have hmap := map_task_productSteps ctx g tiles rm init.length
  refine ⟨_, _, CreateTasksForNewProduct_eq g init tiles rm, hsteps, ?_, ?_⟩
  · have := congrArg List.length hmap
    rw [List.length_map, List.length_range'] at this
    rw [this, length_builtList]; omega
  · intro i s hi
    have h1 : ((productSteps ctx g tiles rm init.length).map (fun x => x.task))[i]? =
        some s.task := by
      rw [List.getElem?_map, hi]; rfl
    rw [hmap] at h1
    have hlt : i < tiles.length * tasksPerTile g + 1 + rm.toNat := by
      by_contra hc
      rw [List.getElem?_eq_none (by rw [List.length_range']; omega)] at h1
      exact absurd h1 (by simp)
    rw [List.getElem?_range' _ _ hlt] at h1
    simpa using h1.symm

/-- Witness of C9: one tile with LAI only, no cleanup, empty initial list. -/
theorem every_appended_task_gets_one_step_witness :
    ([⟨"tile.xml"⟩] : List TileInfos) ≠ [] ∧
    ∃ l steps, CreateTasksForNewProduct ⟨false, true, false, false⟩ [] [⟨"tile.xml"⟩] false =
        some l ∧
      GetStepsForMonodateLai
        sampleContext
        ⟨false, true, false, false⟩ [⟨"tile.xml"⟩] l false 0 = some steps ∧
      steps.length = l.length - 0 ∧
      ∀ i s, steps[i]? = some s → s.task = 0 + i :=
  ⟨by decide, every_appended_task_gets_one_step _ _ _ _ _ (by decide)⟩

theorem filter_tileSteps (ctx : BinderContext) (g : ProduceFlags) (res tileFile : String)
    (b : Nat) :
    ((tileSteps ctx g res tileFile b).filter (fun s => s.stepName ∈
        ["NdviRviExtractionNew", "QuantifyLAIImage", "QuantifyFAPARImage",
          "QuantifyFCOVERImage", "GenerateInDomainQualityFlags"])).map (fun s => s.task) =
      tileFormatterRefs g b := by
  rcases g with ⟨_ | _, _ | _, _ | _, _ | _⟩ <;>
    simp [tileSteps, statusFlagsStep, ndviStep, anglesSteps, indicatorSteps, inDomainStep,
      CreateStep, tasksPerTile, indicatorCount, tileFormatterRefs, indicatorRefs, List.filter,
      Nat.add_assoc]

theorem filter_productTileSteps (ctx : BinderContext) (g : ProduceFlags) (res : String)
    (tiles : List TileInfos) (b : Nat) :
    ((productTileSteps ctx g res tiles b).filter (fun s => s.stepName ∈
        ["NdviRviExtractionNew", "QuantifyLAIImage", "QuantifyFAPARImage",
          "QuantifyFCOVERImage", "GenerateInDomainQualityFlags"])).map (fun s => s.task) =
      formatterRefs g b tiles.length := by
  induction tiles generalizing b with
  | nil => simp [productTileSteps, formatterRefs]
  | cons tile tiles ih =>
    simp only [productTileSteps, List.filter_append, List.map_append, filter_tileSteps, ih,
      List.length_cons, formatterRefs]

theorem length_tileFormatterRefs (g : ProduceFlags) (b : Nat) :
    (tileFormatterRefs g b).length = g.bGenNdvi.toNat + indicatorCount g + 1 := by
  rcases g with ⟨_ | _, _ | _, _ | _, _ | _⟩ <;> rfl

theorem length_formatterRefs (g : ProduceFlags) (b n : Nat) :
    (formatterRefs g b n).length = n * (g.bGenNdvi.toNat + indicatorCount g + 1) := by
  induction n generalizing b with
  | zero => simp [formatterRefs]
  | succ n ih =>
    simp only [formatterRefs, List.length_append, length_tileFormatterRefs, ih, Nat.succ_mul]
    omega

/-- C5. After `CreateTasksForNewProduct` and `GetStepsForMonodateLai`, the parents of the
product formatter task are exactly the tasks bound to a step named `NdviRviExtractionNew`,
`QuantifyLAIImage`, `QuantifyFAPARImage`, `QuantifyFCOVERImage` or
`GenerateInDomainQualityFlags`, in the order of the steps (tile by tile), and no other task;
there are `n * ([ndvi] + indicators + 1)` of them for `n` tiles. -/
theorem formatter_parents (ctx : BinderContext) (g : ProduceFlags)
    (init : List TaskToSubmit) (tiles : List TileInfos) (rm : Bool) (h : tiles ≠ []) :
    ∃ l steps fmt, CreateTasksForNewProduct g init tiles rm = some l ∧
      GetStepsForMonodateLai ctx g tiles l rm init.length = some steps ∧
      l[init.length + tiles.length * tasksPerTile g]? = some fmt ∧
      fmt.moduleName = "lai-processor-product-formatter" ∧
      fmt.parentTasks =
        (steps.filter (fun s => s.stepName ∈
          ["NdviRviExtractionNew", "QuantifyLAIImage", "QuantifyFAPARImage",
            "QuantifyFCOVERImage", "GenerateInDomainQualityFlags"])).map (fun s => s.task) ∧
      fmt.parentTasks.length =
        tiles.length *
          (g.bGenNdvi.toNat + (g.bGenLai.toNat + g.bGenFapar.toNat + g.bGenFCover.toNat) + 1) := by
  have hsteps : GetStepsForMonodateLai ctx g tiles (builtList g init tiles.length rm) rm
      init.length = some (productSteps ctx g tiles rm init.length) := by
    unfold GetStepsForMonodateLai
    rw [GetStepsForMonodateLaiIdx_eq ctx g tiles _ rm init.length h
      (by rw [length_builtList])]
    rfl
  refine ⟨_, _, _, CreateTasksForNewProduct_eq g init tiles rm, hsteps,
    getElem?_builtList_formatter g init tiles.length rm, rfl, ?_, ?_⟩
  · unfold productSteps
    rw [List.filter_append, List.map_append, filter_productTileSteps]
    cases rm <;> simp [List.filter, CreateStep]
  · exact length_formatterRefs g init.length tiles.length

/-- Witness of C5: one tile with LAI only, no cleanup, empty initial list; the formatter has
exactly two parents. -/
theorem formatter_parents_witness :
    ([⟨"tile.xml"⟩] : List TileInfos) ≠ [] ∧
    ∃ l steps fmt,
      CreateTasksForNewProduct ⟨false, true, false, false⟩ [] [⟨"tile.xml"⟩] false = some l ∧
      GetStepsForMonodateLai sampleContext ⟨false, true, false, false⟩ [⟨"tile.xml"⟩] l false 0 =
        some steps ∧
      l[9]? = some fmt ∧
      fmt.moduleName = "lai-processor-product-formatter" ∧
      fmt.parentTasks =
        (steps.filter (fun s => s.stepName ∈
          ["NdviRviExtractionNew", "QuantifyLAIImage", "QuantifyFAPARImage",
            "QuantifyFCOVERImage", "GenerateInDomainQualityFlags"])).map (fun s => s.task) ∧
      fmt.parentTasks.length = 2 :=
  ⟨by decide, formatter_parents _ ⟨false, true, false, false⟩ [] [⟨"tile.xml"⟩] false
    (by decide)⟩

theorem tileCleanup_eq_table (ctx : BinderContext) (g : ProduceFlags) (b : Nat) :
    tileCleanup ctx g b =
      ((tileOutputFiles g b).filter (fun tf => !isDomainFlagsFile tf.2)).map
        (fun tf => ctx.GetFilePath tf.1 tf.2) := by
  rcases g with ⟨_ | _, _ | _, _ | _, _ | _⟩ <;>
    simp [tileCleanup, indicatorCleanup, tileOutputFiles, indicatorOutputFiles,
      isDomainFlagsFile, List.filter]

theorem productCleanup_eq (ctx : BinderContext) (g : ProduceFlags) (b n : Nat) :
    productCleanup ctx g b n =
      (List.range n).flatMap (fun i => tileCleanup ctx g (b + i * tasksPerTile g)) := by
  induction n generalizing b with
  | zero => simp [productCleanup]
  | succ n ih =>
    rw [productCleanup, ih, List.range_succ_eq_map, List.flatMap_cons, List.flatMap_map]
    simp only [Nat.zero_mul, Nat.add_zero, Nat.succ_mul]
    congr 2
    funext i
    congr 1
    omega

theorem indicatorOutputFiles_bound (ctx : BinderContext) (en : Bool)
    (res tileFile indexName caps : String) (a c : Nat) :
    ∀ tf ∈ indicatorOutputFiles en caps c,
      ∃ s ∈ indicatorSteps ctx en res tileFile indexName caps a c,
        s.task = tf.1 ∧ ctx.GetFilePath tf.1 tf.2 ∈ s.arguments := by
  cases en <;>
    simp [indicatorOutputFiles, indicatorSteps, CreateStep, GetLaiProcessorArgs,
      GetGenerateOutputDomainFlagsArgs, GetQuantifyImageArgs]

theorem anglesOutputFiles_bound (ctx : BinderContext) (tileFile : String) (a : Nat) :
    ∀ tf ∈ [(a, "angles_small_res.tif"), (a + 1, "angles_small_res_no_data.tif"),
        (a + 2, "angles.vrt"), (a + 3, "angles_resampled.tif")],
      ∃ s ∈ anglesSteps ctx tileFile a,
        s.task = tf.1 ∧ ctx.GetFilePath tf.1 tf.2 ∈ s.arguments := by
  simp [anglesSteps, CreateStep, GetCreateAnglesArgs, GetGdalTranslateAnglesNoDataArgs,
    GetGdalBuildAnglesVrtArgs, GetGdalTranslateResampleAnglesArgs]

theorem tileOutputFiles_bound (ctx : BinderContext) (g : ProduceFlags) (res tileFile : String)
    (b : Nat) :
    ∀ tf ∈ tileOutputFiles g b, ∃ s ∈ tileSteps ctx g res tileFile b,
      s.task = tf.1 ∧ ctx.GetFilePath tf.1 tf.2 ∈ s.arguments := by
  intro tf htf
  unfold tileOutputFiles at htf
  unfold tileSteps
  simp only [List.mem_append] at htf ⊢
  rcases htf with h | h | h | h
  · refine ⟨statusFlagsStep ctx res tileFile b, Or.inl (by simp), ?_⟩
    simp only [List.mem_cons, List.mem_singleton, List.not_mem_nil, or_false] at h
    rcases h with rfl | rfl <;> simp [statusFlagsStep, CreateStep, GetMonoDateMskFlagsArgs]
  · by_cases hn : g.bGenNdvi = true
    · simp only [hn, if_true, List.mem_singleton] at h ⊢
      subst h
      exact ⟨_, Or.inr (Or.inl rfl),
        by simp [ndviStep, CreateStep, GetNdviRviExtractionNewArgs]⟩
    · simp [hn] at h
  · by_cases ha : (g.bGenLai || g.bGenFapar || g.bGenFCover) = true
    · simp only [ha, if_true, List.mem_append] at h ⊢
      rcases h with h | h | h | h
      · obtain ⟨s, hs, h1⟩ := anglesOutputFiles_bound ctx tileFile _ tf h
        exact ⟨s, Or.inr (Or.inr (Or.inl (Or.inl hs))), h1⟩
      · obtain ⟨s, hs, h1⟩ := indicatorOutputFiles_bound ctx _ res tileFile "lai" "LAI"
          (b + 1 + g.bGenNdvi.toNat) _ tf h
        exact ⟨s, Or.inr (Or.inr (Or.inl (Or.inr (Or.inl hs)))), h1⟩
      · obtain ⟨s, hs, h1⟩ := indicatorOutputFiles_bound ctx _ res tileFile "fapar" "FAPAR"
          (b + 1 + g.bGenNdvi.toNat) _ tf h
        exact ⟨s, Or.inr (Or.inr (Or.inl (Or.inr (Or.inr (Or.inl hs))))), h1⟩
      · obtain ⟨s, hs, h1⟩ := indicatorOutputFiles_bound ctx _ res tileFile "fcover" "FCOVER"
          (b + 1 + g.bGenNdvi.toNat) _ tf h
        exact ⟨s, Or.inr (Or.inr (Or.inl (Or.inr (Or.inr (Or.inr hs))))), h1⟩
    · simp [ha] at h
  · simp only [List.mem_singleton] at h
    subst h
    exact ⟨inDomainStep ctx res tileFile (b + tasksPerTile g - 1),
      Or.inr (Or.inr (Or.inr (by simp))),
      by simp [inDomainStep, CreateStep, GetGenerateInputDomainFlagsArgs]⟩

theorem mem_productTileSteps (ctx : BinderContext) (g : ProduceFlags) (res : String)
    (tiles : List TileInfos) (b i : Nat) (tile : TileInfos) (hi : tiles[i]? = some tile) :
    ∀ s ∈ tileSteps ctx g res tile.tileFile (b + i * tasksPerTile g),
      s ∈ productTileSteps ctx g res tiles b := by
  induction tiles generalizing b i with
  | nil => simp at hi
  | cons t ts ih =>
    intro s hs
    simp only [productTileSteps, List.mem_append]
    cases i with
    | zero =>
      simp only [List.getElem?_cons_zero, Option.some.injEq] at hi
      subst hi
      left; simpa using hs
    | succ i =>
      right
      refine ih (b + tasksPerTile g) i (by simpa using hi) s ?_
      have e : b + tasksPerTile g + i * tasksPerTile g = b + (i + 1) * tasksPerTile g := by
        rw [Nat.succ_mul]; omega
      rwa [e]

/-- C10 (counterexample). One tile with LAI only and cleanup on: the binder assigns
`LAI_out_domain_flags.tif` to the task of the step `GenerateLAIInDomainQualityFlags` and
`Input_domain_flags.tif` to the task of the step `GenerateInDomainQualityFlags` (both paths
are arguments of those steps), yet neither path is among the arguments of the
`CleanupTemporaryFiles` step. -/
theorem cleanup_list_omits_domain_flags :
    ∃ l steps d i c,
      CreateTasksForNewProduct ⟨false, true, false, false⟩ [] [⟨"tile.xml"⟩] true = some l ∧
      GetStepsForMonodateLai sampleContext ⟨false, true, false, false⟩ [⟨"tile.xml"⟩] l true 0 =
        some steps ∧
      steps[6]? = some d ∧ d.stepName = "GenerateLAIInDomainQualityFlags" ∧
      sampleContext.GetFilePath d.task "LAI_out_domain_flags.tif" ∈ d.arguments ∧
      steps[8]? = some i ∧ i.stepName = "GenerateInDomainQualityFlags" ∧
      sampleContext.GetFilePath i.task "Input_domain_flags.tif" ∈ i.arguments ∧
      steps.getLast? = some c ∧ c.stepName = "CleanupTemporaryFiles" ∧
      sampleContext.GetFilePath d.task "LAI_out_domain_flags.tif" ∉ c.arguments ∧
      sampleContext.GetFilePath i.task "Input_domain_flags.tif" ∉ c.arguments :=
  ⟨_, _, _, _, _, rfl, rfl, rfl, rfl, by decide, rfl, rfl, by decide, rfl, rfl, by decide,
    by decide⟩

/-- C10 (amended). With cleanup enabled and a non-empty tile list, the last step that
`GetStepsForMonodateLai` returns is the `CleanupTemporaryFiles` step, and its argument vector
is, tile after tile and in the order of the output-path table, the path of every
intermediate output file of the table except the `<IND>_out_domain_flags.tif` and
`Input_domain_flags.tif` files, each once and nothing else; every file of the table is an
argument of the step bound to the task it is assigned to. -/
theorem cleanup_step_arguments (ctx : BinderContext) (g : ProduceFlags)
    (init : List TaskToSubmit) (tiles : List TileInfos) (h : tiles ≠ []) :
    ∃ l steps c, CreateTasksForNewProduct g init tiles true = some l ∧
      GetStepsForMonodateLai ctx g tiles l true init.length = some steps ∧
      steps.getLast? = some c ∧ c.stepName = "CleanupTemporaryFiles" ∧
      c.arguments =
        (List.range tiles.length).flatMap (fun i =>
          ((tileOutputFiles g (init.length + i * tasksPerTile g)).filter
            (fun tf => !isDomainFlagsFile tf.2)).map (fun tf => ctx.GetFilePath tf.1 tf.2)) ∧
      ∀ i, i < tiles.length → ∀ tf ∈ tileOutputFiles g (init.length + i * tasksPerTile g),
        ∃ s ∈ steps, s.task = tf.1 ∧ ctx.GetFilePath tf.1 tf.2 ∈ s.arguments := by
  have hsteps : GetStepsForMonodateLai ctx g tiles (builtList g init tiles.length true) true
      init.length = some (productSteps ctx g tiles true init.length) := by
    unfold GetStepsForMonodateLai
    rw [GetStepsForMonodateLaiIdx_eq ctx g tiles _ true init.length h
      (by rw [length_builtList])]
    rfl
  refine ⟨_, _, CreateStep (init.length + tiles.length * tasksPerTile g + 1)
      "CleanupTemporaryFiles" (productCleanup ctx g init.length tiles.length),
    CreateTasksForNewProduct_eq g init tiles true, hsteps, ?_, rfl, ?_, ?_⟩
  · simp [productSteps, List.getLast?_append, List.getLast?_cons_cons]
  · simp only [CreateStep, productCleanup_eq, tileCleanup_eq_table]
  · intro i hi tf htf
    obtain ⟨s, hs, h1⟩ := tileOutputFiles_bound ctx g (resolutionString ctx)
      (tiles[i]).tileFile _ tf htf
    refine ⟨s, ?_, h1⟩
    unfold productSteps
    rw [List.mem_append]
    exact Or.inl (mem_productTileSteps ctx g _ tiles init.length i tiles[i]
      (List.getElem?_eq_getElem hi) s hs)

/-- Witness of C10 (amended): one tile with LAI only, empty initial list. -/
theorem cleanup_step_arguments_witness :
    ([⟨"tile.xml"⟩] : List TileInfos) ≠ [] ∧
    ∃ l steps c,
      CreateTasksForNewProduct ⟨false, true, false, false⟩ [] [⟨"tile.xml"⟩] true = some l ∧
      GetStepsForMonodateLai sampleContext ⟨false, true, false, false⟩ [⟨"tile.xml"⟩] l true 0 =
        some steps ∧
      steps.getLast? = some c ∧ c.stepName = "CleanupTemporaryFiles" ∧
      c.arguments =
        (List.range 1).flatMap (fun i =>
          ((tileOutputFiles ⟨false, true, false, false⟩
              (0 + i * tasksPerTile ⟨false, true, false, false⟩)).filter
            (fun tf => !isDomainFlagsFile tf.2)).map
              (fun tf => sampleContext.GetFilePath tf.1 tf.2)) ∧
      ∀ i, i < 1 → ∀ tf ∈ tileOutputFiles ⟨false, true, false, false⟩
          (0 + i * tasksPerTile ⟨false, true, false, false⟩),
        ∃ s ∈ steps, s.task = tf.1 ∧ sampleContext.GetFilePath tf.1 tf.2 ∈ s.arguments :=
  ⟨by decide, cleanup_step_arguments sampleContext ⟨false, true, false, false⟩ []
    [⟨"tile.xml"⟩] (by decide)⟩

theorem GetStepsForMonodateLai_builtList (ctx : BinderContext) (g : ProduceFlags)
    (init : List TaskToSubmit) (tiles : List TileInfos) (rm : Bool) (h : tiles ≠ []) :
    GetStepsForMonodateLai ctx g tiles (builtList g init tiles.length rm) rm init.length =
      some (productSteps ctx g tiles rm init.length) := by
  unfold GetStepsForMonodateLai
  rw [GetStepsForMonodateLaiIdx_eq ctx g tiles _ rm init.length h (by rw [length_builtList])]
  rfl

theorem length_tileSteps (ctx : BinderContext) (g : ProduceFlags) (res tileFile : String)
    (b : Nat) : (tileSteps ctx g res tileFile b).length = tasksPerTile g := by
  have := congrArg List.length (map_task_tileSteps ctx g res tileFile b)
  rwa [List.length_map, List.length_range'] at this

theorem length_productTileSteps (ctx : BinderContext) (g : ProduceFlags) (res : String)
    (tiles : List TileInfos) (b : Nat) :
    (productTileSteps ctx g res tiles b).length = tiles.length * tasksPerTile g := by
  have := congrArg List.length (map_task_productTileSteps ctx g res tiles b)
  rwa [List.length_map, List.length_range'] at this

theorem getElem?_productTileSteps (ctx : BinderContext) (g : ProduceFlags) (res : String)
    (tiles : List TileInfos) (b i k : Nat) (tile : TileInfos) (hi : tiles[i]? = some tile)
    (hk : k < tasksPerTile g) :
    (productTileSteps ctx g res tiles b)[i * tasksPerTile g + k]? =
      (tileSteps ctx g res tile.tileFile (b + i * tasksPerTile g))[k]? := by
  induction tiles generalizing b i with
  | nil => simp at hi
  | cons t ts ih =>
    cases i with
    | zero =>
      simp only [List.getElem?_cons_zero, Option.some.injEq] at hi
      subst hi
      simp only [productTileSteps, Nat.zero_mul, Nat.zero_add, Nat.add_zero]
      rw [List.getElem?_append_left (by rw [length_tileSteps]; exact hk)]
    | succ i =>
      simp only [List.getElem?_cons_succ] at hi
      have e1 : (i + 1) * tasksPerTile g + k =
          (tileSteps ctx g res t.tileFile b).length + (i * tasksPerTile g + k) := by
        rw [length_tileSteps, Nat.succ_mul]; omega
      have e2 : b + (i + 1) * tasksPerTile g = b + tasksPerTile g + i * tasksPerTile g := by
        rw [Nat.succ_mul]; omega
      simp only [productTileSteps]
      rw [e1, getElem?_append_add, e2]
      exact ih (b + tasksPerTile g) i hi

theorem getElem?_productSteps_tile (ctx : BinderContext) (g : ProduceFlags)
    (tiles : List TileInfos) (rm : Bool) (s i k : Nat) (tile : TileInfos)
    (hi : tiles[i]? = some tile) (hk : k < tasksPerTile g) :
    (productSteps ctx g tiles rm s)[i * tasksPerTile g + k]? =
      (tileSteps ctx g (resolutionString ctx) tile.tileFile (s + i * tasksPerTile g))[k]? := by
  have hlt : i < tiles.length := by
    by_contra hc
    rw [List.getElem?_eq_none (by omega)] at hi
    exact absurd hi (by simp)
  unfold productSteps
  rw [List.getElem?_append_left, getElem?_productTileSteps ctx g _ tiles s i k tile hi hk]
  rw [length_productTileSteps]
  calc i * tasksPerTile g + k < i * tasksPerTile g + tasksPerTile g := by omega
    _ = (i + 1) * tasksPerTile g := by rw [Nat.succ_mul]
    _ ≤ tiles.length * tasksPerTile g := Nat.mul_le_mul_right _ hlt

theorem productSteps_task_injective (ctx : BinderContext) (g : ProduceFlags)
    (tiles : List TileInfos) (rm : Bool) (s : Nat) :
    ∀ x ∈ productSteps ctx g tiles rm s, ∀ y ∈ productSteps ctx g tiles rm s,
      x.task = y.task → x = y := by
  have hnd : ((productSteps ctx g tiles rm s).map (fun x => x.task)).Nodup := by
    rw [map_task_productSteps]
    exact List.nodup_range' _ _
  intro x hx y hy hxy
  exact List.inj_on_of_nodup_map hnd hx hy hxy

theorem monoDateBIFilePaths_subset (en : Bool) (caps : String) (c : Nat) :
    ∀ tf ∈ monoDateBIFilePaths en caps c, tf ∈ indicatorOutputFiles en caps c := by
  cases en <;> simp [monoDateBIFilePaths, indicatorOutputFiles]

theorem tileFilePaths_subset (g : ProduceFlags) (b : Nat) :
    ∀ tf ∈ tileFilePaths g b, tf ∈ tileOutputFiles g b := by
  intro tf htf
  unfold tileFilePaths at htf
  unfold tileOutputFiles
  simp only [List.mem_append] at htf ⊢
  rcases htf with h | h | h | h
  · exact Or.inl h
  · exact Or.inr (Or.inl h)
  · refine Or.inr (Or.inr (Or.inl ?_))
    by_cases ha : (g.bGenLai || g.bGenFapar || g.bGenFCover) = true
    · simp only [ha, if_true, List.mem_append] at h ⊢
      rcases h with h | h | h | h
      · exact Or.inl h
      · exact Or.inr (Or.inl (monoDateBIFilePaths_subset _ _ _ tf h))
      · exact Or.inr (Or.inr (Or.inl (monoDateBIFilePaths_subset _ _ _ tf h)))
      · exact Or.inr (Or.inr (Or.inr (monoDateBIFilePaths_subset _ _ _ tf h)))
    · simp [ha] at h
  · exact Or.inr (Or.inr (Or.inr h))

theorem indicatorSteps_covered (ctx : BinderContext) (en : Bool)
    (res tileFile indexName caps : String) (a c : Nat) :
    ∀ st ∈ indicatorSteps ctx en res tileFile indexName caps a c,
      ∃ name, (st.task, name) ∈ monoDateBIFilePaths en caps c := by
  cases en
  · simp [indicatorSteps]
  · intro st hst
    simp only [indicatorSteps, if_true, List.mem_cons, List.mem_singleton, List.not_mem_nil,
      or_false] at hst
    rcases hst with rfl | rfl | rfl
    · exact ⟨caps ++ "_mono_date_img.tif", by simp [monoDateBIFilePaths, CreateStep]⟩
    · exact ⟨caps ++ "_out_domain_flags.tif", by simp [monoDateBIFilePaths, CreateStep]⟩
    · exact ⟨caps ++ "_mono_date_img_16.tif", by simp [monoDateBIFilePaths, CreateStep]⟩

theorem anglesSteps_covered (ctx : BinderContext) (tileFile : String) (a : Nat) :
    ∀ st ∈ anglesSteps ctx tileFile a,
      ∃ name, (st.task, name) ∈ [(a, "angles_small_res.tif"),
        (a + 1, "angles_small_res_no_data.tif"), (a + 2, "angles.vrt"),
        (a + 3, "angles_resampled.tif")] := by
  intro st hst
  simp only [anglesSteps, List.mem_cons, List.mem_singleton, List.not_mem_nil, or_false] at hst
  rcases hst with rfl | rfl | rfl | rfl
  · exact ⟨"angles_small_res.tif", by simp [CreateStep]⟩
  · exact ⟨"angles_small_res_no_data.tif", by simp [CreateStep]⟩
  · exact ⟨"angles.vrt", by simp [CreateStep]⟩
  · exact ⟨"angles_resampled.tif", by simp [CreateStep]⟩

theorem tileSteps_covered (ctx : BinderContext) (g : ProduceFlags) (res tileFile : String)
    (b : Nat) :
    ∀ st ∈ tileSteps ctx g res tileFile b, ∃ name, (st.task, name) ∈ tileFilePaths g b := by
  intro st hst
  unfold tileSteps at hst
  unfold tileFilePaths
  simp only [List.mem_append] at hst ⊢
  rcases hst with h | h | h | h
  · simp only [List.mem_singleton] at h
    subst h
    exact ⟨"LAI_mono_date_msk_flgs_img.tif", Or.inl (by simp [statusFlagsStep, CreateStep])⟩
  · by_cases hn : g.bGenNdvi = true
    · simp only [hn, if_true, List.mem_singleton] at h ⊢
      subst h
      exact ⟨"single_ndvi.tif", Or.inr (Or.inl (by simp [ndviStep, CreateStep]))⟩
    · simp [hn] at h
  · by_cases ha : (g.bGenLai || g.bGenFapar || g.bGenFCover) = true
    · simp only [ha, if_true, List.mem_append] at h ⊢
      rcases h with h | h | h | h
      · obtain ⟨name, hn⟩ := anglesSteps_covered ctx tileFile _ st h
        exact ⟨name, Or.inr (Or.inr (Or.inl (Or.inl hn)))⟩
      · obtain ⟨name, hn⟩ := indicatorSteps_covered ctx _ res tileFile _ _ _ _ st h
        exact ⟨name, Or.inr (Or.inr (Or.inl (Or.inr (Or.inl hn))))⟩
      · obtain ⟨name, hn⟩ := indicatorSteps_covered ctx _ res tileFile _ _ _ _ st h
        exact ⟨name, Or.inr (Or.inr (Or.inl (Or.inr (Or.inr (Or.inl hn)))))⟩
      · obtain ⟨name, hn⟩ := indicatorSteps_covered ctx _ res tileFile _ _ _ _ st h
        exact ⟨name, Or.inr (Or.inr (Or.inl (Or.inr (Or.inr (Or.inr hn)))))⟩
    · simp [ha] at h
  · simp only [List.mem_singleton] at h
    subst h
    exact ⟨"Input_domain_flags.tif", Or.inr (Or.inr (Or.inr (by simp [inDomainStep, CreateStep])))⟩

theorem exists_tileStep (ctx : BinderContext) (g : ProduceFlags) (res tileFile : String)
    (b k : Nat) (hk : k < tasksPerTile g) :
    ∃ st ∈ tileSteps ctx g res tileFile b, st.task = b + k := by
  have hmap := map_task_tileSteps ctx g res tileFile b
  have hmem : b + k ∈ (tileSteps ctx g res tileFile b).map (fun s => s.task) := by
    rw [hmap, List.mem_range'_1]; omega
  obtain ⟨st, hst, he⟩ := List.mem_map.mp hmem
  exact ⟨st, hst, he⟩

/-- C11. For every flag combination, non-empty tile list and cleanup flag, and for every tile:
every task of the tile has a step among the steps that `GetStepsForMonodateLai` returns and
is asked for at least one file path by the step binder, and every step bound to a task of the
tile has among its arguments every file path that the binder obtained from that task with
`GetFilePath`. -/
theorem step_arguments_contain_task_paths (ctx : BinderContext) (g : ProduceFlags)
    (init : List TaskToSubmit) (tiles : List TileInfos) (rm : Bool) (h : tiles ≠ []) :
    ∃ l steps, CreateTasksForNewProduct g init tiles rm = some l ∧
      GetStepsForMonodateLai ctx g tiles l rm init.length = some steps ∧
      ∀ i, i < tiles.length →
        (∀ k, k < tasksPerTile g → ∃ st ∈ steps,
          st.task = init.length + i * tasksPerTile g + k ∧
          ∃ name, (st.task, name) ∈ tileFilePaths g (init.length + i * tasksPerTile g)) ∧
        ∀ st ∈ steps, ∀ tf ∈ tileFilePaths g (init.length + i * tasksPerTile g),
          st.task = tf.1 → ctx.GetFilePath tf.1 tf.2 ∈ st.arguments := by
  refine ⟨_, _, CreateTasksForNewProduct_eq g init tiles rm,
    GetStepsForMonodateLai_builtList ctx g init tiles rm h, ?_⟩
  intro i hi
  have hsub : ∀ s ∈ tileSteps ctx g (resolutionString ctx) (tiles[i]).tileFile
      (init.length + i * tasksPerTile g), s ∈ productSteps ctx g tiles rm init.length := by
    intro s hs
    unfold productSteps
    rw [List.mem_append]
    exact Or.inl (mem_productTileSteps ctx g _ tiles init.length i tiles[i]
      (List.getElem?_eq_getElem hi) s hs)
  constructor
  · intro k hk
    obtain ⟨st, hst, he⟩ := exists_tileStep ctx g (resolutionString ctx) (tiles[i]).tileFile
      (init.length + i * tasksPerTile g) k hk
    exact ⟨st, hsub st hst, he, tileSteps_covered ctx g _ _ _ st hst⟩
  · intro st hst tf htf ht
    obtain ⟨s, hs, h1, h2⟩ := tileOutputFiles_bound ctx g (resolutionString ctx)
      (tiles[i]).tileFile _ tf (tileFilePaths_subset g _ tf htf)
    have : st = s := productSteps_task_injective ctx g tiles rm init.length st hst s (hsub s hs)
      (ht.trans h1.symm)
    rw [this]
    exact h2

/-- Witness of C11: one tile with LAI only, no cleanup, empty initial list. -/
theorem step_arguments_contain_task_paths_witness :
    ([⟨"tile.xml"⟩] : List TileInfos) ≠ [] ∧
    ∃ l steps, CreateTasksForNewProduct ⟨false, true, false, false⟩ [] [⟨"tile.xml"⟩] false =
        some l ∧
      GetStepsForMonodateLai sampleContext ⟨false, true, false, false⟩ [⟨"tile.xml"⟩] l false 0 =
        some steps ∧
      ∀ i, i < 1 →
        (∀ k, k < tasksPerTile ⟨false, true, false, false⟩ → ∃ st ∈ steps,
          st.task = 0 + i * tasksPerTile ⟨false, true, false, false⟩ + k ∧
          ∃ name, (st.task, name) ∈ tileFilePaths ⟨false, true, false, false⟩
            (0 + i * tasksPerTile ⟨false, true, false, false⟩)) ∧
        ∀ st ∈ steps, ∀ tf ∈ tileFilePaths ⟨false, true, false, false⟩
            (0 + i * tasksPerTile ⟨false, true, false, false⟩),
          st.task = tf.1 → sampleContext.GetFilePath tf.1 tf.2 ∈ st.arguments :=
  ⟨by decide, step_arguments_contain_task_paths sampleContext ⟨false, true, false, false⟩ []
    [⟨"tile.xml"⟩] false (by decide)⟩

theorem length_indicatorSteps (ctx : BinderContext) (en : Bool)
    (res tileFile indexName caps : String) (a c : Nat) :
    (indicatorSteps ctx en res tileFile indexName caps a c).length = 3 * en.toNat := by
  cases en <;> rfl

theorem getElem?_tileSteps_mid (ctx : BinderContext) (g : ProduceFlags) (res tileFile : String)
    (b j : Nat) (hany : (g.bGenLai || g.bGenFapar || g.bGenFCover) = true)
    (hj : j < 4 + 3 * indicatorCount g) :
    (tileSteps ctx g res tileFile b)[1 + g.bGenNdvi.toNat + j]? =
      (anglesSteps ctx tileFile (b + 1 + g.bGenNdvi.toNat) ++
        (indicatorSteps ctx g.bGenLai res tileFile "lai" "LAI" (b + 1 + g.bGenNdvi.toNat)
          (b + 1 + g.bGenNdvi.toNat + 4) ++
        (indicatorSteps ctx g.bGenFapar res tileFile "fapar" "FAPAR" (b + 1 + g.bGenNdvi.toNat)
          (b + 1 + g.bGenNdvi.toNat + 4 + 3 * g.bGenLai.toNat) ++
        indicatorSteps ctx g.bGenFCover res tileFile "fcover" "FCOVER"
          (b + 1 + g.bGenNdvi.toNat)
          (b + 1 + g.bGenNdvi.toNat + 4 + 3 * g.bGenLai.toNat + 3 * g.bGenFapar.toNat))))[j]? := by
  unfold tileSteps
  simp only [hany, if_true]
  have hnd : (if g.bGenNdvi = true then [ndviStep ctx res tileFile b] else []).length =
      g.bGenNdvi.toNat := by
    cases g.bGenNdvi <;> rfl
  have e : 1 + g.bGenNdvi.toNat + j = [statusFlagsStep ctx res tileFile b].length +
      ((if g.bGenNdvi = true then [ndviStep ctx res tileFile b] else []).length + j) := by
    rw [hnd]; simp only [List.length_singleton]; omega
  rw [e, getElem?_append_add, getElem?_append_add, List.getElem?_append_left]
  simp only [List.length_append, length_indicatorSteps, anglesSteps, List.length_cons,
    List.length_nil]
  unfold indicatorCount at hj
  omega

theorem getElem?_tileSteps_angles (ctx : BinderContext) (g : ProduceFlags)
    (res tileFile : String) (b j : Nat)
    (hany : (g.bGenLai || g.bGenFapar || g.bGenFCover) = true) (hj : j < 4) :
    (tileSteps ctx g res tileFile b)[1 + g.bGenNdvi.toNat + j]? =
      (anglesSteps ctx tileFile (b + 1 + g.bGenNdvi.toNat))[j]? := by
  rw [getElem?_tileSteps_mid ctx g res tileFile b j hany (by omega),
    List.getElem?_append_left (by simpa [anglesSteps] using hj)]

theorem tasksPerTile_of_any (g : ProduceFlags)
    (hany : (g.bGenLai || g.bGenFapar || g.bGenFCover) = true) :
    tasksPerTile g = 2 + g.bGenNdvi.toNat + (4 + 3 * indicatorCount g) := by
  unfold tasksPerTile
  rw [if_pos hany]

/-- C12. For every flag combination with at least one of LAI, FAPAR and FCOVER enabled, every
non-empty tile list and every tile, the steps bound to the four tasks of the angles
sub-chain are, with `a` the index of the create-angles task: `CreateAnglesRaster` writing
`A`, the `angles_small_res.tif` of task `a`; `gdal_translate` with exactly
`-of GTiff -a_nodata -10000 A B`, `B` the `angles_small_res_no_data.tif` of task `a + 1`;
`gdalbuildvrt` with exactly `-tr 10 10 -r bilinear -srcnodata -10000 -vrtnodata -10000 V B`,
`V` the `angles.vrt` of task `a + 2`; and `gdal_translate` with exactly `V R`, `R` the
`angles_resampled.tif` of task `a + 3`. So each stage reads the file that the stage before
it writes. -/
theorem angles_chain_step_arguments (ctx : BinderContext) (g : ProduceFlags)
    (init : List TaskToSubmit) (tiles : List TileInfos) (rm : Bool) (h : tiles ≠ [])
    (hany : (g.bGenLai || g.bGenFapar || g.bGenFCover) = true) :
    ∃ l steps, CreateTasksForNewProduct g init tiles rm = some l ∧
      GetStepsForMonodateLai ctx g tiles l rm init.length = some steps ∧
      ∀ i tile, tiles[i]? = some tile →
        steps[i * tasksPerTile g + (1 + g.bGenNdvi.toNat)]? =
          some ⟨init.length + i * tasksPerTile g + 1 + g.bGenNdvi.toNat, "CreateAnglesRaster",
            ["CreateAnglesRaster", "-xml", tile.tileFile, "-out",
              ctx.GetFilePath (init.length + i * tasksPerTile g + 1 + g.bGenNdvi.toNat)
                "angles_small_res.tif"]⟩ ∧
        steps[i * tasksPerTile g + (1 + g.bGenNdvi.toNat + 1)]? =
          some ⟨init.length + i * tasksPerTile g + 1 + g.bGenNdvi.toNat + 1, "gdal_translate",
            ["-of", "GTiff", "-a_nodata", "-10000",
              ctx.GetFilePath (init.length + i * tasksPerTile g + 1 + g.bGenNdvi.toNat)
                "angles_small_res.tif",
              ctx.GetFilePath (init.length + i * tasksPerTile g + 1 + g.bGenNdvi.toNat + 1)
                "angles_small_res_no_data.tif"]⟩ ∧
        steps[i * tasksPerTile g + (1 + g.bGenNdvi.toNat + 2)]? =
          some ⟨init.length + i * tasksPerTile g + 1 + g.bGenNdvi.toNat + 2, "gdalbuildvrt",
            ["-tr", "10", "10", "-r", "bilinear", "-srcnodata", "-10000", "-vrtnodata",
              "-10000",
              ctx.GetFilePath (init.length + i * tasksPerTile g + 1 + g.bGenNdvi.toNat + 2)
                "angles.vrt",
              ctx.GetFilePath (init.length + i * tasksPerTile g + 1 + g.bGenNdvi.toNat + 1)
                "angles_small_res_no_data.tif"]⟩ ∧
        steps[i * tasksPerTile g + (1 + g.bGenNdvi.toNat + 3)]? =
          some ⟨init.length + i * tasksPerTile g + 1 + g.bGenNdvi.toNat + 3, "gdal_translate",
            [ctx.GetFilePath (init.length + i * tasksPerTile g + 1 + g.bGenNdvi.toNat + 2)
                "angles.vrt",
              ctx.GetFilePath (init.length + i * tasksPerTile g + 1 + g.bGenNdvi.toNat + 3)
                "angles_resampled.tif"]⟩ := by
  refine ⟨_, _, CreateTasksForNewProduct_eq g init tiles rm,
    GetStepsForMonodateLai_builtList ctx g init tiles rm h, ?_⟩
  intro i tile hi
  have hk : ∀ j, j < 4 → 1 + g.bGenNdvi.toNat + j < tasksPerTile g := by
    intro j hj
    rw [tasksPerTile_of_any g hany]
    omega
  have key : ∀ j, j < 4 →
      (productSteps ctx g tiles rm init.length)[i * tasksPerTile g +
        (1 + g.bGenNdvi.toNat + j)]? =
      (anglesSteps ctx tile.tileFile
        (init.length + i * tasksPerTile g + 1 + g.bGenNdvi.toNat))[j]? := by
    intro j hj
    rw [getElem?_productSteps_tile ctx g tiles rm init.length i _ tile hi (hk j hj),
      getElem?_tileSteps_angles ctx g _ _ _ j hany hj]
  refine ⟨?_, ?_, ?_, ?_⟩
  · have := key 0 (by omega)
    rw [Nat.add_zero] at this
    rw [this]
    rfl
  · rw [key 1 (by omega)]
    rfl
  · rw [key 2 (by omega)]
    rfl
  · rw [key 3 (by omega)]
    rfl

/-- Witness of C12: one tile with LAI only, no cleanup, empty initial list. -/
theorem angles_chain_step_arguments_witness :
    ([⟨"tile.xml"⟩] : List TileInfos) ≠ [] ∧ (true || false || false) = true ∧
    ∃ l steps, CreateTasksForNewProduct ⟨false, true, false, false⟩ [] [⟨"tile.xml"⟩] false =
        some l ∧
      GetStepsForMonodateLai sampleContext ⟨false, true, false, false⟩ [⟨"tile.xml"⟩] l false 0 =
        some steps ∧
      steps[2]? = some ⟨2, "gdal_translate",
        ["-of", "GTiff", "-a_nodata", "-10000", "1/angles_small_res.tif",
          "2/angles_small_res_no_data.tif"]⟩ ∧
      steps[3]? = some ⟨3, "gdalbuildvrt",
        ["-tr", "10", "10", "-r", "bilinear", "-srcnodata", "-10000", "-vrtnodata", "-10000",
          "3/angles.vrt", "2/angles_small_res_no_data.tif"]⟩ ∧
      steps[4]? = some ⟨4, "gdal_translate", ["3/angles.vrt", "4/angles_resampled.tif"]⟩ := by
  refine ⟨by decide, rfl, ?_⟩
  obtain ⟨l, steps, h1, h2, h3⟩ := angles_chain_step_arguments sampleContext
    ⟨false, true, false, false⟩ [] [⟨"tile.xml"⟩] false (by decide) rfl
  obtain ⟨-, ha, hb, hc⟩ := h3 0 ⟨"tile.xml"⟩ rfl
  exact ⟨l, steps, h1, h2, ha, hb, hc⟩

theorem getElem?_indicatorSteps_zero (ctx : BinderContext)
    (res tileFile indexName caps : String) (a c : Nat) :
    (indicatorSteps ctx true res tileFile indexName caps a c)[0]? =
      some (CreateStep c ("BVLaiNewProcessor" ++ caps)
        (GetLaiProcessorArgs tileFile (ctx.GetFilePath (a + 3) "angles_resampled.tif") res
          ctx.laiCfgFile (ctx.GetFilePath c (caps ++ "_mono_date_img.tif")) indexName)) := by
  simp [indicatorSteps]

theorem getElem?_tileSteps_processor (ctx : BinderContext) (g : ProduceFlags)
    (res tileFile indexName caps : String) (en : Bool) (off b : Nat)
    (hind : (indexName, caps, en, off) ∈
      [("lai", "LAI", g.bGenLai, 0), ("fapar", "FAPAR", g.bGenFapar, 3 * g.bGenLai.toNat),
        ("fcover", "FCOVER", g.bGenFCover, 3 * g.bGenLai.toNat + 3 * g.bGenFapar.toNat)])
    (hen : en = true) :
    (g.bGenLai || g.bGenFapar || g.bGenFCover) = true ∧ 4 + off < 4 + 3 * indicatorCount g ∧
    (tileSteps ctx g res tileFile b)[1 + g.bGenNdvi.toNat + (4 + off)]? =
      some (CreateStep (b + 1 + g.bGenNdvi.toNat + 4 + off) ("BVLaiNewProcessor" ++ caps)
        (GetLaiProcessorArgs tileFile
          (ctx.GetFilePath (b + 1 + g.bGenNdvi.toNat + 3) "angles_resampled.tif") res
          ctx.laiCfgFile
          (ctx.GetFilePath (b + 1 + g.bGenNdvi.toNat + 4 + off) (caps ++ "_mono_date_img.tif"))
          indexName)) := by
  subst hen
  simp only [List.mem_cons, List.mem_singleton, List.not_mem_nil, or_false, Prod.mk.injEq]
    at hind
  have hang : ∀ x : List NewStep,
      (anglesSteps ctx tileFile (b + 1 + g.bGenNdvi.toNat) ++ x)[4 + off]? = x[off]? := by
    intro x
    have : 4 + off = (anglesSteps ctx tileFile (b + 1 + g.bGenNdvi.toNat)).length + off := rfl
    rw [this, getElem?_append_add]
  rcases hind with ⟨rfl, rfl, hl, rfl⟩ | ⟨rfl, rfl, hf, rfl⟩ | ⟨rfl, rfl, hc, rfl⟩
  · have hany : (g.bGenLai || g.bGenFapar || g.bGenFCover) = true := by simp [← hl]
    have hlt : 4 + 0 < 4 + 3 * indicatorCount g := by
      unfold indicatorCount; rw [← hl]; simp
    refine ⟨hany, hlt, ?_⟩
    rw [getElem?_tileSteps_mid ctx g res tileFile b _ hany hlt, hang, ← hl,
      List.getElem?_append_left (by rw [length_indicatorSteps]; simp),
      getElem?_indicatorSteps_zero]
  · have hany : (g.bGenLai || g.bGenFapar || g.bGenFCover) = true := by simp [← hf]
    have hlt : 4 + 3 * g.bGenLai.toNat < 4 + 3 * indicatorCount g := by
      unfold indicatorCount; rw [← hf]; simp; omega
    refine ⟨hany, hlt, ?_⟩
    rw [getElem?_tileSteps_mid ctx g res tileFile b _ hany hlt, hang]
    have e : 3 * g.bGenLai.toNat = (indicatorSteps ctx g.bGenLai res tileFile "lai" "LAI"
        (b + 1 + g.bGenNdvi.toNat) (b + 1 + g.bGenNdvi.toNat + 4)).length + 0 := by
      rw [length_indicatorSteps]; rfl
    rw [e, getElem?_append_add, ← hf,
      List.getElem?_append_left (by rw [length_indicatorSteps]; simp),
      getElem?_indicatorSteps_zero, length_indicatorSteps]
  · have hany : (g.bGenLai || g.bGenFapar || g.bGenFCover) = true := by simp [← hc]
    have hlt : 4 + (3 * g.bGenLai.toNat + 3 * g.bGenFapar.toNat) < 4 + 3 * indicatorCount g := by
      unfold indicatorCount; rw [← hc]; simp; omega
    refine ⟨hany, hlt, ?_⟩
    rw [getElem?_tileSteps_mid ctx g res tileFile b _ hany hlt, hang]
    have e : 3 * g.bGenLai.toNat + 3 * g.bGenFapar.toNat =
        (indicatorSteps ctx g.bGenLai res tileFile "lai" "LAI"
          (b + 1 + g.bGenNdvi.toNat) (b + 1 + g.bGenNdvi.toNat + 4)).length +
        ((indicatorSteps ctx g.bGenFapar res tileFile "fapar" "FAPAR"
          (b + 1 + g.bGenNdvi.toNat)
          (b + 1 + g.bGenNdvi.toNat + 4 + 3 * g.bGenLai.toNat)).length + 0) := by
      rw [length_indicatorSteps, length_indicatorSteps]; rfl
    rw [e, getElem?_append_add, getElem?_append_add, ← hc, getElem?_indicatorSteps_zero,
      length_indicatorSteps, length_indicatorSteps]
    simp only [Nat.add_zero, Nat.add_assoc]

/-- C13 (counterexample). One tile with LAI only: the step named `BVLaiNewProcessorLAI` does
not have the argument vector `-xml <tile> -angles <angles> -outlai <BI> -outres <res>
-laicfgs <cfg>`; its vector starts with the application name `BVLaiNewProcessor`, which
that vector lacks. -/
theorem processor_arguments_start_with_application_name :
    ∃ l steps st,
      CreateTasksForNewProduct ⟨false, true, false, false⟩ [] [⟨"tile.xml"⟩] false = some l ∧
      GetStepsForMonodateLai sampleContext ⟨false, true, false, false⟩ [⟨"tile.xml"⟩] l false 0 =
        some steps ∧
      steps.filter (fun s => s.stepName = "BVLaiNewProcessorLAI") = [st] ∧
      st.arguments ≠
        ["-xml", "tile.xml", "-angles", sampleContext.GetFilePath 4 "angles_resampled.tif",
          "-outlai", sampleContext.GetFilePath st.task "LAI_mono_date_img.tif",
          "-outres", "10", "-laicfgs", sampleContext.laiCfgFile] ∧
      st.arguments =
        ["BVLaiNewProcessor", "-xml", "tile.xml", "-angles",
          sampleContext.GetFilePath 4 "angles_resampled.tif",
          "-outlai", sampleContext.GetFilePath st.task "LAI_mono_date_img.tif",
          "-outres", "10", "-laicfgs", sampleContext.laiCfgFile] :=
  ⟨_, _, ⟨5, "BVLaiNewProcessorLAI",
      ["BVLaiNewProcessor", "-xml", "tile.xml", "-angles", "4/angles_resampled.tif",
        "-outlai", "5/LAI_mono_date_img.tif", "-outres", "10", "-laicfgs", "lai.cfg"]⟩,
    rfl, rfl, by decide, by decide, by decide⟩

/-- C13 (amended). For every enabled indicator `ind` of `lai`, `fapar` and `fcover` and every
tile, the step bound to the processor task of the indicator is named
`BVLaiNewProcessor<IND>` (`IND` is `ind` in upper case) and has the argument vector
`BVLaiNewProcessor -xml <tile> -angles <angles> -out<ind> <BI> -outres <res> -laicfgs <cfg>`
with `<ind>` in lower case, where `<angles>` is the `angles_resampled.tif` of the last angles
task of the same tile and `<BI>` is `<IND>_mono_date_img.tif` of the processor task. -/
theorem processor_step_arguments (ctx : BinderContext) (g : ProduceFlags)
    (init : List TaskToSubmit) (tiles : List TileInfos) (rm : Bool) (h : tiles ≠ []) :
    ∃ l steps, CreateTasksForNewProduct g init tiles rm = some l ∧
      GetStepsForMonodateLai ctx g tiles l rm init.length = some steps ∧
      ∀ (ind caps : String) (en : Bool) (off : Nat),
        (ind, caps, en, off) ∈
          [("lai", "LAI", g.bGenLai, 0), ("fapar", "FAPAR", g.bGenFapar, 3 * g.bGenLai.toNat),
            ("fcover", "FCOVER", g.bGenFCover,
              3 * g.bGenLai.toNat + 3 * g.bGenFapar.toNat)] →
        en = true → ∀ i tile, tiles[i]? = some tile →
          steps[i * tasksPerTile g + (1 + g.bGenNdvi.toNat + (4 + off))]? =
            some ⟨init.length + i * tasksPerTile g + 1 + g.bGenNdvi.toNat + 4 + off,
              "BVLaiNewProcessor" ++ caps,
              ["BVLaiNewProcessor", "-xml", tile.tileFile, "-angles",
                ctx.GetFilePath (init.length + i * tasksPerTile g + 1 + g.bGenNdvi.toNat + 3)
                  "angles_resampled.tif",
                "-out" ++ ind,
                ctx.GetFilePath (init.length + i * tasksPerTile g + 1 + g.bGenNdvi.toNat + 4 + off)
                  (caps ++ "_mono_date_img.tif"),
                "-outres", resolutionString ctx, "-laicfgs", ctx.laiCfgFile]⟩ := by
  refine ⟨_, _, CreateTasksForNewProduct_eq g init tiles rm,
    GetStepsForMonodateLai_builtList ctx g init tiles rm h, ?_⟩
  intro ind caps en off hind hen i tile hi
  obtain ⟨hany, hlt, hget⟩ := getElem?_tileSteps_processor ctx g (resolutionString ctx)
    tile.tileFile ind caps en off (init.length + i * tasksPerTile g) hind hen
  rw [getElem?_productSteps_tile ctx g tiles rm init.length i _ tile hi
    (by rw [tasksPerTile_of_any g hany]; omega), hget]
  rfl

/-- Witness of C13 (amended): one tile with LAI only, no cleanup, empty initial list. -/
theorem processor_step_arguments_witness :
    ([⟨"tile.xml"⟩] : List TileInfos) ≠ [] ∧
    ∃ l steps, CreateTasksForNewProduct ⟨false, true, false, false⟩ [] [⟨"tile.xml"⟩] false =
        some l ∧
      GetStepsForMonodateLai sampleContext ⟨false, true, false, false⟩ [⟨"tile.xml"⟩] l false 0 =
        some steps ∧
      steps[5]? = some ⟨5, "BVLaiNewProcessorLAI",
        ["BVLaiNewProcessor", "-xml", "tile.xml", "-angles", "4/angles_resampled.tif",
          "-outlai", "5/LAI_mono_date_img.tif", "-outres", "10", "-laicfgs", "lai.cfg"]⟩ := by
  refine ⟨by decide, ?_⟩
  obtain ⟨l, steps, h1, h2, h3⟩ := processor_step_arguments sampleContext
    ⟨false, true, false, false⟩ [] [⟨"tile.xml"⟩] false (by decide)
  exact ⟨l, steps, h1, h2, h3 "lai" "LAI" true 0 (by simp) rfl 0 ⟨"tile.xml"⟩ rfl⟩

theorem GetLaiMonoProductFormatterArgs_cons (ctx : BinderContext) (f : Nat)
    (first : TileResultFiles) (rest : List TileResultFiles) :
    GetLaiMonoProductFormatterArgs ctx f (first :: rest) =
      some (formatterArgs ctx
        ⟨first.bHasNdvi, first.bHasLai, first.bHasFapar, first.bHasFCover⟩ f
        (first :: rest)) := by
  unfold GetLaiMonoProductFormatterArgs formatterArgs
  simp only [List.getElem?_cons_zero, Option.bind_eq_bind, Option.some_bind]
  cases first.bHasNdvi <;> cases first.bHasLai <;> cases first.bHasFapar <;>
    cases first.bHasFCover <;> cases ctx.cloudOptimizedGeotiff <;>
    by_cases hl : ctx.lutFile.length > 0 <;> simp [hl]

/-- C15. For every non-empty list of tile results (a first result and the rest), the argument
vector that `GetLaiMonoProductFormatterArgs` builds is, entry by entry and in this order: the
application name `ProductFormatter`, `-destroot <outFolder> -fileclass OPER -level L3B
-baseline 01.00 -siteid <id> -processor vegetation -compress 1 -gipp <execInfos.xml>
-outprops <outProps>`, then `-il` and the tile metadata files in list order, then
`-lut <lutFile>` iff the configured lut path is not empty, then the sections, each written
out as its key followed, for every tile in list order, by the tile token and the file of the
tile: `-processor.vegetation.laistatusflgs` and `-processor.vegetation.indomainflgs` always,
`-processor.vegetation.laindvi` iff the first result has NDVI,
`-processor.vegetation.laimonodate` and `-processor.vegetation.laidomainflgs` iff it has LAI,
`-processor.vegetation.faparmonodate` and `-processor.vegetation.fapardomainflgs` iff it has
FAPAR, `-processor.vegetation.fcovermonodate` and `-processor.vegetation.fcoverdomaniflgs`
iff it has FCOVER, and last `-cog 1` iff cloud-optimized GeoTIFF is enabled. For two tiles
with NDVI and FCOVER, a lut file and cloud-optimized GeoTIFF the vector is the 48 entries
listed. -/
theorem product_formatter_argument_order :
    (∀ (ctx : BinderContext) (f : Nat) (first : TileResultFiles)
        (rest : List TileResultFiles),
      GetLaiMonoProductFormatterArgs ctx f (first :: rest) = some (
        ["ProductFormatter", "-destroot", ctx.targetFolder, "-fileclass", "OPER",
          "-level", "L3B", "-baseline", "01.00", "-siteid", toString ctx.siteId,
          "-processor", "vegetation", "-compress", "1",
          "-gipp", ctx.GetFilePath f "executionInfos.xml",
          "-outprops", ctx.GetFilePath f ctx.outPropsFileName] ++
        ["-il"] ++ (first :: rest).map (fun t => t.tileFile) ++
        (if ctx.lutFile.length > 0 then ["-lut", ctx.lutFile] else []) ++
        ("-processor.vegetation.laistatusflgs" :: (first :: rest).flatMap (fun t =>
          [ctx.GetProductFormatterTile t.tileId, t.statusFlagsFileResampled])) ++
        ("-processor.vegetation.indomainflgs" :: (first :: rest).flatMap (fun t =>
          [ctx.GetProductFormatterTile t.tileId, t.inDomainFlagsFile])) ++
        (if first.bHasNdvi then
          "-processor.vegetation.laindvi" :: (first :: rest).flatMap (fun t =>
            [ctx.GetProductFormatterTile t.tileId, t.ndviFile])
        else []) ++
        (if first.bHasLai then
          ("-processor.vegetation.laimonodate" :: (first :: rest).flatMap (fun t =>
            [ctx.GetProductFormatterTile t.tileId, t.laiFile])) ++
          ("-processor.vegetation.laidomainflgs" :: (first :: rest).flatMap (fun t =>
            [ctx.GetProductFormatterTile t.tileId, t.laiDomainFlagsFile]))
        else []) ++
        (if first.bHasFapar then
          ("-processor.vegetation.faparmonodate" :: (first :: rest).flatMap (fun t =>
            [ctx.GetProductFormatterTile t.tileId, t.faparFile])) ++
          ("-processor.vegetation.fapardomainflgs" :: (first :: rest).flatMap (fun t =>
            [ctx.GetProductFormatterTile t.tileId, t.faparDomainFlagsFile]))
        else []) ++
        (if first.bHasFCover then
          ("-processor.vegetation.fcovermonodate" :: (first :: rest).flatMap (fun t =>
            [ctx.GetProductFormatterTile t.tileId, t.fcoverFile])) ++
          ("-processor.vegetation.fcoverdomaniflgs" :: (first :: rest).flatMap (fun t =>
            [ctx.GetProductFormatterTile t.tileId, t.fcoverDomainFlagsFile]))
        else []) ++
        (if ctx.cloudOptimizedGeotiff then ["-cog", "1"] else []))) ∧
    GetLaiMonoProductFormatterArgs
        { sampleContext with lutFile := "lut.txt", cloudOptimizedGeotiff := true } 9
        [{ tileFile := "a.xml", tileId := "A", bHasNdvi := true, bHasFCover := true,
            statusFlagsFileResampled := "a_flags.tif", inDomainFlagsFile := "a_in.tif",
            ndviFile := "a_ndvi.tif", fcoverFile := "a_fc.tif",
            fcoverDomainFlagsFile := "a_fcd.tif" },
          { tileFile := "b.xml", tileId := "B", bHasNdvi := true, bHasFCover := true,
            statusFlagsFileResampled := "b_flags.tif", inDomainFlagsFile := "b_in.tif",
            ndviFile := "b_ndvi.tif", fcoverFile := "b_fc.tif",
            fcoverDomainFlagsFile := "b_fcd.tif" }] =
      some ["ProductFormatter", "-destroot", "/out", "-fileclass", "OPER", "-level", "L3B",
        "-baseline", "01.00", "-siteid", "1", "-processor", "vegetation", "-compress", "1",
        "-gipp", "9/executionInfos.xml", "-outprops", "9/product_properties.txt",
        "-il", "a.xml", "b.xml", "-lut", "lut.txt",
        "-processor.vegetation.laistatusflgs", "A", "a_flags.tif", "B", "b_flags.tif",
        "-processor.vegetation.indomainflgs", "A", "a_in.tif", "B", "b_in.tif",
        "-processor.vegetation.laindvi", "A", "a_ndvi.tif", "B", "b_ndvi.tif",
        "-processor.vegetation.fcovermonodate", "A", "a_fc.tif", "B", "b_fc.tif",
        "-processor.vegetation.fcoverdomaniflgs", "A", "a_fcd.tif", "B", "b_fcd.tif",
        "-cog", "1"] := by
  constructor
  · intro ctx f first rest
    rw [GetLaiMonoProductFormatterArgs_cons]
    unfold formatterArgs formatterSection
    simp only [List.append_assoc, List.singleton_append, List.cons_append, List.nil_append]
  · decide

theorem flatMap_tileResults (ctx : BinderContext) (g : ProduceFlags) (res : String)
    (file : TileResultFiles → String) (path : Nat → String) (s : Nat)
    (hfile : ∀ tileFile i, file (tileResult ctx g res tileFile (s + i * tasksPerTile g)) = path i)
    (tiles : List TileInfos) (k : Nat) :
    (tileResults ctx g res tiles (s + k * tasksPerTile g)).flatMap
        (fun t => [ctx.GetProductFormatterTile t.tileId, file t]) =
      (tiles.enumFrom k).flatMap
        (fun it => [ctx.GetProductFormatterTile (ctx.GetTileId it.2.tileFile), path it.1]) := by
  induction tiles generalizing k with
  | nil => simp [tileResults]
  | cons tile tiles ih =>
    have e : s + k * tasksPerTile g + tasksPerTile g = s + (k + 1) * tasksPerTile g := by
      rw [Nat.succ_mul]; omega
    simp only [tileResults, List.enumFrom_cons, List.flatMap_cons]
    rw [e, ih (k + 1), hfile]
    rfl

theorem formatterSection_tileResults (ctx : BinderContext) (g : ProduceFlags) (res key : String)
    (file : TileResultFiles → String) (path : Nat → String) (s : Nat) (tiles : List TileInfos)
    (hfile : ∀ tileFile i, file (tileResult ctx g res tileFile (s + i * tasksPerTile g)) = path i) :
    formatterSection ctx key file (tileResults ctx g res tiles s) =
      tileSection ctx key tiles path := by
  have := flatMap_tileResults ctx g res file path s hfile tiles 0
  rw [Nat.zero_mul, Nat.add_zero] at this
  unfold formatterSection tileSection
  rw [this]
  rfl

theorem map_tileFile_tileResults (ctx : BinderContext) (g : ProduceFlags) (res : String)
    (tiles : List TileInfos) (b : Nat) :
    (tileResults ctx g res tiles b).map (fun t => t.tileFile) =
      tiles.map (fun t => t.tileFile) := by
  induction tiles generalizing b with
  | nil => rfl
  | cons tile tiles ih => simp only [tileResults, List.map_cons, ih]; rfl

theorem length_flatMap_pair {α : Type} (l : List α) (f h : α → String) :
    (l.flatMap (fun a => [f a, h a])).length = 2 * l.length := by
  induction l with
  | nil => rfl
  | cons a l ih =>
    simp only [List.flatMap_cons, List.length_append, ih, List.length_cons, List.length_nil]
    omega

theorem length_tileSection (ctx : BinderContext) (key : String) (tiles : List TileInfos)
    (path : Nat → String) : (tileSection ctx key tiles path).length = 2 * tiles.length + 1 := by
  unfold tileSection
  rw [List.length_cons, length_flatMap_pair]
  simp [List.enum]

theorem flatMap_pair_getElem? {α : Type} (l : List α) (f h : α → String) (i : Nat) (x : α)
    (hx : l[i]? = some x) :
    (l.flatMap (fun a => [f a, h a]))[2 * i]? = some (f x) ∧
    (l.flatMap (fun a => [f a, h a]))[2 * i + 1]? = some (h x) := by
  induction l generalizing i with
  | nil => simp at hx
  | cons a l ih =>
    cases i with
    | zero =>
      simp only [List.getElem?_cons_zero, Option.some.injEq] at hx
      subst hx
      simp
    | succ i =>
      simp only [List.getElem?_cons_succ] at hx
      obtain ⟨h1, h2⟩ := ih i hx
      have e1 : 2 * (i + 1) = 2 * i + 1 + 1 := by omega
      simp only [List.flatMap_cons, List.cons_append, List.nil_append, e1,
        List.getElem?_cons_succ]
      exact ⟨h1, h2⟩

theorem getElem?_tileSection (ctx : BinderContext) (key : String) (tiles : List TileInfos)
    (path : Nat → String) (i : Nat) (tile : TileInfos) (hi : tiles[i]? = some tile) :
    (tileSection ctx key tiles path)[2 * i + 1]? =
      some (ctx.GetProductFormatterTile (ctx.GetTileId tile.tileFile)) ∧
    (tileSection ctx key tiles path)[2 * i + 2]? = some (path i) := by
  have hx : tiles.enum[i]? = some (i, tile) := by
    rw [List.enum, List.getElem?_enumFrom, hi]
    simp
  have := flatMap_pair_getElem? tiles.enum
    (fun it => ctx.GetProductFormatterTile (ctx.GetTileId it.2.tileFile))
    (fun it => path it.1) i (i, tile) hx
  unfold tileSection
  simp only [List.getElem?_cons_succ]
  exact this

theorem ite_section_congr (c : Bool) (A B : List String) (h : c = true → A = B) :
    (if c = true then A else []) = (if c = true then B else []) := by
  cases c
  · rfl
  · simp only [if_true]; exact h rfl

/-- C16. For every flag combination, non-empty tile list and cleanup flag, the step that
`GetStepsForMonodateLai` returns for the product formatter task has this argument vector: the
fixed head, `-il` and the tile files, the optional `-lut`, then the emitted sections and the
optional `-cog 1`, where every section is its key followed by exactly two entries per tile,
in list order the tile token of the tile and the path of the file of that same tile: the
`LAI_mono_date_msk_flgs_img_resampled.tif` of its mask-flags task for `laistatusflgs`, the
`Input_domain_flags.tif` of its last task for `indomainflgs`, the `single_ndvi.tif` of its
NDVI task for `laindvi`, the `<IND>_mono_date_img_16.tif` of the third task of the indicator
for `<ind>monodate` and the `<IND>_out_domain_flags.tif` of the second task of the indicator
for the domain-flags section of the indicator. -/
theorem formatter_sections_list_each_tile (ctx : BinderContext) (g : ProduceFlags)
    (init : List TaskToSubmit) (tiles : List TileInfos) (rm : Bool) (h : tiles ≠ []) :
    (∀ (key : String) (path : Nat → String),
      (tileSection ctx key tiles path).length = 2 * tiles.length + 1 ∧
      (tileSection ctx key tiles path)[0]? = some key ∧
      ∀ i tile, tiles[i]? = some tile →
        (tileSection ctx key tiles path)[2 * i + 1]? =
          some (ctx.GetProductFormatterTile (ctx.GetTileId tile.tileFile)) ∧
        (tileSection ctx key tiles path)[2 * i + 2]? = some (path i)) ∧
    ∃ l steps st, CreateTasksForNewProduct g init tiles rm = some l ∧
      GetStepsForMonodateLai ctx g tiles l rm init.length = some steps ∧
      steps[tiles.length * tasksPerTile g]? = some st ∧ st.stepName = "ProductFormatter" ∧
      st.task = init.length + tiles.length * tasksPerTile g ∧
      st.arguments =
        ["ProductFormatter", "-destroot", ctx.targetFolder, "-fileclass", "OPER",
          "-level", "L3B", "-baseline", "01.00", "-siteid", toString ctx.siteId,
          "-processor", "vegetation", "-compress", "1",
          "-gipp", ctx.GetFilePath st.task "executionInfos.xml",
          "-outprops", ctx.GetFilePath st.task ctx.outPropsFileName] ++
        (["-il"] ++ (tiles.map (fun t => t.tileFile) ++
        ((if ctx.lutFile.length > 0 then ["-lut", ctx.lutFile] else []) ++
        (tileSection ctx "-processor.vegetation.laistatusflgs" tiles
          (fun i => ctx.GetFilePath (init.length + i * tasksPerTile g)
            "LAI_mono_date_msk_flgs_img_resampled.tif") ++
        (tileSection ctx "-processor.vegetation.indomainflgs" tiles
          (fun i => ctx.GetFilePath (init.length + i * tasksPerTile g + tasksPerTile g - 1)
            "Input_domain_flags.tif") ++
        ((if g.bGenNdvi then
          tileSection ctx "-processor.vegetation.laindvi" tiles
            (fun i => ctx.GetFilePath (init.length + i * tasksPerTile g + 1) "single_ndvi.tif")
          else []) ++
        ((if g.bGenLai then
          tileSection ctx "-processor.vegetation.laimonodate" tiles
            (fun i => ctx.GetFilePath
              (init.length + i * tasksPerTile g + 1 + g.bGenNdvi.toNat + 4 + 2)
              "LAI_mono_date_img_16.tif") ++
          tileSection ctx "-processor.vegetation.laidomainflgs" tiles
            (fun i => ctx.GetFilePath
              (init.length + i * tasksPerTile g + 1 + g.bGenNdvi.toNat + 4 + 1)
              "LAI_out_domain_flags.tif")
          else []) ++
        ((if g.bGenFapar then
          tileSection ctx "-processor.vegetation.faparmonodate" tiles
            (fun i => ctx.GetFilePath
              (init.length + i * tasksPerTile g + 1 + g.bGenNdvi.toNat + 4 +
                3 * g.bGenLai.toNat + 2)
              "FAPAR_mono_date_img_16.tif") ++
          tileSection ctx "-processor.vegetation.fapardomainflgs" tiles
            (fun i => ctx.GetFilePath
              (init.length + i * tasksPerTile g + 1 + g.bGenNdvi.toNat + 4 +
                3 * g.bGenLai.toNat + 1)
              "FAPAR_out_domain_flags.tif")
          else []) ++
        ((if g.bGenFCover then
          tileSection ctx "-processor.vegetation.fcovermonodate" tiles
            (fun i => ctx.GetFilePath
              (init.length + i * tasksPerTile g + 1 + g.bGenNdvi.toNat + 4 +
                3 * g.bGenLai.toNat + 3 * g.bGenFapar.toNat + 2)
              "FCOVER_mono_date_img_16.tif") ++
          tileSection ctx "-processor.vegetation.fcoverdomaniflgs" tiles
            (fun i => ctx.GetFilePath
              (init.length + i * tasksPerTile g + 1 + g.bGenNdvi.toNat + 4 +
                3 * g.bGenLai.toNat + 3 * g.bGenFapar.toNat + 1)
              "FCOVER_out_domain_flags.tif")
          else []) ++
        (if ctx.cloudOptimizedGeotiff then ["-cog", "1"] else [])))))))))) := by
  constructor
  · intro key path
    exact ⟨length_tileSection ctx key tiles path, by simp [tileSection],
      fun i tile hi => getElem?_tileSection ctx key tiles path i tile hi⟩
  refine ⟨_, _, CreateStep (init.length + tiles.length * tasksPerTile g) "ProductFormatter"
      (formatterArgs ctx g (init.length + tiles.length * tasksPerTile g)
        (tileResults ctx g (resolutionString ctx) tiles init.length)),
    CreateTasksForNewProduct_eq g init tiles rm,
    GetStepsForMonodateLai_builtList ctx g init tiles rm h, ?_, rfl, rfl, ?_⟩
  · unfold productSteps
    have := getElem?_append_len (productTileSteps ctx g (resolutionString ctx) tiles init.length)
      (CreateStep (init.length + tiles.length * tasksPerTile g) "ProductFormatter"
        (formatterArgs ctx g (init.length + tiles.length * tasksPerTile g)
          (tileResults ctx g (resolutionString ctx) tiles init.length)) ::
        (if rm then
          [CreateStep (init.length + tiles.length * tasksPerTile g + 1) "CleanupTemporaryFiles"
            (productCleanup ctx g init.length tiles.length)]
        else []))
    rw [length_productTileSteps] at this
    rw [this]
    simp
  · simp only [CreateStep]
    unfold formatterArgs
    rw [map_tileFile_tileResults,
      formatterSection_tileResults ctx g _ "-processor.vegetation.laistatusflgs" _
        (fun i => ctx.GetFilePath (init.length + i * tasksPerTile g)
          "LAI_mono_date_msk_flgs_img_resampled.tif") init.length tiles (fun _ _ => rfl),
      formatterSection_tileResults ctx g _ "-processor.vegetation.indomainflgs" _
        (fun i => ctx.GetFilePath (init.length + i * tasksPerTile g + tasksPerTile g - 1)
          "Input_domain_flags.tif") init.length tiles (fun _ _ => rfl),
      ite_section_congr g.bGenNdvi _ _ (fun hn =>
        formatterSection_tileResults ctx g _ "-processor.vegetation.laindvi" _
          (fun i => ctx.GetFilePath (init.length + i * tasksPerTile g + 1) "single_ndvi.tif")
          init.length tiles (fun _ _ => by simp [tileResult, hn])),
      ite_section_congr g.bGenLai _ _ (fun hn => congrArg₂ (· ++ ·)
        (formatterSection_tileResults ctx g _ "-processor.vegetation.laimonodate" _
          (fun i => ctx.GetFilePath
            (init.length + i * tasksPerTile g + 1 + g.bGenNdvi.toNat + 4 + 2)
            "LAI_mono_date_img_16.tif")
          init.length tiles (fun _ _ => by simp [tileResult, hn]))
        (formatterSection_tileResults ctx g _ "-processor.vegetation.laidomainflgs" _
          (fun i => ctx.GetFilePath
            (init.length + i * tasksPerTile g + 1 + g.bGenNdvi.toNat + 4 + 1)
            "LAI_out_domain_flags.tif")
          init.length tiles (fun _ _ => by simp [tileResult, hn]))),
      ite_section_congr g.bGenFapar _ _ (fun hn => congrArg₂ (· ++ ·)
        (formatterSection_tileResults ctx g _ "-processor.vegetation.faparmonodate" _
          (fun i => ctx.GetFilePath
            (init.length + i * tasksPerTile g + 1 + g.bGenNdvi.toNat + 4 +
              3 * g.bGenLai.toNat + 2)
            "FAPAR_mono_date_img_16.tif")
          init.length tiles (fun _ _ => by simp [tileResult, hn]))
        (formatterSection_tileResults ctx g _ "-processor.vegetation.fapardomainflgs" _
          (fun i => ctx.GetFilePath
            (init.length + i * tasksPerTile g + 1 + g.bGenNdvi.toNat + 4 +
              3 * g.bGenLai.toNat + 1)
            "FAPAR_out_domain_flags.tif")
          init.length tiles (fun _ _ => by simp [tileResult, hn]))),
      ite_section_congr g.bGenFCover _ _ (fun hn => congrArg₂ (· ++ ·)
        (formatterSection_tileResults ctx g _ "-processor.vegetation.fcovermonodate" _
          (fun i => ctx.GetFilePath
            (init.length + i * tasksPerTile g + 1 + g.bGenNdvi.toNat + 4 +
              3 * g.bGenLai.toNat + 3 * g.bGenFapar.toNat + 2)
            "FCOVER_mono_date_img_16.tif")
          init.length tiles (fun _ _ => by simp [tileResult, hn]))
        (formatterSection_tileResults ctx g _ "-processor.vegetation.fcoverdomaniflgs" _
          (fun i => ctx.GetFilePath
            (init.length + i * tasksPerTile g + 1 + g.bGenNdvi.toNat + 4 +
              3 * g.bGenLai.toNat + 3 * g.bGenFapar.toNat + 1)
            "FCOVER_out_domain_flags.tif")
          init.length tiles (fun _ _ => by simp [tileResult, hn])))]

/-- Witness of C16: one tile with LAI only, no cleanup, empty initial list. -/
theorem formatter_sections_list_each_tile_witness :
    ([⟨"tile.xml"⟩] : List TileInfos) ≠ [] ∧
    ∃ l steps st,
      CreateTasksForNewProduct ⟨false, true, false, false⟩ [] [⟨"tile.xml"⟩] false = some l ∧
      GetStepsForMonodateLai sampleContext ⟨false, true, false, false⟩ [⟨"tile.xml"⟩] l false 0 =
        some steps ∧
      steps[9]? = some st ∧ st.stepName = "ProductFormatter" ∧
      st.arguments =
        ["ProductFormatter", "-destroot", "/out", "-fileclass", "OPER", "-level", "L3B",
          "-baseline", "01.00", "-siteid", "1", "-processor", "vegetation", "-compress", "1",
          "-gipp", "9/executionInfos.xml", "-outprops", "9/product_properties.txt",
          "-il", "tile.xml",
          "-processor.vegetation.laistatusflgs", "tile.xml",
          "0/LAI_mono_date_msk_flgs_img_resampled.tif",
          "-processor.vegetation.indomainflgs", "tile.xml", "8/Input_domain_flags.tif",
          "-processor.vegetation.laimonodate", "tile.xml", "7/LAI_mono_date_img_16.tif",
          "-processor.vegetation.laidomainflgs", "tile.xml", "6/LAI_out_domain_flags.tif"] := by
  refine ⟨by decide, ?_⟩
  obtain ⟨-, l, steps, st, h1, h2, h3, h4, h5, h6⟩ := formatter_sections_list_each_tile
    sampleContext ⟨false, true, false, false⟩ [] [⟨"tile.xml"⟩] false (by decide)
  rw [h5] at h6
  exact ⟨l, steps, st, h1, h2, h3, h4, h6.trans (by decide)⟩

/-- C17 (counterexample). The parameters hold `genlai` with the numeric value 0.5, which is
not zero, and `IsParamOrConfigKeySet` returns false. -/
theorem fractional_flag_value_is_false :
    ((1 : ℚ) / 2 ≠ 0) ∧
    IsParamOrConfigKeySet ⟨[("genlai", .double (1 / 2))]⟩ [] "genlai"
      "processor.l3b.lai.produce_lai" false = false := by
  refine ⟨by norm_num, ?_⟩
  simp [IsParamOrConfigKeySet, QJsonObject.contains, QJsonObject.value, QJsonValue.isDouble,
    QJsonValue.toInt, List.lookup]

/-- C17 (amended). The flag resolution rule of `IsParamOrConfigKeySet`, for every default: when
the parameters contain the name with a numeric value, the result is whether the value is a
whole number that fits an `int` and is not zero (for a whole number in that range: whether it
is not zero); with a string value the result is whether the string is `"1"`; in both cases the
configuration is ignored. When the parameters do not contain the name and the configuration
key is not empty, the result is whether the integer parsed from the configuration value is
not zero; when the name is absent and the key is empty, the result is the default. So
`genlai: 1` gives true, `"1"` true, `"0"` false, and the configuration value `"1"` true. -/
theorem flag_resolution_rule :
    (∀ (p : QJsonObject) (c : ConfigMap) (n k : String) (d : Bool) (q : ℚ),
      p.members.lookup n = some (.double q) →
        IsParamOrConfigKeySet p c n k d =
          decide (q.den = 1 ∧ -2147483648 ≤ q.num ∧ q.num ≤ 2147483647 ∧ q ≠ 0)) ∧
    (∀ (p : QJsonObject) (c : ConfigMap) (n k : String) (d : Bool) (z : Int),
      -2147483648 ≤ z → z ≤ 2147483647 → p.members.lookup n = some (.double z) →
        IsParamOrConfigKeySet p c n k d = decide (z ≠ 0)) ∧
    (∀ (p : QJsonObject) (c : ConfigMap) (n k : String) (d : Bool) (s : String),
      p.members.lookup n = some (.string s) →
        IsParamOrConfigKeySet p c n k d = decide (s = "1")) ∧
    (∀ (p : QJsonObject) (c : ConfigMap) (n k : String) (d : Bool),
      p.members.lookup n = none → k ≠ "" →
        IsParamOrConfigKeySet p c n k d = decide (QString_toInt (configValue c k) ≠ 0)) ∧
    (∀ (p : QJsonObject) (c : ConfigMap) (n : String) (d : Bool),
      p.members.lookup n = none → IsParamOrConfigKeySet p c n "" d = d) ∧
    (∀ (c : ConfigMap) (k : String) (d : Bool),
      IsParamOrConfigKeySet ⟨[("genlai", .double 1)]⟩ c "genlai" k d = true ∧
      IsParamOrConfigKeySet ⟨[("genlai", .string "1")]⟩ c "genlai" k d = true ∧
      IsParamOrConfigKeySet ⟨[("genlai", .string "0")]⟩ c "genlai" k d = false) ∧
    (∀ d : Bool,
      IsParamOrConfigKeySet ⟨[]⟩ [("processor.l3b.lai.produce_lai", "1")] "genlai"
        "processor.l3b.lai.produce_lai" d = true) := by
  have hq : ∀ (p : QJsonObject) (c : ConfigMap) (n k : String) (d : Bool) (q : ℚ),
      p.members.lookup n = some (.double q) →
        IsParamOrConfigKeySet p c n k d =
          decide (q.den = 1 ∧ -2147483648 ≤ q.num ∧ q.num ≤ 2147483647 ∧ q ≠ 0) := by
    intro p c n k d q h
    simp only [IsParamOrConfigKeySet, QJsonObject.contains, QJsonObject.value, h,
      Option.isSome_some, if_true, Option.getD_some, QJsonValue.isDouble, QJsonValue.toInt]
    by_cases hc : q.den = 1 ∧ -2147483648 ≤ q.num ∧ q.num ≤ 2147483647
    · rw [if_pos hc]
      simp only [hc, true_and, ne_eq, Rat.num_eq_zero]
    · rw [if_neg hc]
      have : ¬ (q.den = 1 ∧ -2147483648 ≤ q.num ∧ q.num ≤ 2147483647 ∧ q ≠ 0) :=
        fun h => hc ⟨h.1, h.2.1, h.2.2.1⟩
      simp [this]
  refine ⟨hq, ?_, ?_, ?_, ?_, ?_, ?_⟩
  · intro p c n k d z h1 h2 h
    rw [hq p c n k d z h]
    simp [h1, h2]
  · intro p c n k d s h
    simp [IsParamOrConfigKeySet, QJsonObject.contains, QJsonObject.value, h,
      QJsonValue.isDouble, QJsonValue.isString, QJsonValue.toQString]
  · intro p c n k d h hk
    simp [IsParamOrConfigKeySet, QJsonObject.contains, h, hk]
  · intro p c n d h
    simp [IsParamOrConfigKeySet, QJsonObject.contains, h]
  · intro c k d
    refine ⟨?_, ?_, ?_⟩
    · rw [hq _ c "genlai" k d 1 (by simp [List.lookup])]
      simp
    · simp [IsParamOrConfigKeySet, QJsonObject.contains, QJsonObject.value, List.lookup,
        QJsonValue.isDouble, QJsonValue.isString, QJsonValue.toQString]
    · simp [IsParamOrConfigKeySet, QJsonObject.contains, QJsonObject.value, List.lookup,
        QJsonValue.isDouble, QJsonValue.isString, QJsonValue.toQString]
  · intro d
    cases d <;> decide

/-- C18 (counterexample). With the default value true and the JSON value `null` under the
name, `IsParamOrConfigKeySet` returns true, not false. -/
theorem null_flag_value_keeps_default :
    IsParamOrConfigKeySet ⟨[("genlai", .null)]⟩ [] "genlai" "processor.l3b.lai.produce_lai"
      true = true := by
  decide

/-- C18 (amended). For every default value: if the parameters contain the name with a value
that is neither a number nor a string (a JSON boolean, null, array or object),
`IsParamOrConfigKeySet` returns the default value, whatever the configuration holds. -/
theorem unrecognised_flag_value_gives_default (p : QJsonObject) (c : ConfigMap)
    (n k : String) (d : Bool) (v : QJsonValue) (h : p.members.lookup n = some v)
    (hd : v.isDouble = false) (hs : v.isString = false) :
    IsParamOrConfigKeySet p c n k d = d := by
  simp [IsParamOrConfigKeySet, QJsonObject.contains, QJsonObject.value, h, hd, hs]

/-- Witness of C18 (amended): the JSON boolean `true` under the name and the default false. -/
theorem unrecognised_flag_value_gives_default_witness :
    (([("genlai", QJsonValue.bool true)] : List (String × QJsonValue)).lookup "genlai" =
      some (QJsonValue.bool true)) ∧
    (QJsonValue.bool true).isDouble = false ∧ (QJsonValue.bool true).isString = false ∧
    IsParamOrConfigKeySet ⟨[("genlai", .bool true)]⟩ [("k", "1")] "genlai" "k" false = false :=
  ⟨rfl, rfl, rfl,
    unrecognised_flag_value_gives_default ⟨[("genlai", .bool true)]⟩ [("k", "1")] "genlai" "k"
      false (.bool true) rfl rfl rfl⟩

/-- C19. The function `IsParamOrConfigKeySet` is idempotent in its default: feeding its result
back as the default gives the same result, for all parameters, configurations, names,
configuration keys and defaults. -/
theorem flag_default_idempotent (p : QJsonObject) (c : ConfigMap) (n k : String) (d : Bool) :
    IsParamOrConfigKeySet p c n k (IsParamOrConfigKeySet p c n k d) =
      IsParamOrConfigKeySet p c n k d := by
  unfold IsParamOrConfigKeySet
  by_cases h1 : p.contains n = true
  · by_cases h2 : (p.value n).isDouble = true
    · simp [h1, h2]
    · by_cases h3 : (p.value n).isString = true
      · simp [h1, h2, h3]
      · simp [h1, h2, h3]
  · by_cases h4 : k = ""
    · simp [h1, h4]
    · simp [h1, h4]

theorem splitChars_ne_nil (sep : Char) (cs : List Char) : splitChars sep cs ≠ [] := by
  cases cs with
  | nil => simp [splitChars]
  | cons c cs =>
    unfold splitChars
    split
    · simp
    · split <;> simp

theorem splitChars_no_sep (sep : Char) (cs : List Char) :
    ∀ piece ∈ splitChars sep cs, sep ∉ piece := by
  induction cs with
  | nil => simp [splitChars]
  | cons c cs ih =>
    intro piece hp
    unfold splitChars at hp
    split at hp
    · rcases List.mem_cons.mp hp with rfl | hp
      · simp
      · exact ih piece hp
    · rename_i hc
      split at hp
      · simp only [List.mem_singleton] at hp
        subst hp
        simpa using fun h => hc h.symm
      · rename_i q qs heq
        rcases List.mem_cons.mp hp with rfl | hp
        · have := ih q (by rw [heq]; simp)
          simp only [List.mem_cons, not_or]
          exact ⟨fun h => hc h.symm, this⟩
        · exact ih piece (by rw [heq]; simp [hp])

theorem intercalate_splitChars (sep : Char) (cs : List Char) :
    [sep].intercalate (splitChars sep cs) = cs := by
  induction cs with
  | nil => simp [splitChars, List.intercalate]
  | cons c cs ih =>
    unfold splitChars
    split
    · rename_i hc
      have hne := splitChars_ne_nil sep cs
      cases hs : splitChars sep cs with
      | nil => exact absurd hs hne
      | cons q qs =>
        rw [hs] at ih
        simp only [List.intercalate, List.intersperse] at ih ⊢
        simp [List.intersperse, hc, ih]
    · cases hs : splitChars sep cs with
      | nil => exact absurd hs (splitChars_ne_nil sep cs)
      | cons q qs =>
        rw [hs] at ih
        cases qs with
        | nil => simpa [List.intercalate, List.intersperse] using ih
        | cons r rs =>
          simp only [List.intercalate, List.intersperse] at ih ⊢
          simpa using ih

theorem trimmedChars_sublist (cs : List Char) : (trimmedChars cs).Sublist cs := by
  unfold trimmedChars
  have h1 : ((cs.dropWhile QChar_isSpace).reverse.dropWhile QChar_isSpace).Sublist
      (cs.dropWhile QChar_isSpace).reverse := List.dropWhile_sublist _
  have h2 := h1.reverse
  rw [List.reverse_reverse] at h2
  exact h2.trans (List.dropWhile_sublist _)

theorem head?_dropWhile_isSpace (p : Char → Bool) (cs : List Char) (c : Char)
    (h : (cs.dropWhile p).head? = some c) : p c = false := by
  induction cs with
  | nil => simp at h
  | cons x xs ih =>
    by_cases hx : p x = true
    · rw [List.dropWhile_cons_of_pos hx] at h
      exact ih h
    · rw [List.dropWhile_cons_of_neg hx] at h
      simp only [List.head?_cons, Option.some.injEq] at h
      subst h
      simpa using hx

theorem getLast?_trimmedChars (cs : List Char) (c : Char)
    (h : (trimmedChars cs).getLast? = some c) : QChar_isSpace c = false := by
  unfold trimmedChars at h
  rw [List.getLast?_reverse] at h
  exact head?_dropWhile_isSpace _ _ _ h

theorem head?_trimmedChars (cs : List Char) (c : Char)
    (h : (trimmedChars cs).head? = some c) : QChar_isSpace c = false := by
  unfold trimmedChars at h
  rw [List.head?_reverse] at h
  -- the last character of what is left after the second pass is a character of the first pass
  generalize hl : cs.dropWhile QChar_isSpace = l at h
  have hhead : ∀ x, l.head? = some x → QChar_isSpace x = false := by
    intro x hx
    rw [← hl] at hx
    exact head?_dropWhile_isSpace _ _ _ hx
  cases l with
  | nil => simp at h
  | cons x xs =>
    have hx := hhead x rfl
    -- the first character survives the pass from the end, so it stays the first one
    have key : ∀ (ys : List Char) (z : Char), QChar_isSpace z = false →
        ((z :: ys).reverse.dropWhile QChar_isSpace).getLast? = some z := by
      intro ys z hz
      rw [List.reverse_cons]
      induction ys.reverse with
      | nil => simp [List.dropWhile, hz]
      | cons w ws ih =>
        by_cases hw : QChar_isSpace w = true
        · simpa [List.dropWhile_cons_of_pos, hw] using ih
        · have hw' : QChar_isSpace w = false := by simpa using hw
          rw [List.cons_append, List.dropWhile_cons_of_neg hw, ← List.cons_append,
            List.getLast?_append]
          rfl
    rw [key xs x hx] at h
    simp only [Option.some.injEq] at h
    subst h
    exact hx

theorem mem_foldl_insert_trimmed (l : List String) (init : Finset String) (x : String) :
    x ∈ l.foldl
        (fun retSet strTile =>
          if QString_trimmed strTile ≠ "" then insert (QString_trimmed strTile) retSet
          else retSet) init ↔
      x ∈ init ∨ (x ≠ "" ∧ ∃ piece ∈ l, x = QString_trimmed piece) := by
  induction l generalizing init with
  | nil => simp
  | cons a l ih =>
    rw [List.foldl_cons, ih]
    by_cases ha : QString_trimmed a = ""
    · simp only [ha, ne_eq, not_true_eq_false, if_false, List.mem_cons, exists_eq_or_imp]
      constructor
      · rintro (h | ⟨h1, h2⟩)
        · exact Or.inl h
        · exact Or.inr ⟨h1, Or.inr h2⟩
      · rintro (h | ⟨h1, h2 | h2⟩)
        · exact Or.inl h
        · exact absurd h2 h1
        · exact Or.inr ⟨h1, h2⟩
    · simp only [ne_eq, ha, not_false_eq_true, if_true, Finset.mem_insert, List.mem_cons,
        exists_eq_or_imp]
      constructor
      · rintro ((h | h) | ⟨h1, h2⟩)
        · exact Or.inr ⟨h ▸ ha, Or.inl h⟩
        · exact Or.inl h
        · exact Or.inr ⟨h1, Or.inr h2⟩
      · rintro (h | ⟨h1, h2 | h2⟩)
        · exact Or.inl (Or.inr h)
        · exact Or.inl (Or.inl h2)
        · exact Or.inr ⟨h1, h2⟩

theorem mem_GetTilesFilter (p : QJsonObject) (c : ConfigMap) (x : String) :
    x ∈ GetTilesFilter p c ↔
      x ≠ "" ∧ ∃ piece ∈ QString_split ',' (tilesFilterString p c), x = QString_trimmed piece := by
  unfold GetTilesFilter
  simp only
  rw [mem_foldl_insert_trimmed]
  simp

/-- C20. For every filter string, `GetTilesFilter` returns exactly the set of the non-empty
trimmed pieces of the string between its commas (the pieces hold no comma and joined by
commas give the string back): no element is empty, starts or ends with white space, or
contains a comma. The filter string is the string parameter `tiles_filter` when it is not
empty and the configuration value otherwise; `"T30TYT, T31UDP ,"` gives the set of `T30TYT`
and `T31UDP`, and the empty string the empty set. -/
theorem tiles_filter_parsing :
    (∀ (p : QJsonObject) (c : ConfigMap) (x : String),
      x ∈ GetTilesFilter p c ↔
        x ≠ "" ∧
          ∃ piece ∈ QString_split ',' (tilesFilterString p c), x = QString_trimmed piece) ∧
    (∀ s : String,
      [','].intercalate ((QString_split ',' s).map String.data) = s.data ∧
      ∀ piece ∈ QString_split ',' s, ',' ∉ piece.data) ∧
    (∀ (p : QJsonObject) (c : ConfigMap) (x : String), x ∈ GetTilesFilter p c →
      x ≠ "" ∧ (∀ ch, x.data.head? = some ch → QChar_isSpace ch = false) ∧
      (∀ ch, x.data.getLast? = some ch → QChar_isSpace ch = false) ∧ ',' ∉ x.data) ∧
    (∀ (s : String) (c : ConfigMap), s ≠ "" →
      tilesFilterString ⟨[("tiles_filter", .string s)]⟩ c = s) ∧
    (∀ s : String, tilesFilterString ⟨[]⟩ [("processor.l3b.lai.tiles_filter", s)] = s) ∧
    GetTilesFilter ⟨[("tiles_filter", .string "T30TYT, T31UDP ,")]⟩ [] = {"T30TYT", "T31UDP"} ∧
    GetTilesFilter ⟨[]⟩ [("processor.l3b.lai.tiles_filter", "T30TYT, T31UDP ,")] =
      {"T30TYT", "T31UDP"} ∧
    GetTilesFilter ⟨[]⟩ [("processor.l3b.lai.tiles_filter", "")] = ∅ := by
  refine ⟨mem_GetTilesFilter, ?_, ?_, ?_, ?_, by decide, by decide, by decide⟩
  · intro s
    constructor
    · unfold QString_split
      rw [List.map_map]
      have : (String.data ∘ String.mk) = id := by funext l; rfl
      rw [this, List.map_id, intercalate_splitChars]
    · intro piece hp
      unfold QString_split at hp
      obtain ⟨q, hq, rfl⟩ := List.mem_map.mp hp
      exact splitChars_no_sep ',' s.data q hq
  · intro p c x hx
    obtain ⟨hne, piece, hp, rfl⟩ := (mem_GetTilesFilter p c x).mp hx
    refine ⟨hne, ?_, ?_, ?_⟩
    · intro ch hch
      exact head?_trimmedChars piece.data ch hch
    · intro ch hch
      exact getLast?_trimmedChars piece.data ch hch
    · intro hmem
      have hsub := trimmedChars_sublist piece.data
      unfold QString_split at hp
      obtain ⟨q, hq, rfl⟩ := List.mem_map.mp hp
      exact splitChars_no_sep ',' _ q hq (hsub.subset hmem)
  · intro s c hs
    simp [tilesFilterString, QJsonObject.contains, QJsonObject.value, List.lookup,
      QJsonValue.isString, QJsonValue.toQString, hs]
  · intro s
    simp [tilesFilterString, QJsonObject.contains, configValue, List.lookup]

theorem HandleProduct_eq (ctx : SubmissionContext) (event : JobSubmittedEvent)
    (tiles : List TileInfos) (l : List TaskToSubmit) (h : tiles ≠ []) :
    HandleProduct ctx event tiles l =
      some (builtList (productFlags event.parameters ctx.configParameters ctx.defVal) l
          tiles.length ctx.bRemoveTempFiles,
        [ContextCall.SubmitTasks event.jobId
            ((builtList (productFlags event.parameters ctx.configParameters ctx.defVal) l
              tiles.length ctx.bRemoveTempFiles).drop l.length),
          ContextCall.SubmitSteps
            (productSteps ctx.binder
              (productFlags event.parameters ctx.configParameters ctx.defVal) tiles
              ctx.bRemoveTempFiles l.length)]) := by
  unfold HandleProduct
  simp only [Option.bind_eq_bind]
  rw [CreateTasksForNewProduct_eq, Option.some_bind,
    GetStepsForMonodateLai_builtList ctx.binder _ l tiles ctx.bRemoveTempFiles h,
    Option.some_bind]

theorem wiredTile_not_formatter (g : ProduceFlags) (ch : Bool) (b : Nat) :
    ∀ t ∈ wiredTile g ch b, t.moduleName ≠ "lai-processor-product-formatter" := by
  rcases g with ⟨_ | _, _ | _, _ | _, _ | _⟩ <;>
    simp [wiredTile, wiredIndicators, wiredIndicator]

theorem wiredTiles_not_formatter (g : ProduceFlags) (ch : Bool) (b n : Nat) :
    ∀ t ∈ wiredTiles g ch b n, t.moduleName ≠ "lai-processor-product-formatter" := by
  induction n generalizing b with
  | zero => simp [wiredTiles]
  | succ n ih =>
    intro t ht
    simp only [wiredTiles, List.mem_append] at ht
    rcases ht with ht | ht
    · exact wiredTile_not_formatter g ch b t ht
    · exact ih _ t ht

theorem formatter_count_builtList (g : ProduceFlags) (init : List TaskToSubmit) (n : Nat)
    (rm : Bool) :
    ((builtList g init n rm).filter
      (fun t => t.moduleName = "lai-processor-product-formatter")).length =
    (init.filter (fun t => t.moduleName = "lai-processor-product-formatter")).length + 1 := by
  have hw : (wiredTiles g (decide (0 < init.length)) init.length n).filter
      (fun t => t.moduleName = "lai-processor-product-formatter") = [] :=
    List.filter_eq_nil_iff.mpr (fun t ht => by
      simpa using wiredTiles_not_formatter g _ _ n t ht)
  unfold builtList
  rw [List.filter_append, List.filter_append, hw, List.nil_append, List.length_append]
  cases rm <;> simp [List.filter]

theorem handleProducts_spec (ctx : SubmissionContext) (event : JobSubmittedEvent)
    (groups : List (List TileInfos)) (hne : ∀ tiles ∈ groups, tiles ≠ [])
    (l : List TaskToSubmit) (calls : List ContextCall) :
    ∃ l2 calls2, handleProducts ctx event groups (l, calls) = some (l2, calls ++ calls2) ∧
      (l2.filter (fun t => t.moduleName = "lai-processor-product-formatter")).length =
        (l.filter (fun t => t.moduleName = "lai-processor-product-formatter")).length +
          groups.length ∧
      (calls2.filter ContextCall.isSubmitTasks).length = groups.length ∧
      calls2.length = 2 * groups.length ∧
      ∀ c ∈ calls2, c.isSubmission = true := by
  induction groups generalizing l calls with
  | nil => exact ⟨l, [], by simp [handleProducts], by simp, by simp, by simp, by simp⟩
  | cons tiles rest ih =>
    have h1 := hne tiles (List.mem_cons_self _ _)
    obtain ⟨l2, calls2, e, hc, hs, hlen, hall⟩ :=
      ih (fun t ht => hne t (List.mem_cons_of_mem _ ht))
        (builtList (productFlags event.parameters ctx.configParameters ctx.defVal) l
          tiles.length ctx.bRemoveTempFiles)
        (calls ++ [ContextCall.SubmitTasks event.jobId
            ((builtList (productFlags event.parameters ctx.configParameters ctx.defVal) l
              tiles.length ctx.bRemoveTempFiles).drop l.length),
          ContextCall.SubmitSteps
            (productSteps ctx.binder
              (productFlags event.parameters ctx.configParameters ctx.defVal) tiles
              ctx.bRemoveTempFiles l.length)])
    refine ⟨l2, ContextCall.SubmitTasks event.jobId
        ((builtList (productFlags event.parameters ctx.configParameters ctx.defVal) l
          tiles.length ctx.bRemoveTempFiles).drop l.length) ::
      ContextCall.SubmitSteps
        (productSteps ctx.binder
          (productFlags event.parameters ctx.configParameters ctx.defVal) tiles
          ctx.bRemoveTempFiles l.length) :: calls2, ?_, ?_, ?_, ?_, ?_⟩
    · simp only [handleProducts]
      rw [HandleProduct_eq ctx event tiles l h1, Option.some_bind, e]
      simp
    · rw [hc, formatter_count_builtList, List.length_cons]
      omega
    · rw [List.filter_cons_of_pos (by rfl),
        List.filter_cons_of_neg (by simp [ContextCall.isSubmitTasks]),
        List.length_cons, hs, List.length_cons]
    · simp only [List.length_cons, hlen]
      omega
    · intro c hc2
      rcases List.mem_cons.mp hc2 with rfl | hc2
      · rfl
      rcases List.mem_cons.mp hc2 with rfl | hc2
      · rfl
      · exact hall c hc2

theorem handleDateGroups_eq (ctx : SubmissionContext) (event : JobSubmittedEvent)
    (tilesFilter : Finset String) (entries : List (Int × List String))
    (hlook : ∀ e ∈ entries, ctx.dateGroupedInputProductToTilesMap.lookup e.1 = some e.2)
    (st : List TaskToSubmit × List ContextCall) :
    handleDateGroups ctx event tilesFilter (entries.map Prod.fst) st =
      handleProducts ctx event
        (((entries.map fun e => (e.1, filteredTiles ctx tilesFilter e.2)).filter
          fun e => decide (e.2 ≠ [])).map Prod.snd) st := by
  induction entries generalizing st with
  | nil => simp [handleDateGroups, handleProducts]
  | cons e rest ih =>
    obtain ⟨l, calls⟩ := st
    have hl := hlook e (List.mem_cons_self _ _)
    have ih' := fun st => ih (fun x hx => hlook x (List.mem_cons_of_mem _ hx)) st
    simp only [List.map_cons, handleDateGroups, hl, Option.getD_some, List.filter_cons]
    by_cases hne : filteredTiles ctx tilesFilter e.2 = []
    · simp only [hne, List.length_nil, Nat.lt_irrefl, if_false, ne_eq, not_true_eq_false,
        decide_False, Bool.false_eq_true, gt_iff_lt]
      exact ih' _
    · have hpos : (filteredTiles ctx tilesFilter e.2).length > 0 :=
        List.length_pos.mpr hne
      simp only [hpos, if_true, ne_eq, hne, not_false_eq_true, decide_True, List.map_cons,
        handleProducts]
      congr 1
      funext r
      exact ih' _

theorem lookup_of_pairwise (m : List (Int × List String))
    (h : (m.map Prod.fst).Pairwise (· < ·)) : ∀ e ∈ m, m.lookup e.1 = some e.2 := by
  induction m with
  | nil => simp
  | cons a m ih =>
    simp only [List.map_cons, List.pairwise_cons] at h
    intro e he
    rcases List.mem_cons.mp he with rfl | hm
    · simp [List.lookup]
    · have hlt : a.1 < e.1 := h.1 e.1 (List.mem_map_of_mem _ hm)
      have hne : (e.1 == a.1) = false := by
        simp only [beq_eq_false_iff_ne, ne_eq]
        omega
      have hrec := ih h.2 e hm
      obtain ⟨a1, a2⟩ := a
      simp only [List.lookup, hne]
      exact hrec

/-- C21. For every submission context and job: if the mono-date flag (parameter `monolai`,
configuration key `processor.l3b.mono_date_lai`) resolves to false, or none of the four produce
flags (parameters `genndvi`, `genlai`, `genfapar`, `genfcover` with their configuration keys)
resolves to true, then `HandleJobSubmittedImpl` makes exactly one call, which marks the job of
the event failed, and ends by raising an error: no task and no step is submitted, not even
the end-of-job task. -/
theorem misconfigured_job_is_failed (ctx : SubmissionContext) (event : JobSubmittedEvent)
    (h : IsParamOrConfigKeySet event.parameters ctx.configParameters "monolai"
          "processor.l3b.mono_date_lai" ctx.defVal = false ∨
      (IsParamOrConfigKeySet event.parameters ctx.configParameters "genndvi"
          "processor.l3b.lai.produce_ndvi" ctx.defVal = false ∧
        IsParamOrConfigKeySet event.parameters ctx.configParameters "genlai"
          "processor.l3b.lai.produce_lai" ctx.defVal = false ∧
        IsParamOrConfigKeySet event.parameters ctx.configParameters "genfapar"
          "processor.l3b.lai.produce_fapar" ctx.defVal = false ∧
        IsParamOrConfigKeySet event.parameters ctx.configParameters "genfcover"
          "processor.l3b.lai.produce_fcover" ctx.defVal = false)) :
    ∃ message, HandleJobSubmittedImpl ctx event =
      some ⟨[ContextCall.MarkJobFailed event.jobId], some message⟩ := by
  unfold HandleJobSubmittedImpl
  by_cases hm : IsParamOrConfigKeySet event.parameters ctx.configParameters "monolai"
      "processor.l3b.mono_date_lai" ctx.defVal = true
  · rcases h with h | ⟨h1, h2, h3, h4⟩
    · rw [hm] at h
      exact absurd h (by decide)
    · exact ⟨"No index was configured to be generated", by simp [hm, h1, h2, h3, h4]⟩
  · have hm' : IsParamOrConfigKeySet event.parameters ctx.configParameters "monolai"
        "processor.l3b.mono_date_lai" ctx.defVal = false := by simpa using hm
    exact ⟨"LAI mono-date processing needs to be defined", by simp [hm']⟩

/-- Witness of C21: the sample job in a context whose configuration sets neither the mono-date
flag nor a produce flag. -/
theorem misconfigured_job_is_failed_witness :
    (IsParamOrConfigKeySet (sampleJob "").parameters [] "monolai"
      "processor.l3b.mono_date_lai" true = false ∨
      (IsParamOrConfigKeySet (sampleJob "").parameters [] "genndvi"
          "processor.l3b.lai.produce_ndvi" true = false ∧
        IsParamOrConfigKeySet (sampleJob "").parameters [] "genlai"
          "processor.l3b.lai.produce_lai" true = false ∧
        IsParamOrConfigKeySet (sampleJob "").parameters [] "genfapar"
          "processor.l3b.lai.produce_fapar" true = false ∧
        IsParamOrConfigKeySet (sampleJob "").parameters [] "genfcover"
          "processor.l3b.lai.produce_fcover" true = false)) ∧
    ∃ message, HandleJobSubmittedImpl { sampleSubmission with configParameters := [] }
        (sampleJob "") =
      some ⟨[ContextCall.MarkJobFailed (sampleJob "").jobId], some message⟩ :=
  ⟨Or.inl (by decide),
    misconfigured_job_is_failed { sampleSubmission with configParameters := [] } (sampleJob "")
      (Or.inl (by decide))⟩

theorem HandleJobSubmittedImpl_of_checks (ctx : SubmissionContext) (event : JobSubmittedEvent)
    (hmono : IsParamOrConfigKeySet event.parameters ctx.configParameters "monolai"
      "processor.l3b.mono_date_lai" ctx.defVal = true)
    (hflag : (IsParamOrConfigKeySet event.parameters ctx.configParameters "genndvi"
          "processor.l3b.lai.produce_ndvi" ctx.defVal ||
        IsParamOrConfigKeySet event.parameters ctx.configParameters "genlai"
          "processor.l3b.lai.produce_lai" ctx.defVal ||
        IsParamOrConfigKeySet event.parameters ctx.configParameters "genfapar"
          "processor.l3b.lai.produce_fapar" ctx.defVal ||
        IsParamOrConfigKeySet event.parameters ctx.configParameters "genfcover"
          "processor.l3b.lai.produce_fcover" ctx.defVal) = true)
    (hmk : ctx.mkpath (configValue ctx.configParameters "processor.l3b.lai.modelsfolder") = true)
    (hin : ctx.listTilesMetaFiles ≠ []) :
    HandleJobSubmittedImpl ctx event =
      (handleDateGroups ctx event (GetTilesFilter event.parameters ctx.configParameters)
        (ctx.dateGroupedInputProductToTilesMap.map Prod.fst) ([], [])).map fun r =>
        ⟨r.2 ++ SubmitEndOfLaiTask event r.1, none⟩ := by
  have hflag' : (!IsParamOrConfigKeySet event.parameters ctx.configParameters "genndvi"
          "processor.l3b.lai.produce_ndvi" ctx.defVal &&
        !IsParamOrConfigKeySet event.parameters ctx.configParameters "genlai"
          "processor.l3b.lai.produce_lai" ctx.defVal &&
        !IsParamOrConfigKeySet event.parameters ctx.configParameters "genfapar"
          "processor.l3b.lai.produce_fapar" ctx.defVal &&
        !IsParamOrConfigKeySet event.parameters ctx.configParameters "genfcover"
          "processor.l3b.lai.produce_fcover" ctx.defVal) = false := by
    revert hflag
    cases IsParamOrConfigKeySet event.parameters ctx.configParameters "genndvi"
        "processor.l3b.lai.produce_ndvi" ctx.defVal <;>
      cases IsParamOrConfigKeySet event.parameters ctx.configParameters "genlai"
        "processor.l3b.lai.produce_lai" ctx.defVal <;>
      cases IsParamOrConfigKeySet event.parameters ctx.configParameters "genfapar"
        "processor.l3b.lai.produce_fapar" ctx.defVal <;>
      cases IsParamOrConfigKeySet event.parameters ctx.configParameters "genfcover"
        "processor.l3b.lai.produce_fcover" ctx.defVal <;> decide
  have hlen : ¬ ctx.listTilesMetaFiles.length = 0 := by
    intro h0
    exact hin (List.length_eq_zero.mp h0)
  unfold HandleJobSubmittedImpl
  simp only [hmono, Bool.not_true, Bool.false_eq_true, if_false, hflag', hmk, hlen]

theorem mem_of_lookup (m : List (Int × List String)) (key : Int) (v : List String)
    (h : m.lookup key = some v) : (key, v) ∈ m := by
  induction m with
  | nil => simp at h
  | cons a m ih =>
    obtain ⟨a1, a2⟩ := a
    by_cases hk : key = a1
    · subst hk
      simp only [List.lookup, beq_self_eq_true, Option.some.injEq] at h
      subst h
      exact List.mem_cons_self _ _
    · have hne : (key == a1) = false := by simpa using hk
      simp only [List.lookup, hne] at h
      exact List.mem_cons_of_mem _ (ih h)

theorem handleDateGroups_all_filtered (ctx : SubmissionContext) (event : JobSubmittedEvent)
    (tilesFilter : Finset String)
    (hall : ∀ e ∈ ctx.dateGroupedInputProductToTilesMap, ∀ t ∈ e.2,
      FilterTile ctx tilesFilter t = false)
    (keys : List Int) (st : List TaskToSubmit × List ContextCall) :
    handleDateGroups ctx event tilesFilter keys st = some st := by
  induction keys generalizing st with
  | nil => rfl
  | cons key keys ih =>
    obtain ⟨l, calls⟩ := st
    have hnil : filteredTiles ctx tilesFilter
        ((ctx.dateGroupedInputProductToTilesMap.lookup key).getD []) = [] := by
      unfold filteredTiles
      rw [List.map_eq_nil_iff, List.filter_eq_nil_iff]
      intro t ht
      cases hl : ctx.dateGroupedInputProductToTilesMap.lookup key with
      | none => rw [hl] at ht; simp at ht
      | some v =>
        rw [hl] at ht
        have := hall (key, v) (mem_of_lookup _ key v hl) t ht
        simp [this]
    simp only [handleDateGroups, hnil, List.length_nil, gt_iff_lt, Nat.lt_irrefl, if_false]
    exact ih _

/-- C22 (counterexample). The input holds two tiles, `T30TYT` and `T31UDP`, and the tile filter
`T32XXX` removes both: `HandleJobSubmittedImpl` does not mark the job failed and raises no
error; it submits the end-of-job task, without parents, and its step. -/
theorem all_tiles_filtered_job_not_failed :
    sampleSubmission.listTilesMetaFiles ≠ [] ∧
    (sampleSubmission.dateGroupedInputProductToTilesMap.all fun e => e.2.all fun t =>
      !FilterTile sampleSubmission
        (GetTilesFilter (sampleJob "T32XXX").parameters sampleSubmission.configParameters) t) =
      true ∧
    HandleJobSubmittedImpl sampleSubmission (sampleJob "T32XXX") =
      some ⟨[ContextCall.SubmitTasks 7 [⟨"lai-processor-end-of-job", []⟩],
        ContextCall.SubmitSteps [⟨0, "EndOfLAIDummy", []⟩]], none⟩ := by
  refine ⟨by decide, by decide, by decide⟩

/-- C22 (amended). In `HandleJobSubmittedImpl`, when the configuration checks pass and the set
of input tiles is not empty but the tile filter removes every tile of every date group, the
job is not marked failed and no error is raised: no task and no step of a product is
submitted, and the only calls are the submission of the end-of-job task, which has no parent,
and of its step `EndOfLAIDummy`. -/
theorem all_tiles_filtered_submits_only_end_of_job (ctx : SubmissionContext)
    (event : JobSubmittedEvent)
    (hmono : IsParamOrConfigKeySet event.parameters ctx.configParameters "monolai"
      "processor.l3b.mono_date_lai" ctx.defVal = true)
    (hflag : (IsParamOrConfigKeySet event.parameters ctx.configParameters "genndvi"
          "processor.l3b.lai.produce_ndvi" ctx.defVal ||
        IsParamOrConfigKeySet event.parameters ctx.configParameters "genlai"
          "processor.l3b.lai.produce_lai" ctx.defVal ||
        IsParamOrConfigKeySet event.parameters ctx.configParameters "genfapar"
          "processor.l3b.lai.produce_fapar" ctx.defVal ||
        IsParamOrConfigKeySet event.parameters ctx.configParameters "genfcover"
          "processor.l3b.lai.produce_fcover" ctx.defVal) = true)
    (hmk : ctx.mkpath (configValue ctx.configParameters "processor.l3b.lai.modelsfolder") = true)
    (hin : ctx.listTilesMetaFiles ≠ [])
    (hall : ∀ e ∈ ctx.dateGroupedInputProductToTilesMap, ∀ t ∈ e.2,
      FilterTile ctx (GetTilesFilter event.parameters ctx.configParameters) t = false) :
    HandleJobSubmittedImpl ctx event =
      some ⟨[ContextCall.SubmitTasks event.jobId [⟨"lai-processor-end-of-job", []⟩],
        ContextCall.SubmitSteps [⟨0, "EndOfLAIDummy", []⟩]], none⟩ := by
  rw [HandleJobSubmittedImpl_of_checks ctx event hmono hflag hmk hin,
    handleDateGroups_all_filtered ctx event _ hall]
  rfl

/-- Witness of C22 (amended): the sample input with the tile filter `T32XXX`. -/
theorem all_tiles_filtered_submits_only_end_of_job_witness :
    sampleSubmission.listTilesMetaFiles ≠ [] ∧
    HandleJobSubmittedImpl sampleSubmission (sampleJob "T32XXX") =
      some ⟨[ContextCall.SubmitTasks (sampleJob "T32XXX").jobId
          [⟨"lai-processor-end-of-job", []⟩],
        ContextCall.SubmitSteps [⟨0, "EndOfLAIDummy", []⟩]], none⟩ :=
  ⟨by decide,
    all_tiles_filtered_submits_only_end_of_job sampleSubmission (sampleJob "T32XXX")
      (by decide) (by decide) (by decide) (by decide) (by decide)⟩

theorem survivingGroups_dates (ctx : SubmissionContext) (event : JobSubmittedEvent) :
    ((survivingGroups ctx event).map Prod.fst).Sublist
      (ctx.dateGroupedInputProductToTilesMap.map Prod.fst) := by
  unfold survivingGroups
  have h1 := (List.filter_sublist (p := fun e : Int × List TileInfos => decide (e.2 ≠ []))
    (ctx.dateGroupedInputProductToTilesMap.map fun e =>
      (e.1, filteredTiles ctx (GetTilesFilter event.parameters ctx.configParameters) e.2))).map
    Prod.fst
  have h2 : (ctx.dateGroupedInputProductToTilesMap.map fun e =>
      (e.1, filteredTiles ctx (GetTilesFilter event.parameters ctx.configParameters) e.2)).map
        Prod.fst = ctx.dateGroupedInputProductToTilesMap.map Prod.fst := by
    rw [List.map_map]
    rfl
  rwa [h2] at h1

/-- C23. In `HandleJobSubmittedImpl` a tile passes the filter iff the filter set is empty or
holds the id of the tile. When the configuration checks pass and the input is not empty, for
date groups held in ascending order of the date: `HandleProduct` is called once for every
date group that keeps at least one tile, in ascending order of the date and with exactly the
surviving tiles in their original order, and not for a group that keeps none; the calls of
the job are those of these products followed by the end-of-job submission, every product
submits its tasks once, and the job-wide list holds exactly one product-formatter task for
every surviving group. -/
theorem product_handled_for_every_surviving_group (ctx : SubmissionContext)
    (event : JobSubmittedEvent)
    (hmono : IsParamOrConfigKeySet event.parameters ctx.configParameters "monolai"
      "processor.l3b.mono_date_lai" ctx.defVal = true)
    (hflag : (IsParamOrConfigKeySet event.parameters ctx.configParameters "genndvi"
          "processor.l3b.lai.produce_ndvi" ctx.defVal ||
        IsParamOrConfigKeySet event.parameters ctx.configParameters "genlai"
          "processor.l3b.lai.produce_lai" ctx.defVal ||
        IsParamOrConfigKeySet event.parameters ctx.configParameters "genfapar"
          "processor.l3b.lai.produce_fapar" ctx.defVal ||
        IsParamOrConfigKeySet event.parameters ctx.configParameters "genfcover"
          "processor.l3b.lai.produce_fcover" ctx.defVal) = true)
    (hmk : ctx.mkpath (configValue ctx.configParameters "processor.l3b.lai.modelsfolder") = true)
    (hin : ctx.listTilesMetaFiles ≠ [])
    (hkeys : (ctx.dateGroupedInputProductToTilesMap.map Prod.fst).Pairwise (· < ·)) :
    (∀ (tilesSet : Finset String) (prdTileFile : String),
      FilterTile ctx tilesSet prdTileFile = true ↔
        (tilesSet = ∅ ∨ ctx.binder.GetTileId prdTileFile ∈ tilesSet)) ∧
    ((survivingGroups ctx event).map Prod.fst).Pairwise (· < ·) ∧
    (∀ e, e ∈ survivingGroups ctx event ↔
      e.2 ≠ [] ∧ ∃ prdTilesList, (e.1, prdTilesList) ∈ ctx.dateGroupedInputProductToTilesMap ∧
        e.2 = (prdTilesList.filter (FilterTile ctx
          (GetTilesFilter event.parameters ctx.configParameters))).map TileInfos.mk) ∧
    ∃ allTasksList calls,
      handleProducts ctx event ((survivingGroups ctx event).map Prod.snd) ([], []) =
        some (allTasksList, calls) ∧
      HandleJobSubmittedImpl ctx event =
        some ⟨calls ++ SubmitEndOfLaiTask event allTasksList, none⟩ ∧
      (calls.filter ContextCall.isSubmitTasks).length = (survivingGroups ctx event).length ∧
      calls.length = 2 * (survivingGroups ctx event).length ∧
      (allTasksList.filter
        (fun t => t.moduleName = "lai-processor-product-formatter")).length =
        (survivingGroups ctx event).length := by
  refine ⟨?_, hkeys.sublist (survivingGroups_dates ctx event), ?_, ?_⟩
  · intro tilesSet prdTileFile
    simp [FilterTile]
  · intro e
    unfold survivingGroups filteredTiles
    simp only [List.mem_filter, List.mem_map, decide_eq_true_eq]
    constructor
    · rintro ⟨⟨a, ha, rfl⟩, hne⟩
      exact ⟨hne, a.2, ha, rfl⟩
    · rintro ⟨hne, tiles, hmem, he⟩
      exact ⟨⟨(e.1, tiles), hmem, Prod.ext rfl he.symm⟩, hne⟩
  · have hne : ∀ tiles ∈ (survivingGroups ctx event).map Prod.snd, tiles ≠ [] := by
      intro tiles ht
      obtain ⟨e, he, rfl⟩ := List.mem_map.mp ht
      unfold survivingGroups at he
      simpa using (List.mem_filter.mp he).2
    obtain ⟨l2, calls2, hp, hc, hs, hlen, -⟩ :=
      handleProducts_spec ctx event _ hne [] []
    rw [List.nil_append] at hp
    refine ⟨l2, calls2, hp, ?_, ?_, ?_, ?_⟩
    · rw [HandleJobSubmittedImpl_of_checks ctx event hmono hflag hmk hin,
        handleDateGroups_eq ctx event _ _ (lookup_of_pairwise _ hkeys)]
      unfold survivingGroups at hp
      rw [hp]
      rfl
    · rw [hs, List.length_map]
    · rw [hlen, List.length_map]
    · rw [hc, List.length_map]
      simp

/-- Witness of C23: the sample input with the tile filter `T31UDP`, which removes the tile of
the first day and keeps the tile of the second. -/
theorem product_handled_for_every_surviving_group_witness :
    sampleSubmission.listTilesMetaFiles ≠ [] ∧
    (sampleSubmission.dateGroupedInputProductToTilesMap.map Prod.fst).Pairwise (· < ·) ∧
    survivingGroups sampleSubmission (sampleJob "T31UDP") = [(2, [⟨"T31UDP"⟩])] ∧
    ∃ allTasksList calls,
      handleProducts sampleSubmission (sampleJob "T31UDP")
          ((survivingGroups sampleSubmission (sampleJob "T31UDP")).map Prod.snd) ([], []) =
        some (allTasksList, calls) ∧
      HandleJobSubmittedImpl sampleSubmission (sampleJob "T31UDP") =
        some ⟨calls ++ SubmitEndOfLaiTask (sampleJob "T31UDP") allTasksList, none⟩ ∧
      (allTasksList.filter
        (fun t => t.moduleName = "lai-processor-product-formatter")).length = 1 := by
  obtain ⟨-, -, -, l, calls, h1, h2, -, -, h5⟩ :=
    product_handled_for_every_surviving_group sampleSubmission (sampleJob "T31UDP")
      (by decide) (by decide) (by decide) (by decide) (by decide)
  exact ⟨by decide, by decide, by decide, l, calls, h1, h2, h5⟩

theorem enumFrom_filter_fst_pairwise {α : Type} (p : Nat × α → Bool) (l : List α) (k : Nat) :
    (((l.enumFrom k).filter p).map Prod.fst).Pairwise (· < ·) ∧
    ∀ i, i ∈ ((l.enumFrom k).filter p).map Prod.fst ↔
      ∃ t, k ≤ i ∧ l[i - k]? = some t ∧ p (i, t) = true := by
  induction l generalizing k with
  | nil => simp
  | cons a l ih =>
    obtain ⟨h1, h2⟩ := ih (k + 1)
    have hge : ∀ i ∈ (((l.enumFrom (k + 1)).filter p).map Prod.fst), k < i := by
      intro i hi
      obtain ⟨t, hk, -, -⟩ := (h2 i).mp hi
      omega
    have hstep : ∀ i, (∃ t, k ≤ i ∧ (a :: l)[i - k]? = some t ∧ p (i, t) = true) ↔
        ((i = k ∧ p (k, a) = true) ∨ ∃ t, k + 1 ≤ i ∧ l[i - (k + 1)]? = some t ∧
          p (i, t) = true) := by
      intro i
      constructor
      · rintro ⟨t, hk, ht, hp⟩
        by_cases hik : i = k
        · subst hik
          simp only [Nat.sub_self, List.getElem?_cons_zero, Option.some.injEq] at ht
          subst ht
          exact Or.inl ⟨rfl, hp⟩
        · have e : i - k = (i - (k + 1)) + 1 := by omega
          rw [e, List.getElem?_cons_succ] at ht
          exact Or.inr ⟨t, by omega, ht, hp⟩
      · rintro (⟨rfl, hp⟩ | ⟨t, hk, ht, hp⟩)
        · exact ⟨a, Nat.le_refl _, by simp, hp⟩
        · have e : i - k = (i - (k + 1)) + 1 := by omega
          exact ⟨t, by omega, by rw [e, List.getElem?_cons_succ]; exact ht, hp⟩
    simp only [List.enumFrom_cons, List.filter_cons]
    by_cases hp : p (k, a) = true
    · simp only [hp, if_true, List.map_cons, List.pairwise_cons, List.mem_cons]
      refine ⟨⟨hge, h1⟩, ?_⟩
      intro i
      rw [hstep, h2]
      simp [hp]
    · simp only [hp, Bool.false_eq_true, if_false]
      refine ⟨h1, ?_⟩
      intro i
      rw [hstep, h2]
      simp [hp]

/-- C24. For every job and every job-wide task list, `SubmitEndOfLaiTask` submits exactly one
task, with module `lai-processor-end-of-job`, whose parents are the indices of exactly the
tasks of the list with module `lai-processor-product-formatter`, each once and in list order,
and then exactly one step, named `EndOfLAIDummy`, of that task and with an empty argument
vector. -/
theorem end_of_job_task_waits_for_formatters (event : JobSubmittedEvent)
    (allTasksList : List TaskToSubmit) :
    ∃ parents,
      SubmitEndOfLaiTask event allTasksList =
        [ContextCall.SubmitTasks event.jobId [⟨"lai-processor-end-of-job", parents⟩],
          ContextCall.SubmitSteps [⟨allTasksList.length, "EndOfLAIDummy", []⟩]] ∧
      parents.Pairwise (· < ·) ∧
      ∀ i, i ∈ parents ↔
        ∃ t, allTasksList[i]? = some t ∧ t.moduleName = "lai-processor-product-formatter" := by
  obtain ⟨h1, h2⟩ := enumFrom_filter_fst_pairwise
    (fun it : Nat × TaskToSubmit => decide (it.2.moduleName = "lai-processor-product-formatter"))
    allTasksList 0
  refine ⟨_, ?_, h1, ?_⟩
  · simp only [SubmitEndOfLaiTask, List.nil_append, CreateStep, List.enum]
  · intro i
    rw [h2 i]
    simp

theorem SubmitL3CJobForL3BProduct_eq (ctx : CompletionContext) (event : TaskFinishedEvent)
    (satId : SatelliteIdType) (l3bProdName : String) :
    SubmitL3CJobForL3BProduct ctx event satId l3bProdName =
      if satId = SatelliteIdType.SATELLITE_ID_TYPE_S2 ∧
          QString_toInt (configValue ctx.configParameters "processor.l3b.lai.link_l3c_to_l3b") = 1
      then
        [ContextCall.SubmitJob
          { processorId := event.processorId
            siteId := event.siteId
            startType := JobStartType.Triggered
            parametersJson := ctx.jsonToString
              ⟨[("input_products", .array [.string l3bProdName]), ("resolution", .string "10"),
                ("reproc", .string "1"), ("inputs_are_l3b", .string "1"),
                ("max_l3b_per_tile", .string "3")]⟩ }]
      else [] := by
  unfold SubmitL3CJobForL3BProduct
  by_cases hl : QString_toInt
      (configValue ctx.configParameters "processor.l3b.lai.link_l3c_to_l3b") = 1
  · by_cases hs : satId = SatelliteIdType.SATELLITE_ID_TYPE_S2
    · simp only [hl, hs, decide_True, if_true, and_self]
      rfl
    · simp [hl, hs]
  · simp [hl]

theorem SubmitL3CJobForL3BProduct_calls (ctx : CompletionContext) (event : TaskFinishedEvent)
    (satId : SatelliteIdType) (l3bProdName : String) :
    ∀ c ∈ SubmitL3CJobForL3BProduct ctx event satId l3bProdName, ∃ job, c = .SubmitJob job := by
  rw [SubmitL3CJobForL3BProduct_eq]
  split
  · intro c hc
    simp only [List.mem_singleton] at hc
    exact ⟨_, hc⟩
  · simp

/-- C25. For every completion context and event: when the module of the event is
`lai-processor-end-of-job`, `HandleTaskFinishedImpl` marks the job of the event finished and
then calls `RemoveJobFolder` for that job and the processor `l3b`, and makes no other call;
for an event of any other module it makes neither of the two calls, for any job and folder. -/
theorem end_of_job_event_finishes_job (ctx : CompletionContext) (event : TaskFinishedEvent) :
    (event.module = "lai-processor-end-of-job" →
      HandleTaskFinishedImpl ctx event =
        [ContextCall.MarkJobFinished event.jobId,
          ContextCall.RemoveJobFolder event.jobId "l3b"]) ∧
    (event.module ≠ "lai-processor-end-of-job" →
      ∀ c ∈ HandleTaskFinishedImpl ctx event,
        (∀ jobId, c ≠ ContextCall.MarkJobFinished jobId) ∧
        ∀ jobId procName, c ≠ ContextCall.RemoveJobFolder jobId procName) := by
  constructor
  · intro h
    have hne : event.module ≠ "lai-processor-product-formatter" := by
      rw [h]; decide
    simp [HandleTaskFinishedImpl, h, hne]
  · intro h c hc
    unfold HandleTaskFinishedImpl at hc
    simp only [h, if_false, List.nil_append] at hc
    split at hc
    · split at hc
      · rcases List.mem_cons.mp hc with rfl | hc
        · exact ⟨fun _ => by simp, fun _ _ => by simp⟩
        · obtain ⟨job, rfl⟩ := SubmitL3CJobForL3BProduct_calls _ _ _ _ c hc
          exact ⟨fun _ => by simp, fun _ _ => by simp⟩
      · simp at hc
    · simp at hc

/-- C26. For an event of module `lai-processor-product-formatter`: when the product name is
not empty and the output folder is a valid high-level product, `HandleTaskFinishedImpl` calls
`InsertProduct` exactly once, first of all and for a product of type L3B with the name and
folder of the event, and every call after it is a `SubmitJob` of `SubmitL3CJobForL3BProduct`;
otherwise it makes no call at all, so neither `InsertProduct` nor `SubmitJob`. In both cases
and whatever `InsertProduct` returns, no call marks a job failed. -/
theorem formatter_event_inserts_valid_product (ctx : CompletionContext)
    (event : TaskFinishedEvent) (h : event.module = "lai-processor-product-formatter") :
    ((ctx.GetProductFormatterProductName ≠ "" ∧
        ctx.IsValidHighLevelProduct ctx.GetProductFormatterOutputProductPath = true) →
      ∃ product,
        HandleTaskFinishedImpl ctx event =
          ContextCall.InsertProduct product ::
            SubmitL3CJobForL3BProduct ctx event product.satelliteId product.name ∧
        product.productType = ProductType.L3BProductTypeId ∧
        product.name = ctx.GetProductFormatterProductName ∧
        product.fullPath = ctx.GetProductFormatterOutputProductPath ∧
        ((HandleTaskFinishedImpl ctx event).filter ContextCall.isInsertProduct).length = 1) ∧
    (¬ (ctx.GetProductFormatterProductName ≠ "" ∧
        ctx.IsValidHighLevelProduct ctx.GetProductFormatterOutputProductPath = true) →
      HandleTaskFinishedImpl ctx event = []) ∧
    ∀ c ∈ HandleTaskFinishedImpl ctx event, c.isMarkJobFailed = false := by
  have hne : event.module ≠ "lai-processor-end-of-job" := by
    rw [h]; decide
  have hcalls : ∀ satId name, ∀ c ∈ SubmitL3CJobForL3BProduct ctx event satId name,
      c.isInsertProduct = false ∧ c.isMarkJobFailed = false := by
    intro satId name c hc
    obtain ⟨job, rfl⟩ := SubmitL3CJobForL3BProduct_calls ctx event satId name c hc
    exact ⟨rfl, rfl⟩
  by_cases hv : ctx.GetProductFormatterProductName ≠ "" ∧
      ctx.IsValidHighLevelProduct ctx.GetProductFormatterOutputProductPath = true
  · have heq : HandleTaskFinishedImpl ctx event =
        ContextCall.InsertProduct
          { productType := ProductType.L3BProductTypeId
            processorId := event.processorId
            satelliteId := findSatId ctx
              (ctx.GetTileIdsFromHighLevelProduct ctx.GetProductFormatterOutputProductPath)
              SatelliteIdType.SATELLITE_ID_TYPE_UNKNOWN
            siteId := event.siteId
            jobId := event.jobId
            fullPath := ctx.GetProductFormatterOutputProductPath
            createdTimestamp := ctx.maxDate ctx.GetProductFormatterProductName
            name := ctx.GetProductFormatterProductName
            quicklookImage := ctx.GetProductFormatterQuicklook
            footprint := ctx.GetProductFormatterFootprint
            tiles := ctx.GetTileIdsFromHighLevelProduct
              ctx.GetProductFormatterOutputProductPath } ::
          SubmitL3CJobForL3BProduct ctx event
            (findSatId ctx
              (ctx.GetTileIdsFromHighLevelProduct ctx.GetProductFormatterOutputProductPath)
              SatelliteIdType.SATELLITE_ID_TYPE_UNKNOWN)
            ctx.GetProductFormatterProductName := by
      unfold HandleTaskFinishedImpl
      simp [h, hv.1, hv.2]
    refine ⟨fun _ => ⟨_, heq, rfl, rfl, rfl, ?_⟩, fun hn => absurd hv hn, ?_⟩
    · rw [heq, List.filter_cons_of_pos (by rfl), List.length_cons,
        List.filter_eq_nil_iff.mpr (fun c hc => by simp [(hcalls _ _ c hc).1])]
      rfl
    · rw [heq]
      intro c hc
      rcases List.mem_cons.mp hc with rfl | hc
      · rfl
      · exact (hcalls _ _ c hc).2
  · have heq : HandleTaskFinishedImpl ctx event = [] := by
      unfold HandleTaskFinishedImpl
      by_cases hn : ctx.GetProductFormatterProductName = ""
      · simp [h, hn]
      · have : ctx.IsValidHighLevelProduct ctx.GetProductFormatterOutputProductPath = false := by
          by_contra hc
          exact hv ⟨hn, by simpa using hc⟩
        simp [h, hn, this]
    refine ⟨fun hp => absurd hp hv, fun _ => heq, ?_⟩
    rw [heq]
    simp

/-- Witness of C26: the product of the sample completion context is inserted once. -/
theorem formatter_event_inserts_valid_product_witness :
    ((⟨"lai-processor-product-formatter", 7, 3, 1⟩ : TaskFinishedEvent).module =
      "lai-processor-product-formatter") ∧
    ((HandleTaskFinishedImpl sampleCompletion
      ⟨"lai-processor-product-formatter", 7, 3, 1⟩).filter
        ContextCall.isInsertProduct).length = 1 := by
  refine ⟨rfl, ?_⟩
  obtain ⟨h1, -, -⟩ := formatter_event_inserts_valid_product sampleCompletion
    ⟨"lai-processor-product-formatter", 7, 3, 1⟩ rfl
  obtain ⟨product, -, -, -, -, hlen⟩ := h1 ⟨by decide, rfl⟩
  exact hlen

/-- C27. For every completion context, event, satellite and product name:
`SubmitL3CJobForL3BProduct` makes exactly one call, a `SubmitJob`, when the satellite is S2 and
the configuration value `processor.l3b.lai.link_l3c_to_l3b` reads as the integer 1, for a job
with the processor id and the site id of the event and the parameters `input_products` (the
array of the product name alone), `resolution` = "10", `reproc` = "1", `inputs_are_l3b` = "1"
and `max_l3b_per_tile` = "3"; and it makes no call at all when the satellite is not S2 or the
value does not read as 1. The value `1` reads as 1. -/
theorem l3c_job_submitted_for_s2_when_linked (ctx : CompletionContext)
    (event : TaskFinishedEvent) (satId : SatelliteIdType) (l3bProdName : String) :
    ((satId = SatelliteIdType.SATELLITE_ID_TYPE_S2 ∧
        QString_toInt (configValue ctx.configParameters "processor.l3b.lai.link_l3c_to_l3b") = 1) →
      SubmitL3CJobForL3BProduct ctx event satId l3bProdName =
        [ContextCall.SubmitJob
          { processorId := event.processorId
            siteId := event.siteId
            startType := JobStartType.Triggered
            parametersJson := ctx.jsonToString
              ⟨[("input_products", .array [.string l3bProdName]), ("resolution", .string "10"),
                ("reproc", .string "1"), ("inputs_are_l3b", .string "1"),
                ("max_l3b_per_tile", .string "3")]⟩ }]) ∧
    ((satId ≠ SatelliteIdType.SATELLITE_ID_TYPE_S2 ∨
        QString_toInt (configValue ctx.configParameters "processor.l3b.lai.link_l3c_to_l3b") ≠ 1) →
      SubmitL3CJobForL3BProduct ctx event satId l3bProdName = []) ∧
    QString_toInt (configValue [("processor.l3b.lai.link_l3c_to_l3b", "1")]
      "processor.l3b.lai.link_l3c_to_l3b") = 1 := by
  refine ⟨?_, ?_, by decide⟩
  · intro h
    rw [SubmitL3CJobForL3BProduct_eq, if_pos h]
  · intro h
    rw [SubmitL3CJobForL3BProduct_eq, if_neg]
    rintro ⟨h1, h2⟩
    rcases h with h | h
    · exact h h1
    · exact h h2

theorem GetProcessingDefinitionImpl_of_checks (ctx : SchedulingContext)
    (siteId scheduledDate : Int) (requestOverrideCfgValues : ConfigMap)
    (seasonStartDate seasonEndDate : QDateTime)
    (hs : ctx.GetSeasonStartEndDates siteId (fromTime_t scheduledDate) requestOverrideCfgValues =
      (true, seasonStartDate, seasonEndDate))
    (hlimit : ¬ (fromTime_t scheduledDate).msecs > (ctx.addMonths seasonEndDate 2).msecs)
    (hvalid : seasonStartDate.isValid = true)
    (hL3B : requestOverrideCfgValues.lookup "product_type" = some "L3B") :
    (GetProcessingDefinitionImpl ctx siteId scheduledDate requestOverrideCfgValues).2 =
      [if ctx.currentDateTime.msecs > seasonEndDate.msecs ∨
          requestOverrideCfgValues.lookup "task_repeat_type" = some "0" then
        CatalogueQuery.GetProducts siteId ProductType.L2AProductTypeId
          (queryStartDate ctx siteId scheduledDate requestOverrideCfgValues seasonStartDate)
          (fromTime_t scheduledDate)
      else
        CatalogueQuery.GetProductsByInsertedTime siteId ProductType.L2AProductTypeId
          (queryStartDate ctx siteId scheduledDate requestOverrideCfgValues seasonStartDate)
          (fromTime_t scheduledDate)] ∧
    (GetProcessingDefinitionImpl ctx siteId scheduledDate requestOverrideCfgValues).1.productList =
      if ctx.currentDateTime.msecs > seasonEndDate.msecs ∨
          requestOverrideCfgValues.lookup "task_repeat_type" = some "0" then
        ctx.GetProducts siteId ProductType.L2AProductTypeId
          (queryStartDate ctx siteId scheduledDate requestOverrideCfgValues seasonStartDate)
          (fromTime_t scheduledDate)
      else
        (ctx.GetProductsByInsertedTime siteId ProductType.L2AProductTypeId
          (queryStartDate ctx siteId scheduledDate requestOverrideCfgValues seasonStartDate)
          (fromTime_t scheduledDate)).filter fun prd =>
            decide ((offsetSeasonStart ctx siteId requestOverrideCfgValues
              seasonStartDate).msecs ≤ prd.created.msecs) &&
            decide (prd.created.msecs < (ctx.addDays seasonEndDate 1).msecs) := by
  have hcv : configValue requestOverrideCfgValues "product_type" = "L3B" := by
    simp [configValue, hL3B]
  have hb : (if (requestOverrideCfgValues.lookup "task_repeat_type").isSome = true then
        if configValue requestOverrideCfgValues "task_repeat_type" = "0" then true else false
      else false) = decide (requestOverrideCfgValues.lookup "task_repeat_type" = some "0") := by
    cases h : requestOverrideCfgValues.lookup "task_repeat_type" with
    | none => simp
    | some v => by_cases hv : v = "0" <;> simp [configValue, h, hv]
  unfold GetProcessingDefinitionImpl
  simp only [hs, Bool.not_true, Bool.false_eq_true, if_false, hlimit, hvalid, hL3B,
    Option.isSome_some, if_true, hcv]
  rw [hb]
  simp only [← offsetSeasonStart.eq_1, ← queryStartDate.eq_1]
  by_cases hc : ctx.currentDateTime.msecs > seasonEndDate.msecs ∨
      requestOverrideCfgValues.lookup "task_repeat_type" = some "0"
  · have hd : (decide (ctx.currentDateTime.msecs > seasonEndDate.msecs) ||
        decide (requestOverrideCfgValues.lookup "task_repeat_type" = some "0")) = true := by
      simpa using hc
    simp only [hd, hc, if_true]
    constructor <;> split <;> rfl
  · have hd : (decide (ctx.currentDateTime.msecs > seasonEndDate.msecs) ||
        decide (requestOverrideCfgValues.lookup "task_repeat_type" = some "0")) = false := by
      simpa using hc
    simp only [hd, hc, if_false, Bool.false_eq_true, List.nil_append, ge_iff_le]
    constructor <;> split <;> rfl

/-- C28. For every scheduling context, site, scheduled date and override map: when the season
bounds cannot be resolved, or the season start is invalid, or the scheduled instant is later
than the season end plus two months, `GetProcessingDefinitionImpl` returns a job description
with `isValid` false, without products and parameters, and makes no query. -/
theorem unusable_season_gives_invalid_definition (ctx : SchedulingContext)
    (siteId scheduledDate : Int) (requestOverrideCfgValues : ConfigMap)
    (h : (ctx.GetSeasonStartEndDates siteId (fromTime_t scheduledDate)
          requestOverrideCfgValues).1 = false ∨
      (ctx.GetSeasonStartEndDates siteId (fromTime_t scheduledDate)
          requestOverrideCfgValues).2.1.isValid = false ∨
      (fromTime_t scheduledDate).msecs >
        (ctx.addMonths (ctx.GetSeasonStartEndDates siteId (fromTime_t scheduledDate)
          requestOverrideCfgValues).2.2 2).msecs) :
    GetProcessingDefinitionImpl ctx siteId scheduledDate requestOverrideCfgValues =
      ({ isValid := false, productList := [], jsonParameters := "" }, []) := by
  rcases hr : ctx.GetSeasonStartEndDates siteId (fromTime_t scheduledDate)
    requestOverrideCfgValues with ⟨success, s, e⟩
  rw [hr] at h
  simp only at h
  unfold GetProcessingDefinitionImpl
  simp only [hr]
  cases success
  · rfl
  · simp only [Bool.not_true, Bool.false_eq_true, if_false]
    by_cases hl : (fromTime_t scheduledDate).msecs > (ctx.addMonths e 2).msecs
    · rw [if_pos hl]
    · rw [if_neg hl]
      rcases h with h | h | h
      · exact absurd h (by decide)
      · simp [h]
      · exact absurd h hl

/-- Witness of C28: a site whose season bounds cannot be resolved. -/
theorem unusable_season_gives_invalid_definition_witness :
    (({ sampleScheduling [] with
        GetSeasonStartEndDates := fun _ _ _ => (false, ⟨false, 0⟩, ⟨false, 0⟩) } :
      SchedulingContext).GetSeasonStartEndDates 1 (fromTime_t 1000)
        [("product_type", "L3B")]).1 = false ∧
    GetProcessingDefinitionImpl
        { sampleScheduling [] with
          GetSeasonStartEndDates := fun _ _ _ => (false, ⟨false, 0⟩, ⟨false, 0⟩) }
        1 1000 [("product_type", "L3B")] =
      ({ isValid := false, productList := [], jsonParameters := "" }, []) :=
  ⟨rfl, unusable_season_gives_invalid_definition _ 1 1000 [("product_type", "L3B")]
    (Or.inl rfl)⟩

/-- C29 (the code departs from the claim). The production interval `-2147483648`, the least
`int`, is a value the configuration can hold: `toInt` returns it. With a season that starts at
the epoch and the scheduled instant 1000 seconds after it, the claim asks for the scheduled
instant less that interval, that is moved on by 2147483648 days, which is later than the
season start. The code negates the interval as an `int` (line 865) before the day count is
widened, and 2147483648 does not fit an `int`: whichever `int` the negation yields, the start
clamped to the season start is not the claimed one; with the two's complement result, the
least value again, the query interval starts at the season start. -/
theorem least_production_interval_start_not_max :
    QString_toInt "-2147483648" = -2147483648 ∧
    ¬ (-2147483648 ≤ -(-2147483648 : Int) ∧ -(-2147483648 : Int) ≤ 2147483647) ∧
    (GetProcessingDefinitionImpl
        (sampleScheduling [("processor.l3b.production_interval", "-2147483648")]) 1 1000
        [("product_type", "L3B")]).2 =
      [CatalogueQuery.GetProductsByInsertedTime 1 ProductType.L2AProductTypeId ⟨true, 0⟩
        ⟨true, 1000000⟩] ∧
    (sampleScheduling []).addDays ⟨true, 0⟩ 0 = ⟨true, 0⟩ ∧
    ((sampleScheduling []).addDays (fromTime_t 1000) (-(-2147483648))).msecs > 0 ∧
    (∀ n : Int, -2147483648 ≤ n → n ≤ 2147483647 →
      max ((sampleScheduling []).addDays (fromTime_t 1000) n).msecs
          ((sampleScheduling []).addDays ⟨true, 0⟩ 0).msecs ≠
        max ((sampleScheduling []).addDays (fromTime_t 1000) (-(-2147483648))).msecs
          ((sampleScheduling []).addDays ⟨true, 0⟩ 0).msecs) := by
  refine ⟨by decide, by decide, by decide, by decide, by decide, ?_⟩
  intro n h1 h2
  have e1 : ((sampleScheduling []).addDays (fromTime_t 1000) n).msecs =
      1000000 + n * 86400000 := by
    simp [sampleScheduling, fromTime_t]
  have e2 : ((sampleScheduling []).addDays (fromTime_t 1000) (-(-2147483648))).msecs =
      1000000 + 2147483648 * 86400000 := by
    simp [sampleScheduling, fromTime_t]
  have e3 : ((sampleScheduling []).addDays ⟨true, 0⟩ 0).msecs = 0 := by
    simp [sampleScheduling]
  rw [e1, e2, e3]
  omega

/-- Away from the least `int` the query interval is as intended. In
`GetProcessingDefinitionImpl`, when the season checks pass and the product type is L3B,
exactly one query is made; the end of its interval is the scheduled instant and, for every
production interval other than the least `int` and every offset (zero and negative values
included), the start of its interval is the later of the scheduled instant moved back by the
production interval in days and the season start moved on by the start season offset in
days. -/
theorem query_interval_start_is_clamped (ctx : SchedulingContext)
    (siteId scheduledDate : Int) (requestOverrideCfgValues : ConfigMap)
    (seasonStartDate seasonEndDate : QDateTime) (productionInterval startSeasonOffset : Int)
    (hs : ctx.GetSeasonStartEndDates siteId (fromTime_t scheduledDate) requestOverrideCfgValues =
      (true, seasonStartDate, seasonEndDate))
    (hlimit : ¬ (fromTime_t scheduledDate).msecs > (ctx.addMonths seasonEndDate 2).msecs)
    (hvalid : seasonStartDate.isValid = true)
    (hL3B : requestOverrideCfgValues.lookup "product_type" = some "L3B")
    (hpi : QString_toInt (configValue
      (ctx.GetConfigurationParameters "processor.l3b." siteId requestOverrideCfgValues)
      "processor.l3b.production_interval") = productionInterval)
    (hoff : QString_toInt (configValue
      (ctx.GetConfigurationParameters "processor.l3b." siteId requestOverrideCfgValues)
      "processor.l3b.start_season_offset") = startSeasonOffset)
    (hmin : productionInterval ≠ -2147483648) :
    ∃ query,
      (GetProcessingDefinitionImpl ctx siteId scheduledDate requestOverrideCfgValues).2 =
        [query] ∧
      query.endDate = fromTime_t scheduledDate ∧
      query.startDate =
        (if (ctx.addDays (fromTime_t scheduledDate) (-productionInterval)).msecs <
            (ctx.addDays seasonStartDate startSeasonOffset).msecs then
          ctx.addDays seasonStartDate startSeasonOffset
        else ctx.addDays (fromTime_t scheduledDate) (-productionInterval)) ∧
      query.startDate.msecs =
        max (ctx.addDays (fromTime_t scheduledDate) (-productionInterval)).msecs
          (ctx.addDays seasonStartDate startSeasonOffset).msecs := by
  obtain ⟨hq, -⟩ := GetProcessingDefinitionImpl_of_checks ctx siteId scheduledDate
    requestOverrideCfgValues seasonStartDate seasonEndDate hs hlimit hvalid hL3B
  have hstart : queryStartDate ctx siteId scheduledDate requestOverrideCfgValues
      seasonStartDate =
      (if (ctx.addDays (fromTime_t scheduledDate) (-productionInterval)).msecs <
          (ctx.addDays seasonStartDate startSeasonOffset).msecs then
        ctx.addDays seasonStartDate startSeasonOffset
      else ctx.addDays (fromTime_t scheduledDate) (-productionInterval)) := by
    unfold queryStartDate offsetSeasonStart
    rw [hpi, hoff]
    simp only [negInt, hmin, if_false]
  have hmax : (queryStartDate ctx siteId scheduledDate requestOverrideCfgValues
      seasonStartDate).msecs =
      max (ctx.addDays (fromTime_t scheduledDate) (-productionInterval)).msecs
        (ctx.addDays seasonStartDate startSeasonOffset).msecs := by
    rw [hstart]
    split
    · rename_i hlt
      rw [max_eq_right (le_of_lt hlt)]
    · rename_i hlt
      rw [max_eq_left (not_lt.mp hlt)]
  refine ⟨_, hq, ?_, ?_, ?_⟩
  · split <;> rfl
  · rw [← hstart]
    split <;> rfl
  · rw [← hmax]
    split <;> rfl

/-- Instance of the clamped query interval: a production interval of 10 days and no offset in the sample
scheduling context; ten days before the scheduled instant is before the season start, so the
interval starts at the season start. -/
theorem query_interval_start_is_clamped_witness :
    QString_toInt (configValue [("processor.l3b.production_interval", "10")]
      "processor.l3b.production_interval") = 10 ∧ (10 : Int) ≠ -2147483648 ∧
    ∃ query,
      (GetProcessingDefinitionImpl
        (sampleScheduling [("processor.l3b.production_interval", "10")]) 1 1000
        [("product_type", "L3B")]).2 = [query] ∧
      query.endDate = ⟨true, 1000000⟩ ∧ query.startDate = ⟨true, 0⟩ := by
  refine ⟨by decide, by decide, ?_⟩
  obtain ⟨query, hq, hend, hstart, -⟩ := query_interval_start_is_clamped
    (sampleScheduling [("processor.l3b.production_interval", "10")]) 1 1000
    [("product_type", "L3B")] ⟨true, 0⟩ ⟨true, 5000000⟩ 10 0 rfl (by decide) rfl rfl
    (by decide) (by decide) (by decide)
  exact ⟨query, hq, hend.trans (by decide), hstart.trans (by decide)⟩

/-- C30 (counterexample). The scheduled instant, 6000 seconds after the epoch, is past the
season end, 5000 seconds after the epoch, and within two months of it; the execution is not
one-shot. With the current time at the epoch the products are fetched by insertion time and
filtered by creation time; with the current time 7000 seconds after the epoch and the same
scheduled instant, season and execution mode, they are fetched with `GetProducts`. -/
theorem product_query_follows_current_time :
    (fromTime_t 6000).msecs > 5000000 ∧
    GetProcessingDefinitionImpl (sampleScheduling []) 1 6000 [("product_type", "L3B")] =
      ({ isValid := true, productList := [⟨3, ⟨true, 0⟩⟩],
          jsonParameters := "\x7b \"monolai\": \"1\"\x7d" },
        [CatalogueQuery.GetProductsByInsertedTime 1 ProductType.L2AProductTypeId
          ⟨true, 6000000⟩ ⟨true, 6000000⟩]) ∧
    GetProcessingDefinitionImpl
        { sampleScheduling [] with currentDateTime := ⟨true, 7000000⟩ } 1 6000
        [("product_type", "L3B")] =
      ({ isValid := true, productList := [⟨1, ⟨true, 0⟩⟩, ⟨2, ⟨true, 100000000⟩⟩],
          jsonParameters := "\x7b \"monolai\": \"1\"\x7d" },
        [CatalogueQuery.GetProducts 1 ProductType.L2AProductTypeId ⟨true, 6000000⟩
          ⟨true, 6000000⟩]) := by
  refine ⟨by decide, by decide, by decide⟩

/-- C30 (amended). In `GetProcessingDefinitionImpl`, when the season checks pass and the
product type is L3B: if the execution mode is one-shot (the override `task_repeat_type` is
`0`) or the current date and time is past the season end, the product list is all L2A
products of the query interval (`GetProducts`); otherwise it is the L2A products fetched by
insertion time in that interval, restricted, order preserved, to those whose creation time is
not before the season start moved by the offset and is before the season end plus one day.
The choice depends only on the current date and time, the season end and the execution
mode. -/
theorem product_list_by_season_progress (ctx : SchedulingContext)
    (siteId scheduledDate : Int) (requestOverrideCfgValues : ConfigMap)
    (seasonStartDate seasonEndDate : QDateTime)
    (hs : ctx.GetSeasonStartEndDates siteId (fromTime_t scheduledDate) requestOverrideCfgValues =
      (true, seasonStartDate, seasonEndDate))
    (hlimit : ¬ (fromTime_t scheduledDate).msecs > (ctx.addMonths seasonEndDate 2).msecs)
    (hvalid : seasonStartDate.isValid = true)
    (hL3B : requestOverrideCfgValues.lookup "product_type" = some "L3B") :
    ((ctx.currentDateTime.msecs > seasonEndDate.msecs ∨
        requestOverrideCfgValues.lookup "task_repeat_type" = some "0") →
      (GetProcessingDefinitionImpl ctx siteId scheduledDate requestOverrideCfgValues).2 =
        [CatalogueQuery.GetProducts siteId ProductType.L2AProductTypeId
          (queryStartDate ctx siteId scheduledDate requestOverrideCfgValues seasonStartDate)
          (fromTime_t scheduledDate)] ∧
      (GetProcessingDefinitionImpl ctx siteId scheduledDate
          requestOverrideCfgValues).1.productList =
        ctx.GetProducts siteId ProductType.L2AProductTypeId
          (queryStartDate ctx siteId scheduledDate requestOverrideCfgValues seasonStartDate)
          (fromTime_t scheduledDate)) ∧
    (¬ (ctx.currentDateTime.msecs > seasonEndDate.msecs ∨
        requestOverrideCfgValues.lookup "task_repeat_type" = some "0") →
      (GetProcessingDefinitionImpl ctx siteId scheduledDate requestOverrideCfgValues).2 =
        [CatalogueQuery.GetProductsByInsertedTime siteId ProductType.L2AProductTypeId
          (queryStartDate ctx siteId scheduledDate requestOverrideCfgValues seasonStartDate)
          (fromTime_t scheduledDate)] ∧
      (GetProcessingDefinitionImpl ctx siteId scheduledDate
          requestOverrideCfgValues).1.productList =
        (ctx.GetProductsByInsertedTime siteId ProductType.L2AProductTypeId
          (queryStartDate ctx siteId scheduledDate requestOverrideCfgValues seasonStartDate)
          (fromTime_t scheduledDate)).filter fun prd =>
            decide ((ctx.addDays seasonStartDate (QString_toInt (configValue
              (ctx.GetConfigurationParameters "processor.l3b." siteId
                requestOverrideCfgValues)
              "processor.l3b.start_season_offset"))).msecs ≤ prd.created.msecs) &&
            decide (prd.created.msecs < (ctx.addDays seasonEndDate 1).msecs)) := by
  obtain ⟨hq, hp⟩ := GetProcessingDefinitionImpl_of_checks ctx siteId scheduledDate
    requestOverrideCfgValues seasonStartDate seasonEndDate hs hlimit hvalid hL3B
  constructor
  · intro hc
    rw [hq, hp, if_pos hc, if_pos hc]
    exact ⟨rfl, rfl⟩
  · intro hc
    rw [hq, hp, if_neg hc, if_neg hc]
    exact ⟨rfl, rfl⟩

/-- Witness of C30 (amended): the sample scheduling context with the scheduled instant 6000
seconds after the epoch; the season is in progress at the current time, so the products are
fetched by insertion time and the one created outside the season is dropped. -/
theorem product_list_by_season_progress_witness :
    (sampleScheduling []).GetSeasonStartEndDates 1 (fromTime_t 6000) [("product_type", "L3B")] =
      (true, ⟨true, 0⟩, ⟨true, 5000000⟩) ∧
    (GetProcessingDefinitionImpl (sampleScheduling []) 1 6000
      [("product_type", "L3B")]).1.productList = [⟨3, ⟨true, 0⟩⟩] := by
  refine ⟨rfl, ?_⟩
  obtain ⟨-, h2⟩ := product_list_by_season_progress (sampleScheduling []) 1 6000
    [("product_type", "L3B")] ⟨true, 0⟩ ⟨true, 5000000⟩ rfl (by decide) rfl rfl
  exact (h2 (by decide)).2.trans (by decide)

theorem GetProcessingDefinitionImpl_not_L3B (ctx : SchedulingContext)
    (siteId scheduledDate : Int) (requestOverrideCfgValues : ConfigMap)
    (h : requestOverrideCfgValues.lookup "product_type" ≠ some "L3B") :
    (GetProcessingDefinitionImpl ctx siteId scheduledDate requestOverrideCfgValues).1.isValid =
      false := by
  rcases hr : ctx.GetSeasonStartEndDates siteId (fromTime_t scheduledDate)
    requestOverrideCfgValues with ⟨success, s, e⟩
  unfold GetProcessingDefinitionImpl
  simp only [hr]
  cases success
  · rfl
  · simp only [Bool.not_true, Bool.false_eq_true, if_false]
    by_cases hl : (fromTime_t scheduledDate).msecs > (ctx.addMonths e 2).msecs
    · rw [if_pos hl]
    · rw [if_neg hl]
      cases hv : s.isValid
      · simp
      · simp only [Bool.not_true, Bool.false_eq_true, if_false]
        cases hp : requestOverrideCfgValues.lookup "product_type" with
        | none => simp
        | some v =>
          have hne : v ≠ "L3B" := fun hv2 => h (by rw [hp, hv2])
          have hcv : configValue requestOverrideCfgValues "product_type" = v := by
            simp [configValue, hp]
          simp [hcv, hne]

theorem GetProcessingDefinitionImpl_L3B (ctx : SchedulingContext)
    (siteId scheduledDate : Int) (requestOverrideCfgValues : ConfigMap)
    (seasonStartDate seasonEndDate : QDateTime)
    (hs : ctx.GetSeasonStartEndDates siteId (fromTime_t scheduledDate) requestOverrideCfgValues =
      (true, seasonStartDate, seasonEndDate))
    (hlimit : ¬ (fromTime_t scheduledDate).msecs > (ctx.addMonths seasonEndDate 2).msecs)
    (hvalid : seasonStartDate.isValid = true)
    (hL3B : requestOverrideCfgValues.lookup "product_type" = some "L3B") :
    (GetProcessingDefinitionImpl ctx siteId scheduledDate
        requestOverrideCfgValues).1.jsonParameters = "\x7b \"monolai\": \"1\"\x7d" ∧
    ((GetProcessingDefinitionImpl ctx siteId scheduledDate
        requestOverrideCfgValues).1.isValid = true ↔
      (QString_toInt (configValue
          (ctx.GetConfigurationParameters "processor.l3b." siteId requestOverrideCfgValues)
          "processor.l3b.sched_wait_proc_inputs") = 0 ∨
        (GetProcessingDefinitionImpl ctx siteId scheduledDate
          requestOverrideCfgValues).1.productList ≠ [])) := by
  have hcv : configValue requestOverrideCfgValues "product_type" = "L3B" := by
    simp [configValue, hL3B]
  unfold GetProcessingDefinitionImpl
  simp only [hs, Bool.not_true, Bool.false_eq_true, if_false, hlimit, hvalid, hL3B,
    Option.isSome_some, if_true, hcv]
  simp only [← offsetSeasonStart.eq_1, ← queryStartDate.eq_1]
  generalize QString_toInt (configValue
    (ctx.GetConfigurationParameters "processor.l3b." siteId requestOverrideCfgValues)
    "processor.l3b.sched_wait_proc_inputs") = w
  by_cases hc : (decide (ctx.currentDateTime.msecs > seasonEndDate.msecs) ||
      (if (requestOverrideCfgValues.lookup "task_repeat_type").isSome = true then
        if configValue requestOverrideCfgValues "task_repeat_type" = "0" then true else false
      else false)) = true
  · simp only [hc, if_true]
    generalize ctx.GetProducts siteId ProductType.L2AProductTypeId
      (queryStartDate ctx siteId scheduledDate requestOverrideCfgValues seasonStartDate)
      (fromTime_t scheduledDate) = L
    by_cases hw : w = 0
    · simp [hw]
    · cases L <;> simp [hw]
  · simp only [hc, if_false, Bool.false_eq_true, List.nil_append]
    generalize (ctx.GetProductsByInsertedTime siteId ProductType.L2AProductTypeId
      (queryStartDate ctx siteId scheduledDate requestOverrideCfgValues seasonStartDate)
      (fromTime_t scheduledDate)).filter _ = L
    by_cases hw : w = 0
    · simp [hw]
    · cases L <;> simp [hw]

theorem GetProcessingDefinitionImpl_unusable (ctx : SchedulingContext)
    (siteId scheduledDate : Int) (requestOverrideCfgValues : ConfigMap)
    (seasonStartDate seasonEndDate : QDateTime) (success : Bool)
    (hs : ctx.GetSeasonStartEndDates siteId (fromTime_t scheduledDate) requestOverrideCfgValues =
      (success, seasonStartDate, seasonEndDate))
    (h : success = false ∨ seasonStartDate.isValid = false ∨
      (fromTime_t scheduledDate).msecs > (ctx.addMonths seasonEndDate 2).msecs) :
    (GetProcessingDefinitionImpl ctx siteId scheduledDate requestOverrideCfgValues).1.isValid =
      false := by
  unfold GetProcessingDefinitionImpl
  simp only [hs]
  cases success
  · rfl
  · simp only [Bool.not_true, Bool.false_eq_true, if_false]
    by_cases hl : (fromTime_t scheduledDate).msecs > (ctx.addMonths seasonEndDate 2).msecs
    · rw [if_pos hl]
    · rw [if_neg hl]
      rcases h with h | h | h
      · exact absurd h (by decide)
      · simp [h]
      · exact absurd h hl

/-- C31. When the season bounds are resolved, the season start is valid and the scheduled
instant is not later than the season end plus two months, `GetProcessingDefinitionImpl`
returns `isValid` true iff the overrides hold `product_type` equal to `L3B` and either waiting
for inputs is not configured (`processor.l3b.sched_wait_proc_inputs` reads as 0) or the
product list is not empty. For all inputs, a description that is valid has the parameters
`{ "monolai": "1"}`, the text of the JSON object with the one member `monolai` = `"1"`. In
the sample scheduling context the description is valid and has these parameters. -/
theorem valid_definition_needs_l3b_and_inputs :
    (∀ (ctx : SchedulingContext) (siteId scheduledDate : Int)
        (requestOverrideCfgValues : ConfigMap) (seasonStartDate seasonEndDate : QDateTime),
      ctx.GetSeasonStartEndDates siteId (fromTime_t scheduledDate) requestOverrideCfgValues =
        (true, seasonStartDate, seasonEndDate) →
      ¬ (fromTime_t scheduledDate).msecs > (ctx.addMonths seasonEndDate 2).msecs →
      seasonStartDate.isValid = true →
      ((GetProcessingDefinitionImpl ctx siteId scheduledDate
          requestOverrideCfgValues).1.isValid = true ↔
        requestOverrideCfgValues.lookup "product_type" = some "L3B" ∧
        (QString_toInt (configValue
            (ctx.GetConfigurationParameters "processor.l3b." siteId requestOverrideCfgValues)
            "processor.l3b.sched_wait_proc_inputs") = 0 ∨
          (GetProcessingDefinitionImpl ctx siteId scheduledDate
            requestOverrideCfgValues).1.productList ≠ []))) ∧
    (∀ (ctx : SchedulingContext) (siteId scheduledDate : Int)
        (requestOverrideCfgValues : ConfigMap),
      (GetProcessingDefinitionImpl ctx siteId scheduledDate
        requestOverrideCfgValues).1.isValid = true →
      (GetProcessingDefinitionImpl ctx siteId scheduledDate
        requestOverrideCfgValues).1.jsonParameters = "\x7b \"monolai\": \"1\"\x7d") ∧
    String.mk (("\x7b \"monolai\": \"1\"\x7d" : String).data.filter (fun ch => ch ≠ ' ')) =
      "\x7b\"monolai\":\"1\"\x7d" ∧
    (GetProcessingDefinitionImpl (sampleScheduling []) 1 6000
      [("product_type", "L3B")]).1.isValid = true ∧
    (GetProcessingDefinitionImpl
      (sampleScheduling [("processor.l3b.sched_wait_proc_inputs", "1")]) 1 6000
      [("product_type", "L2A")]).1.isValid = false ∧
    (GetProcessingDefinitionImpl
      { sampleScheduling [("processor.l3b.sched_wait_proc_inputs", "1")] with
        GetProductsByInsertedTime := fun _ _ _ _ => [] } 1 6000
      [("product_type", "L3B")]).1.isValid = false := by
  refine ⟨?_, ?_, by decide, by decide, by decide, by decide⟩
  · intro ctx siteId scheduledDate requestOverrideCfgValues s e hs hlimit hvalid
    by_cases hL : requestOverrideCfgValues.lookup "product_type" = some "L3B"
    · obtain ⟨-, hiff⟩ := GetProcessingDefinitionImpl_L3B ctx siteId scheduledDate
        requestOverrideCfgValues s e hs hlimit hvalid hL
      rw [hiff]
      exact ⟨fun h => ⟨hL, h⟩, fun h => h.2⟩
    · rw [GetProcessingDefinitionImpl_not_L3B ctx siteId scheduledDate
        requestOverrideCfgValues hL]
      exact ⟨fun h => absurd h (by decide), fun h => absurd h.1 hL⟩
  · intro ctx siteId scheduledDate requestOverrideCfgValues hv
    rcases hr : ctx.GetSeasonStartEndDates siteId (fromTime_t scheduledDate)
      requestOverrideCfgValues with ⟨success, s, e⟩
    by_cases hL : requestOverrideCfgValues.lookup "product_type" = some "L3B"
    · by_cases hbad : success = false ∨ s.isValid = false ∨
          (fromTime_t scheduledDate).msecs > (ctx.addMonths e 2).msecs
      · rw [GetProcessingDefinitionImpl_unusable ctx siteId scheduledDate
          requestOverrideCfgValues s e success hr hbad] at hv
        exact absurd hv (by decide)
      · simp only [not_or, Bool.not_eq_false] at hbad
        obtain ⟨h1, h2, h3⟩ := hbad
        subst h1
        exact (GetProcessingDefinitionImpl_L3B ctx siteId scheduledDate
          requestOverrideCfgValues s e hr h3 h2 hL).1
    · rw [GetProcessingDefinitionImpl_not_L3B ctx siteId scheduledDate
        requestOverrideCfgValues hL] at hv
      exact absurd hv (by decide)

theorem findSatId_eq_find (ctx : CompletionContext) (tiles : List String) :
    findSatId ctx tiles SatelliteIdType.SATELLITE_ID_TYPE_UNKNOWN =
      ((tiles.map ctx.GetSatIdForTile).find?
        (fun s => decide (s ≠ SatelliteIdType.SATELLITE_ID_TYPE_UNKNOWN))).getD
        SatelliteIdType.SATELLITE_ID_TYPE_UNKNOWN := by
  induction tiles with
  | nil => rfl
  | cons t rest ih =>
    by_cases ht : ctx.GetSatIdForTile t = SatelliteIdType.SATELLITE_ID_TYPE_UNKNOWN
    · simp only [findSatId, if_true, ht, ne_eq, not_true_eq_false, if_false, ih, List.map_cons,
        List.find?_cons, decide_False]
    · simp only [findSatId, if_true, ne_eq, ht, not_false_eq_true, List.map_cons,
        List.find?_cons, decide_True, Option.getD_some]

theorem findSatId_first_known (ctx : CompletionContext) (pre post : List String) (t : String)
    (hpre : ∀ x ∈ pre, ctx.GetSatIdForTile x = SatelliteIdType.SATELLITE_ID_TYPE_UNKNOWN)
    (ht : ctx.GetSatIdForTile t ≠ SatelliteIdType.SATELLITE_ID_TYPE_UNKNOWN) :
    findSatId ctx (pre ++ t :: post) SatelliteIdType.SATELLITE_ID_TYPE_UNKNOWN =
      ctx.GetSatIdForTile t := by
  induction pre with
  | nil => simp only [List.nil_append, findSatId, if_true, ne_eq, ht, not_false_eq_true]
  | cons x pre ih =>
    have hx := hpre x (List.mem_cons_self _ _)
    simp only [List.cons_append, findSatId, if_true, hx, ne_eq, not_true_eq_false, if_false]
    exact ih (fun y hy => hpre y (List.mem_cons_of_mem _ hy))

theorem findSatId_unknown_iff (ctx : CompletionContext) (tiles : List String) :
    findSatId ctx tiles SatelliteIdType.SATELLITE_ID_TYPE_UNKNOWN =
        SatelliteIdType.SATELLITE_ID_TYPE_UNKNOWN ↔
      ∀ t ∈ tiles, ctx.GetSatIdForTile t = SatelliteIdType.SATELLITE_ID_TYPE_UNKNOWN := by
  induction tiles with
  | nil => simp [findSatId]
  | cons t rest ih =>
    by_cases ht : ctx.GetSatIdForTile t = SatelliteIdType.SATELLITE_ID_TYPE_UNKNOWN
    · simp only [findSatId, if_true, ht, ne_eq, not_true_eq_false, if_false, ih, List.mem_cons,
        forall_eq_or_imp, true_and]
    · simp only [findSatId, if_true, ne_eq, ht, not_false_eq_true, List.mem_cons,
        forall_eq_or_imp, false_and]

/-- C32. For an event of module `lai-processor-product-formatter` with a non-empty product
name and a valid product folder, `HandleTaskFinishedImpl` passes one and the same satellite
id to `InsertProduct` and to `SubmitL3CJobForL3BProduct`: the satellite of the first tile of
the product, in the order of its tiles, whose satellite is known. Tiles of unknown
satellite before that tile are passed over and the tiles after it do not matter; the id is
`unknown` iff no tile of the product has a known satellite. -/
theorem satellite_of_first_known_tile (ctx : CompletionContext) (event : TaskFinishedEvent)
    (h : event.module = "lai-processor-product-formatter")
    (hname : ctx.GetProductFormatterProductName ≠ "")
    (hfolder : ctx.IsValidHighLevelProduct ctx.GetProductFormatterOutputProductPath = true) :
    ∃ product,
      HandleTaskFinishedImpl ctx event =
        ContextCall.InsertProduct product ::
          SubmitL3CJobForL3BProduct ctx event product.satelliteId
            ctx.GetProductFormatterProductName ∧
      product.tiles =
        ctx.GetTileIdsFromHighLevelProduct ctx.GetProductFormatterOutputProductPath ∧
      (∀ pre t post, product.tiles = pre ++ t :: post →
        (∀ x ∈ pre, ctx.GetSatIdForTile x = SatelliteIdType.SATELLITE_ID_TYPE_UNKNOWN) →
        ctx.GetSatIdForTile t ≠ SatelliteIdType.SATELLITE_ID_TYPE_UNKNOWN →
        product.satelliteId = ctx.GetSatIdForTile t) ∧
      (product.satelliteId = SatelliteIdType.SATELLITE_ID_TYPE_UNKNOWN ↔
        ∀ t ∈ product.tiles,
          ctx.GetSatIdForTile t = SatelliteIdType.SATELLITE_ID_TYPE_UNKNOWN) ∧
      product.satelliteId =
        ((product.tiles.map ctx.GetSatIdForTile).find?
          (fun s => decide (s ≠ SatelliteIdType.SATELLITE_ID_TYPE_UNKNOWN))).getD
          SatelliteIdType.SATELLITE_ID_TYPE_UNKNOWN := by
  have hne : event.module ≠ "lai-processor-end-of-job" := by
    rw [h]; decide
  refine ⟨{ productType := ProductType.L3BProductTypeId
            processorId := event.processorId
            satelliteId := findSatId ctx
              (ctx.GetTileIdsFromHighLevelProduct ctx.GetProductFormatterOutputProductPath)
              SatelliteIdType.SATELLITE_ID_TYPE_UNKNOWN
            siteId := event.siteId
            jobId := event.jobId
            fullPath := ctx.GetProductFormatterOutputProductPath
            createdTimestamp := ctx.maxDate ctx.GetProductFormatterProductName
            name := ctx.GetProductFormatterProductName
            quicklookImage := ctx.GetProductFormatterQuicklook
            footprint := ctx.GetProductFormatterFootprint
            tiles := ctx.GetTileIdsFromHighLevelProduct
              ctx.GetProductFormatterOutputProductPath }, ?_, rfl, ?_, ?_, ?_⟩
  · unfold HandleTaskFinishedImpl
    simp [h, hname, hfolder]
  · intro pre t post htiles hpre ht
    simp only at htiles ⊢
    rw [htiles]
    exact findSatId_first_known ctx pre post t hpre ht
  · exact findSatId_unknown_iff ctx _
  · exact findSatId_eq_find ctx _

/-- Witness of C32: a product of three tiles of which the first has no known satellite, the
second is a Sentinel-2 tile and the third a tile of another satellite. -/
theorem satellite_of_first_known_tile_witness :
    ((⟨"lai-processor-product-formatter", 7, 3, 1⟩ : TaskFinishedEvent).module =
      "lai-processor-product-formatter") ∧
    ∃ product,
      ContextCall.InsertProduct product ∈
        HandleTaskFinishedImpl
          { sampleCompletion with
            GetTileIdsFromHighLevelProduct := fun _ => ["X", "31UDP", "L8"]
            GetSatIdForTile := fun t =>
              if t = "X" then SatelliteIdType.SATELLITE_ID_TYPE_UNKNOWN
              else if t = "L8" then SatelliteIdType.other
              else SatelliteIdType.SATELLITE_ID_TYPE_S2 }
          ⟨"lai-processor-product-formatter", 7, 3, 1⟩ ∧
      product.tiles = ["X", "31UDP", "L8"] ∧
      product.satelliteId = SatelliteIdType.SATELLITE_ID_TYPE_S2 := by
  refine ⟨rfl, ?_⟩
  obtain ⟨product, h1, h2, -, -, h5⟩ := satellite_of_first_known_tile
    { sampleCompletion with
      GetTileIdsFromHighLevelProduct := fun _ => ["X", "31UDP", "L8"]
      GetSatIdForTile := fun t =>
        if t = "X" then SatelliteIdType.SATELLITE_ID_TYPE_UNKNOWN
        else if t = "L8" then SatelliteIdType.other
        else SatelliteIdType.SATELLITE_ID_TYPE_S2 }
    ⟨"lai-processor-product-formatter", 7, 3, 1⟩ rfl (by decide) rfl
  rw [h2] at h5
  exact ⟨product, by rw [h1]; exact List.mem_cons_self _ _, h2, h5.trans (by decide)⟩

/-- C33 (the code departs from the claim). The builder and the binder read all four produce
flags from the parameter `genlai`, whereas `HandleJobSubmittedImpl` validates the flags read
from `genndvi`, `genlai`, `genfapar` and `genfcover`. For a job whose parameters hold only
`genlai` = `"1"` and a configuration that sets no produce flag, the handler resolves LAI alone,
yet the builder's four flags are all true and the submitted product has the NDVI, FAPAR and
FCOVER tasks too. For a job whose parameters hold only `genndvi` = `"1"` the handler resolves
NDVI and accepts the job, yet the builder's four flags are all false and the submitted
product has no indicator task at all. -/
theorem builder_flags_all_read_genlai :
    (∀ (parameters : QJsonObject) (configParameters : ConfigMap) (defVal : Bool),
      (productFlags parameters configParameters defVal).bGenNdvi =
        IsParamOrConfigKeySet parameters configParameters "genlai"
          "processor.l3b.lai.produce_ndvi" defVal) ∧
    (IsParamOrConfigKeySet ⟨[("genlai", .string "1")]⟩ [("processor.l3b.mono_date_lai", "1")]
        "genndvi" "processor.l3b.lai.produce_ndvi" true = false ∧
      IsParamOrConfigKeySet ⟨[("genlai", .string "1")]⟩ [("processor.l3b.mono_date_lai", "1")]
        "genlai" "processor.l3b.lai.produce_lai" true = true ∧
      IsParamOrConfigKeySet ⟨[("genlai", .string "1")]⟩ [("processor.l3b.mono_date_lai", "1")]
        "genfapar" "processor.l3b.lai.produce_fapar" true = false ∧
      IsParamOrConfigKeySet ⟨[("genlai", .string "1")]⟩ [("processor.l3b.mono_date_lai", "1")]
        "genfcover" "processor.l3b.lai.produce_fcover" true = false) ∧
    productFlags ⟨[("genlai", .string "1")]⟩ [("processor.l3b.mono_date_lai", "1")] true =
      ⟨true, true, true, true⟩ ∧
    (∃ run tasks rest,
      HandleJobSubmittedImpl
          { sampleSubmission with
            configParameters := [("processor.l3b.mono_date_lai", "1")]
            dateGroupedInputProductToTilesMap := [(1, ["T30TYT"])] }
          ⟨7, 3, 1, ⟨[("genlai", .string "1")]⟩⟩ = some run ∧
      run.raised = none ∧
      run.calls = ContextCall.SubmitTasks 7 tasks :: rest ∧
      tasks.map (fun t => t.moduleName) =
        ["lai-processor-mask-flags", "lai-processor-ndvi-extractor", "lai-create-angles",
          "gdal_translate", "gdalbuildvrt", "gdal_translate", "lai-processor",
          "lai-quantify-image", "gen-domain-flags", "fapar-processor", "fapar-quantify-image",
          "gen-domain-flags", "fcover-processor", "fcover-quantify-image", "gen-domain-flags",
          "gen-domain-flags", "lai-processor-product-formatter"]) ∧
    IsParamOrConfigKeySet ⟨[("genndvi", .string "1")]⟩ [("processor.l3b.mono_date_lai", "1")]
      "genndvi" "processor.l3b.lai.produce_ndvi" true = true ∧
    productFlags ⟨[("genndvi", .string "1")]⟩ [("processor.l3b.mono_date_lai", "1")] true =
      ⟨false, false, false, false⟩ ∧
    (∃ run tasks rest,
      HandleJobSubmittedImpl
          { sampleSubmission with
            configParameters := [("processor.l3b.mono_date_lai", "1")]
            dateGroupedInputProductToTilesMap := [(1, ["T30TYT"])] }
          ⟨7, 3, 1, ⟨[("genndvi", .string "1")]⟩⟩ = some run ∧
      run.raised = none ∧
      run.calls = ContextCall.SubmitTasks 7 tasks :: rest ∧
      tasks.map (fun t => t.moduleName) =
        ["lai-processor-mask-flags", "gen-domain-flags", "lai-processor-product-formatter"]) :=
  ⟨fun _ _ _ => rfl, by decide, by decide, ⟨_, _, _, rfl, rfl, rfl, rfl⟩, by decide, by decide,
    ⟨_, _, _, rfl, rfl, rfl, rfl⟩⟩

/-- C34 (the code departs from the claim). One tile with the four flags set and cleanup on,
built from the empty list: pairing the module name of every task with the name of the step
that `GetStepsForMonodateLai` binds to it, the task with module `<ind>-quantify-image` gets
the step `Generate<IND>InDomainQualityFlags` and the following task with module
`gen-domain-flags` gets the step `Quantify<IND>Image`, for each of the three indicators; the
`QuantifyLAIImage` step, whose arguments hold the path of `LAI_mono_date_img_16.tif`, is bound
to the task at index 8, whose module is `gen-domain-flags`. -/
theorem quantify_and_domain_flags_steps_swapped :
    ∃ l steps q,
      CreateTasksForNewProduct ⟨true, true, true, true⟩ [] [⟨"tile.xml"⟩] true = some l ∧
      GetStepsForMonodateLai sampleContext ⟨true, true, true, true⟩ [⟨"tile.xml"⟩] l true 0 =
        some steps ∧
      steps.map (fun s => ((l[s.task]?).map (fun t => t.moduleName), s.stepName)) =
        [(some "lai-processor-mask-flags", "GenerateLaiMonoDateMaskFlags"),
          (some "lai-processor-ndvi-extractor", "NdviRviExtractionNew"),
          (some "lai-create-angles", "CreateAnglesRaster"),
          (some "gdal_translate", "gdal_translate"),
          (some "gdalbuildvrt", "gdalbuildvrt"),
          (some "gdal_translate", "gdal_translate"),
          (some "lai-processor", "BVLaiNewProcessorLAI"),
          (some "lai-quantify-image", "GenerateLAIInDomainQualityFlags"),
          (some "gen-domain-flags", "QuantifyLAIImage"),
          (some "fapar-processor", "BVLaiNewProcessorFAPAR"),
          (some "fapar-quantify-image", "GenerateFAPARInDomainQualityFlags"),
          (some "gen-domain-flags", "QuantifyFAPARImage"),
          (some "fcover-processor", "BVLaiNewProcessorFCOVER"),
          (some "fcover-quantify-image", "GenerateFCOVERInDomainQualityFlags"),
          (some "gen-domain-flags", "QuantifyFCOVERImage"),
          (some "gen-domain-flags", "GenerateInDomainQualityFlags"),
          (some "lai-processor-product-formatter", "ProductFormatter"),
          (some "files-remover", "CleanupTemporaryFiles")] ∧
      steps[8]? = some q ∧ q.stepName = "QuantifyLAIImage" ∧ q.task = 8 ∧
      sampleContext.GetFilePath q.task "LAI_mono_date_img_16.tif" ∈ q.arguments ∧
      (l[q.task]?).map (fun t => t.moduleName) = some "gen-domain-flags" :=
  ⟨_, _, _, rfl, rfl, by decide, rfl, rfl, rfl, by decide, rfl⟩

theorem getElem?_builtList_mask (g : ProduceFlags) (init : List TaskToSubmit) (n : Nat)
    (rm : Bool) (i : Nat) (hi : i < n) :
    (builtList g init n rm)[init.length + i * tasksPerTile g]? =
      some ⟨"lai-processor-mask-flags",
        if 0 < init.length then [init.length + i * tasksPerTile g - 1] else []⟩ := by
  have hpt : 0 < tasksPerTile g := by unfold tasksPerTile; omega
  have := getElem?_builtList_tile g init n rm i 0 hi hpt
  rw [Nat.add_zero] at this
  rw [this, head_wiredTile]
  by_cases h : 0 < init.length <;> simp [h]

theorem getElem?_builtList_final (g : ProduceFlags) (init : List TaskToSubmit) (n : Nat)
    (rm : Bool) :
    (builtList g init n rm)[(builtList g init n rm).length - 1]? =
      some (if rm then ⟨"files-remover", [(builtList g init n rm).length - 2]⟩
        else ⟨"lai-processor-product-formatter", formatterRefs g init.length n⟩) := by
  rw [length_builtList]
  cases rm
  · have e : init.length + n * tasksPerTile g + 1 + false.toNat - 1 =
        init.length + n * tasksPerTile g := by simp
    rw [e, getElem?_builtList_formatter]; rfl
  · have e : init.length + n * tasksPerTile g + 1 + true.toNat - 1 =
        init.length + n * tasksPerTile g + 1 := by simp
    have e2 : init.length + n * tasksPerTile g + 1 + true.toNat - 2 =
        init.length + n * tasksPerTile g := by simp
    rw [e, e2, getElem?_builtList_remover]; rfl

/-- C35. In `CreateTasksForNewProduct` the mask-flags task of every tile, whatever the
position of the tile in the call, has exactly one parent, the task at the index just before
it, when the task list was non-empty at the start of the call, and has no parent when the
list was empty at the start. Hence, when `HandleProduct` builds a product on the list that an
earlier `HandleProduct` call left, the first mask-flags task of the later product has as its
only parent the final task of the earlier product: its `files-remover` task when cleanup is
on, its `lai-processor-product-formatter` task otherwise. -/
theorem mask_flags_parent_by_initial_list :
    (∀ (g : ProduceFlags) (init : List TaskToSubmit) (tiles : List TileInfos) (rm : Bool),
      ∃ l, CreateTasksForNewProduct g init tiles rm = some l ∧
        ∀ i, i < tiles.length →
          l[init.length + i * tasksPerTile g]? =
            some ⟨"lai-processor-mask-flags",
              if 0 < init.length then [init.length + i * tasksPerTile g - 1] else []⟩) ∧
    (∀ (ctx : SubmissionContext) (event : JobSubmittedEvent) (tiles1 tiles2 : List TileInfos)
        (l0 : List TaskToSubmit), tiles1 ≠ [] → tiles2 ≠ [] →
      ∃ l1 calls1 l2 calls2 final,
        HandleProduct ctx event tiles1 l0 = some (l1, calls1) ∧
        HandleProduct ctx event tiles2 l1 = some (l2, calls2) ∧
        l2[l1.length]? = some ⟨"lai-processor-mask-flags", [l1.length - 1]⟩ ∧
        l1.getLast? = some final ∧
        l2[l1.length - 1]? = some final ∧
        final.moduleName =
          (if ctx.bRemoveTempFiles then "files-remover"
            else "lai-processor-product-formatter")) := by
  constructor
  · intro g init tiles rm
    exact ⟨_, CreateTasksForNewProduct_eq g init tiles rm,
      fun i hi => getElem?_builtList_mask g init tiles.length rm i hi⟩
  · intro ctx event tiles1 tiles2 l0 h1 h2
    set g := productFlags event.parameters ctx.configParameters ctx.defVal with hg
    set l1 := builtList g l0 tiles1.length ctx.bRemoveTempFiles with hl1
    have hlen : 0 < l1.length := by rw [hl1, length_builtList]; omega
    have hfin := getElem?_builtList_final g l0 tiles1.length ctx.bRemoveTempFiles
    rw [← hl1] at hfin
    refine ⟨l1, _, _, _,
      (if ctx.bRemoveTempFiles then ⟨"files-remover", [l1.length - 2]⟩
        else ⟨"lai-processor-product-formatter", formatterRefs g l0.length tiles1.length⟩),
      HandleProduct_eq ctx event tiles1 l0 h1,
      HandleProduct_eq ctx event tiles2 l1 h2, ?_, ?_, ?_, ?_⟩
    · have := getElem?_builtList_mask g l1 tiles2.length ctx.bRemoveTempFiles 0
        (List.length_pos.mpr h2)
      simp only [Nat.zero_mul, Nat.add_zero] at this
      rw [← hg, this]
      simp [hlen]
    · rw [List.getLast?_eq_getElem?, hfin]
    · rw [← hg, getElem?_builtList_init g l1 tiles2.length ctx.bRemoveTempFiles _ (by omega),
        hfin]
    · cases ctx.bRemoveTempFiles <;> rfl

theorem take_builtList (g : ProduceFlags) (init : List TaskToSubmit) (n : Nat) (rm : Bool) :
    (builtList g init n rm).take init.length = init := by
  unfold builtList
  simp

/-- C36. `CreateTasksForNewProduct` leaves every task that was already in the list unchanged:
for every initial list, the first tasks of the resulting list, as many as the initial list
holds, are the tasks of the initial list, with the same module names and the same parent
lists at the same indices, and every index at which the resulting list holds a task that the
initial list does not hold there is at or after the initial length. -/
theorem existing_tasks_unchanged (g : ProduceFlags) (init : List TaskToSubmit)
    (tiles : List TileInfos) (rm : Bool) :
    ∃ l, CreateTasksForNewProduct g init tiles rm = some l ∧
      init.length ≤ l.length ∧
      l.take init.length = init ∧
      (∀ j, j < init.length → l[j]? = init[j]?) ∧
      (∀ j t, j < init.length → init[j]? = some t →
        (l[j]?).map (fun u => u.moduleName) = some t.moduleName ∧
        (l[j]?).map (fun u => u.parentTasks) = some t.parentTasks) ∧
      (∀ j, l[j]? ≠ init[j]? → init.length ≤ j) := by
  refine ⟨_, CreateTasksForNewProduct_eq g init tiles rm, ?_, take_builtList g init _ rm,
    fun j hj => getElem?_builtList_init g init _ rm j hj, ?_, ?_⟩
  · rw [length_builtList]; omega
  · intro j t hj ht
    rw [getElem?_builtList_init g init _ rm j hj, ht]
    exact ⟨rfl, rfl⟩
  · intro j hne
    by_contra hlt
    exact hne (getElem?_builtList_init g init _ rm j (by omega))

/-- C37. For every initial task list, flag combination, cleanup flag and non-empty tile list:
the wiring loop of `CreateTasksForNewProduct` (with `CreateAnglesTasks` and
`CreateBiophysicalIndicatorTasks`), run on the list that the appending pass left, succeeds,
that is, every subscript it evaluates is within the list, and leaves its cursor on the
product-formatter task, right after the tasks of the tiles; the whole function succeeds and
the last index it touches (the formatter, or the files-remover when cleanup is on) is the last
index of the list. `GetStepsForMonodateLai`, started at the size the list had before the
call, succeeds as well (every subscript of the task list, and the subscript `[0]` of the tile
results in `GetLaiMonoProductFormatterArgs`, is in bounds), its final index equals the size of
the list, and the tasks of its steps are exactly the indices from the initial size up to the
size of the list, each once and in order. -/
theorem passes_stay_in_bounds (ctx : BinderContext) (g : ProduceFlags)
    (init : List TaskToSubmit) (tiles : List TileInfos) (rm : Bool) (h : tiles ≠ []) :
    ∃ lw refs l steps,
      wireAllTiles g init.length tiles.length
          ((let l := appendAllTiles g tiles.length init ++ [⟨"lai-processor-product-formatter", []⟩]
            if rm then l ++ [⟨"files-remover", []⟩] else l), [], init.length) =
        some (lw, refs, init.length + tiles.length * tasksPerTile g) ∧
      lw.length = init.length + tiles.length * tasksPerTile g + 1 + rm.toNat ∧
      CreateTasksForNewProduct g init tiles rm = some l ∧
      l.length = lw.length ∧
      init.length + tiles.length * tasksPerTile g + rm.toNat = l.length - 1 ∧
      GetStepsForMonodateLaiIdx ctx g tiles l rm init.length = some (steps, l.length) ∧
      steps.map (fun s => s.task) = List.range' init.length (l.length - init.length) ∧
      ∀ s ∈ steps, init.length ≤ s.task ∧ s.task < l.length := by
  have hlen := length_builtList g init tiles.length rm
  have hw : wireAllTiles g init.length tiles.length
      ((let l := appendAllTiles g tiles.length init ++ [⟨"lai-processor-product-formatter", []⟩]
        if rm then l ++ [⟨"files-remover", []⟩] else l), [], init.length) =
      some (init ++ (wiredTiles g (decide (0 < init.length)) init.length tiles.length ++
          (⟨"lai-processor-product-formatter", []⟩ ::
            (if rm then [⟨"files-remover", []⟩] else []))),
        formatterRefs g init.length tiles.length,
        init.length + tiles.length * tasksPerTile g) := by
    have hf := wireAllTiles_frame g init.length tiles.length init
      (⟨"lai-processor-product-formatter", []⟩ :: (if rm then [⟨"files-remover", []⟩] else []))
      [] init.length rfl
    rw [List.nil_append] at hf
    rw [← hf, appendAllTiles_eq]
    cases rm <;> simp
  have hmap := map_task_productSteps ctx g tiles rm init.length
  have hrange : tiles.length * tasksPerTile g + 1 + rm.toNat =
      (builtList g init tiles.length rm).length - init.length := by rw [hlen]; omega
  refine ⟨_, _, _, productSteps ctx g tiles rm init.length, hw, ?_,
    CreateTasksForNewProduct_eq g init tiles rm, ?_, ?_, ?_, ?_, ?_⟩
  · cases rm <;> simp [length_wiredTiles] <;> omega
  · rw [hlen]; cases rm <;> simp [length_wiredTiles] <;> omega
  · rw [hlen]; omega
  · rw [GetStepsForMonodateLaiIdx_eq ctx g tiles _ rm init.length h (by rw [hlen]), hlen]
  · rw [hmap, hrange]
  · intro s hs
    have hm : s.task ∈ (productSteps ctx g tiles rm init.length).map (fun s => s.task) :=
      List.mem_map_of_mem _ hs
    rw [hmap, List.mem_range'_1] at hm
    rw [hlen]; omega

/-- Witness of C37: one earlier task in the list, two tiles with NDVI and LAI, cleanup on; the
list has 23 tasks after the call and the binder ends at index 23. -/
theorem passes_stay_in_bounds_witness :
    ([⟨"a.xml"⟩, ⟨"b.xml"⟩] : List TileInfos) ≠ [] ∧
    ∃ l steps,
      CreateTasksForNewProduct ⟨true, true, false, false⟩ [⟨"earlier", []⟩]
        [⟨"a.xml"⟩, ⟨"b.xml"⟩] true = some l ∧
      l.length = 23 ∧
      GetStepsForMonodateLaiIdx sampleContext ⟨true, true, false, false⟩ [⟨"a.xml"⟩, ⟨"b.xml"⟩]
        l true 1 = some (steps, 23) := by
  obtain ⟨lw, refs, l, steps, -, h2, h3, h4, -, h6, -, -⟩ :=
    passes_stay_in_bounds sampleContext ⟨true, true, false, false⟩ [⟨"earlier", []⟩]
      [⟨"a.xml"⟩, ⟨"b.xml"⟩] true (by decide)
  have hl : l.length = 23 := by rw [h4, h2]; rfl
  rw [hl] at h6
  exact ⟨by decide, l, steps, h3, hl, h6⟩

end Sen2Agri
